import Mathlib

/-!
# GCE block-storage volume source (`provider/gce/disks.go`)

A shallow embedding of the volume lifecycle manager of the GCE provider and
theorems about it.

Conventions of the embedding.

* Go `string` is `String`; the only byte-level operation of the file is the
  search for the ASCII separator `"--"`, which on well-formed UTF-8 text finds
  the same occurrences charwise and bytewise.
* `uint64` is `Nat` reduced modulo `2 ^ 64` at every arithmetic operation;
  `int64` is `Int`.
* Go `error` is `Option GoError` (`none` is `nil`); a pointer result is an
  `Option`; a Go multi-value return is a tuple.
* The backend connection is an arbitrary deterministic transition system over
  a state type `σ`.  Every operation threads a `World σ`: the backend state
  and the log of backend calls issued so far, oldest first.
* A run-time panic (nil pointer dereference) makes an operation return `none`.
* Calls to the process-wide logger have no effect on any value computed and
  are left out.
* The goroutines of `DestroyVolumes` are embedded twice: as a function of the
  order in which the tasks run (`DestroyVolumes`), and as a step relation over
  the body and the goroutines (`destroyStep`), in which `go` binds its
  arguments at dispatch, a deferred `wg.Done()` decrements the counter of the
  `sync.WaitGroup`, and `wg.Wait()` is passed only with the counter at zero.
-/

namespace Gce

/-! ## Errors -/

/-- Go error values as built by `errors.New`, `errors.Errorf`, `errors.Annotate(f)` and
`errors.Trace`.  A formatted message is kept as its format string and arguments. -/
inductive GoError where
  | new (msg : String)
  | errorf (format : String) (args : List String)
  | annotate (cause : GoError) (format : String) (args : List String)
  | trace (cause : GoError)
  deriving DecidableEq, Repr

/-! ## Data model -/

namespace google

/-- Modelled from the spec: status filter selecting running instances; the constant is declared
in the `google` package. -/
def StatusRunning : String := "RUNNING"

/-- Modelled from the spec: the standard persistent-disk type used when no usable `type`
attribute is given; the constant is declared in the `google` package. -/
def DiskTypePersistentStandard : String := "pd-standard"

/-- Modelled from the spec: cloud instance record (ID, zone, status); declared in the `google`
package. -/
structure Instance where
  ID : String
  ZoneName : String
  Status : String
  deriving DecidableEq, Repr

/-- Modelled from the spec: backend-facing creation request, with the three fields that
`createOneVolume` fills in. -/
structure DiskSpec where
  SizeHintGB : Nat
  Name : String
  PersistentDiskType : String
  deriving DecidableEq, Repr

/-- Modelled from the spec: a disk as reported by the backend (`Id` is `uint64`, `SizeGb` is
`int64`). -/
structure Disk where
  Id : Nat
  Name : String
  SizeGb : Int
  deriving DecidableEq, Repr

/-- Modelled from the spec: a disk attached to an instance, as reported by the backend. -/
structure AttachedDisk where
  VolumeName : String
  DeviceName : String
  Mode : String
  deriving DecidableEq, Repr

end google

open google

/-- Modelled from the spec: dynamically typed attribute value (`interface{}`); only the string
case is inspected by the code. -/
inductive AttrValue where
  | str (s : String)
  | int (n : Int)
  | bool (b : Bool)
  deriving DecidableEq, Repr

/-- Modelled from the spec: attachment request (`storage.VolumeAttachmentParams` with its
embedded `AttachmentParams`), with the fields the code reads. -/
structure VolumeAttachmentParams where
  Machine : String
  InstanceId : String
  ReadOnly : Bool
  Volume : String
  VolumeId : String
  deriving DecidableEq, Repr

/-- Modelled from the spec: `storage.VolumeParams`: owning tag, requested size in mebibytes
(`uint64`), free-form attribute map and the optional attachment request (a pointer, `none` when
nil). -/
structure VolumeParams where
  Tag : String
  Size : Nat
  Attributes : String → Option AttrValue
  Attachment : Option VolumeAttachmentParams

/-- Modelled from the spec: `storage.VolumeInfo`. -/
structure VolumeInfo where
  VolumeId : String
  Size : Nat
  Persistent : Bool
  deriving DecidableEq, Repr

/-- Modelled from the spec: `storage.Volume`: owning tag and the embedded `VolumeInfo`. -/
structure Volume where
  Tag : String
  info : VolumeInfo
  deriving DecidableEq, Repr

/-- Modelled from the spec: `storage.VolumeAttachmentInfo`. -/
structure VolumeAttachmentInfo where
  DeviceName : String
  deriving DecidableEq, Repr

/-- Modelled from the spec: `storage.VolumeAttachment`: volume tag, machine tag and the
embedded `VolumeAttachmentInfo`. -/
structure VolumeAttachment where
  Volume : String
  Machine : String
  info : VolumeAttachmentInfo
  deriving DecidableEq, Repr

/-- Modelled from the spec: `storage.CreateVolumesResult`. -/
structure CreateVolumesResult where
  Volume : Option Volume
  VolumeAttachment : Option VolumeAttachment
  Error : Option GoError
  deriving DecidableEq, Repr

/-- Modelled from the spec: `storage.AttachVolumesResult`. -/
structure AttachVolumesResult where
  VolumeAttachment : Option VolumeAttachment
  Error : Option GoError
  deriving DecidableEq, Repr

/-- Modelled from the spec: `storage.DescribeVolumesResult`. -/
structure DescribeVolumesResult where
  VolumeInfo : Option VolumeInfo
  Error : Option GoError
  deriving DecidableEq, Repr

/-- Zero value of `CreateVolumesResult`, the content of a freshly made slice slot. -/
def CreateVolumesResult.zero : CreateVolumesResult := ⟨none, none, none⟩

/-- Zero value of `AttachVolumesResult`. -/
def AttachVolumesResult.zero : AttachVolumesResult := ⟨none, none⟩

/-- Zero value of `DescribeVolumesResult`. -/
def DescribeVolumesResult.zero : DescribeVolumesResult := ⟨none, none⟩

/-- Zero value `google.Instance{}`. -/
def Instance.zero : Instance := ⟨"", "", ""⟩

/-! ## Backend connection and world -/

/-- Modelled from the spec: the cloud connection contract `gceConnection`, each method a
transition of the backend state.  A method either fails with an error or yields its value. -/
structure gceConnection (σ : Type) where
  Instances : String → List String → σ → Except GoError (List Instance) × σ
  CreateDisks : String → List DiskSpec → σ → Except GoError (List google.Disk) × σ
  RemoveDisk : String → String → σ → Option GoError × σ
  AttachDisk : String → String → String → String → σ → Except GoError AttachedDisk × σ
  DetachDisk : String → String → String → σ → Option GoError × σ
  Disk : String → String → σ → Except GoError google.Disk × σ
  Disks : String → σ → Except GoError (List google.Disk) × σ
  InstanceDisks : String → String → σ → Except GoError (List AttachedDisk) × σ
  AvailabilityZones : String → σ → Except GoError (List String) × σ

/-- A backend call with its arguments, as recorded in the call log. -/
inductive Call where
  | Instances (pfx : String) (statuses : List String)
  | CreateDisks (zone : String) (disks : List DiskSpec)
  | RemoveDisk (zone : String) (name : String)
  | AttachDisk (zone volumeName instanceId mode : String)
  | DetachDisk (zone instanceId volumeName : String)
  | Disk (zone name : String)
  | Disks (zone : String)
  | InstanceDisks (zone instanceId : String)
  | AvailabilityZones (region : String)
  deriving DecidableEq, Repr

/-- Backend state together with the log of the backend calls issued so far (oldest first). -/
structure World (σ : Type) where
  st : σ
  calls : List Call

/-- The receiver `gceVolumeSource`, together with the package-level UUID generator
`utils.NewUUID` (yielding the UUID's string form) on which `nameVolume` relies. -/
structure gceVolumeSource (σ : Type) where
  gce : gceConnection σ
  envName : String
  envUUID : String
  NewUUID : σ → Except GoError String × σ

variable {σ : Type}

/-- Issue `Instances` on the backend and log the call. -/
def gceConnection.doInstances (g : gceConnection σ) (pfx : String) (statuses : List String)
    (w : World σ) : Except GoError (List Instance) × World σ :=
  let r := g.Instances pfx statuses w.st
  (r.1, ⟨r.2, w.calls ++ [Call.Instances pfx statuses]⟩)

/-- Issue `CreateDisks` on the backend and log the call. -/
def gceConnection.doCreateDisks (g : gceConnection σ) (zone : String) (disks : List DiskSpec)
    (w : World σ) : Except GoError (List google.Disk) × World σ :=
  let r := g.CreateDisks zone disks w.st
  (r.1, ⟨r.2, w.calls ++ [Call.CreateDisks zone disks]⟩)

/-- Issue `RemoveDisk` on the backend and log the call. -/
def gceConnection.doRemoveDisk (g : gceConnection σ) (zone name : String)
    (w : World σ) : Option GoError × World σ :=
  let r := g.RemoveDisk zone name w.st
  (r.1, ⟨r.2, w.calls ++ [Call.RemoveDisk zone name]⟩)

/-- Issue `AttachDisk` on the backend and log the call. -/
def gceConnection.doAttachDisk (g : gceConnection σ) (zone volumeName instanceId mode : String)
    (w : World σ) : Except GoError AttachedDisk × World σ :=
  let r := g.AttachDisk zone volumeName instanceId mode w.st
  (r.1, ⟨r.2, w.calls ++ [Call.AttachDisk zone volumeName instanceId mode]⟩)

/-- Issue `DetachDisk` on the backend and log the call. -/
def gceConnection.doDetachDisk (g : gceConnection σ) (zone instanceId volumeName : String)
    (w : World σ) : Option GoError × World σ :=
  let r := g.DetachDisk zone instanceId volumeName w.st
  (r.1, ⟨r.2, w.calls ++ [Call.DetachDisk zone instanceId volumeName]⟩)

/-- Issue `Disk` on the backend and log the call. -/
def gceConnection.doDisk (g : gceConnection σ) (zone name : String)
    (w : World σ) : Except GoError google.Disk × World σ :=
  let r := g.Disk zone name w.st
  (r.1, ⟨r.2, w.calls ++ [Call.Disk zone name]⟩)

/-- Issue `Disks` on the backend and log the call. -/
def gceConnection.doDisks (g : gceConnection σ) (zone : String)
    (w : World σ) : Except GoError (List google.Disk) × World σ :=
  let r := g.Disks zone w.st
  (r.1, ⟨r.2, w.calls ++ [Call.Disks zone]⟩)

/-- Issue `InstanceDisks` on the backend and log the call. -/
def gceConnection.doInstanceDisks (g : gceConnection σ) (zone instanceId : String)
    (w : World σ) : Except GoError (List AttachedDisk) × World σ :=
  let r := g.InstanceDisks zone instanceId w.st
  (r.1, ⟨r.2, w.calls ++ [Call.InstanceDisks zone instanceId]⟩)

/-- Issue `AvailabilityZones` on the backend and log the call. -/
def gceConnection.doAvailabilityZones (g : gceConnection σ) (region : String)
    (w : World σ) : Except GoError (List String) × World σ :=
  let r := g.AvailabilityZones region w.st
  (r.1, ⟨r.2, w.calls ++ [Call.AvailabilityZones region]⟩)

/-! ## Unit conversions -/

/-- The modulus of `uint64` arithmetic. -/
def uint64Mod : Nat := 2 ^ 64

/-- Conversion `uint64(x)` of an `int64` value: reduction modulo `2 ^ 64`. -/
def toUint64 (x : Int) : Nat := (x % (2 ^ 64 : Int)).toNat

/-- Source `mibToGib`: `(m + 1023) / 1024` in `uint64` arithmetic. -/
def mibToGib (m : Nat) : Nat := ((m + 1023) % uint64Mod) / 1024

/-- Source `gibToMib`: `g * 1024` in `uint64` arithmetic. -/
def gibToMib (g : Nat) : Nat := (g * 1024) % uint64Mod

/-! ## Volume-ID codec -/

/-- Go `strings.Cut` on character lists: the parts before and after the first occurrence of
`sep`, or `none` when `sep` does not occur. -/
def cut (sep : List Char) : List Char → Option (List Char × List Char)
  | [] => if sep.isPrefixOf [] then some ([], []) else none
  | c :: cs =>
    if sep.isPrefixOf (c :: cs) then some ([], (c :: cs).drop sep.length)
    else match cut sep cs with
      | none => none
      | some (a, b) => some (c :: a, b)

/-- Go `strings.SplitN(s, sep, n)` for a non-empty `sep` and `n ≥ 0`, on character lists: at
most `n` parts, the last one being the unsplit remainder. -/
def splitN (sep : List Char) : Nat → List Char → List (List Char)
  | 0, _ => []
  | 1, s => [s]
  | n + 2, s =>
    match cut sep s with
    | none => [s]
    | some (a, b) => a :: splitN sep (n + 1) b

/-- Go `strings.SplitN` on strings. -/
def SplitN (s sep : String) (n : Nat) : List String :=
  (splitN sep.data n s.data).map String.mk

/-- The malformed-ID error of `parseVolumeId`. -/
def malformedVolumeId (volName : String) : GoError :=
  GoError.errorf "malformed volume id %q" [volName]

/-- Source `parseVolumeId`: zone, unique suffix and error. -/
def parseVolumeId (volName : String) : String × String × Option GoError :=
  match SplitN volName "--" 2 with
  | [zone, volumeUUID] => (zone, volumeUUID, none)
  | _ => ("", "", some (malformedVolumeId volName))

/-- Source `nameVolume`: `<zone>--<fresh UUID>`, or the failure of the UUID generator. -/
def nameVolume (v : gceVolumeSource σ) (zone : String) (w : World σ) :
    (String × Option GoError) × World σ :=
  match v.NewUUID w.st with
  | (.error err, s) => (("", some (GoError.trace err)), ⟨s, w.calls⟩)
  | (.ok volumeUUID, s) => ((zone ++ "--" ++ volumeUUID, none), ⟨s, w.calls⟩)

/-! ## Instance cache -/

/-- Source type `instanceCache`: a map from instance ID to instance record. -/
abbrev instanceCache := String → Option Instance

/-- The empty map `make(instanceCache)`. -/
def instanceCache.empty : instanceCache := fun _ => none

/-- Map assignment `c[id] = inst`. -/
def instanceCache.insert (c : instanceCache) (id : String) (inst : Instance) : instanceCache :=
  fun k => if k = id then some inst else c k

/-- Source `instanceCache.update`. -/
def instanceCache.update (c : instanceCache) (gceClient : gceConnection σ) (ids : List String)
    (w : World σ) : Option GoError × instanceCache × World σ :=
  let cached : Bool := match ids with
    | [id] => (c id).isSome
    | _ => false
  if cached then (none, c, w)
  else
    match gceClient.doInstances "" [StatusRunning] w with
    | (.error err, w1) => (some (GoError.annotate err "querying instance details" []), c, w1)
    | (.ok instances, w1) =>
      (none,
       instances.foldl (fun c inst =>
         if inst.ID ∈ ids then c.insert inst.ID inst else c) c,
       w1)

/-- Source `instanceCache.get`. -/
def instanceCache.get (c : instanceCache) (id : String) : Instance × Option GoError :=
  match c id with
  | none => (Instance.zero, some (GoError.errorf "cannot attach to non-running instance %v" [id]))
  | some inst => (inst, none)

/-! ## Volume lifecycle manager -/

/-- Source `ValidateVolumeParams`: always nil. -/
def ValidateVolumeParams (_v : gceVolumeSource σ) (_params : VolumeParams) : Option GoError :=
  none

/-- Source `attachOneVolume`. -/
def attachOneVolume (v : gceVolumeSource σ) (volumeName mode instanceId : String) (w : World σ) :
    (Option AttachedDisk × Option GoError) × World σ :=
  match parseVolumeId volumeName with
  | (_, _, some err) => ((none, some (GoError.annotate err "invalid volume name" [])), w)
  | (zone, _, none) =>
    match v.gce.doInstanceDisks zone instanceId w with
    | (.error err, w1) =>
      ((none, some (GoError.annotate err
          "cannot verify if the disk is already in the instance" [])), w1)
    | (.ok instanceDisks, w1) =>
      match instanceDisks.find? (fun disk => disk.VolumeName == volumeName) with
      | some disk => ((some disk, none), w1)
      | none =>
        match v.gce.doAttachDisk zone volumeName instanceId mode w1 with
        | (.error err, w2) => ((none, some (GoError.annotate err "cannot attach volume" [])), w2)
        | (.ok attachment, w2) => ((some attachment, none), w2)

/-- Disk type chosen by source `createOneVolume`: the `type` attribute when it is a string,
the standard persistent type otherwise (`p.Attributes["type"].(string)` with its fallback). -/
def persistentTypeOf (p : VolumeParams) : String :=
  match p.Attributes "type" with
  | some (AttrValue.str s) => s
  | _ => DiskTypePersistentStandard

/-- Result of the body of `createOneVolume`: the returned triple and the final values of the
locals `volumeName` and `zone` read by the deferred function. -/
structure CreateOneReturn where
  volume : Option Volume
  attachment : Option VolumeAttachment
  err : Option GoError
  volumeName : String
  zone : String
  deriving DecidableEq, Repr

/-- Body of source `createOneVolume`, up to and including its return statement.  The result is
`none` when the body panics on a nil pointer (an absent `Attachment`, or a nil attached disk
returned without error). -/
def createOneVolumeBody (v : gceVolumeSource σ) (p : VolumeParams) (instances : instanceCache)
    (w : World σ) : Option (CreateOneReturn × instanceCache × World σ) :=
  match p.Attachment with
  | none => none
  | some att =>
    let instId := att.InstanceId
    match instances.update v.gce [instId] w with
    | (some err, c1, w1) => some (⟨none, none, some (GoError.trace err), "", ""⟩, c1, w1)
    | (none, c1, w1) =>
      match c1.get instId with
      | (_, some err) => some (⟨none, none, some (GoError.trace err), "", ""⟩, c1, w1)
      | (inst, none) =>
        let persistentType := persistentTypeOf p
        let zone := inst.ZoneName
        match nameVolume v zone w1 with
        | ((volumeName, some err), w2) =>
          some (⟨none, none, some (GoError.annotate err "cannot create a new volume name" []),
                 volumeName, zone⟩, c1, w2)
        | ((volumeName, none), w2) =>
          let disk : DiskSpec :=
            { SizeHintGB := mibToGib p.Size, Name := volumeName,
              PersistentDiskType := persistentType }
          match v.gce.doCreateDisks zone [disk] w2 with
          | (.error err, w3) =>
            some (⟨none, none, some (GoError.annotate err "cannot create disk" []),
                   volumeName, zone⟩, c1, w3)
          | (.ok gceDisks, w3) =>
            match gceDisks with
            | [gceDisk] =>
              let volume : Volume :=
                { Tag := p.Tag,
                  info := { VolumeId := gceDisk.Name, Size := gibToMib (toUint64 gceDisk.SizeGb),
                            Persistent := true } }
              match attachOneVolume v gceDisk.Name "READ_WRITE" inst.ID w3 with
              | ((_, some _), w4) =>
                some (⟨some volume, none, none, volumeName, zone⟩, c1, w4)
              | ((some attachedDisk, none), w4) =>
                some (⟨some volume,
                       some { Volume := p.Tag, Machine := att.Machine,
                              info := { DeviceName := attachedDisk.DeviceName } },
                       none, volumeName, zone⟩, c1, w4)
              | ((none, none), _) => none
            | _ =>
              some (⟨none, none, some (GoError.new "unexpected number of disks created"),
                     volumeName, zone⟩, c1, w3)

/-- Source `createOneVolume`: the body followed by the deferred function, which removes the
disk named `volumeName` when the returned error is non-nil and `volumeName` is non-empty; a
failure of that removal is only logged.  (When the body panics the deferred function finds
`err == nil` and does nothing.) -/
def createOneVolume (v : gceVolumeSource σ) (p : VolumeParams) (instances : instanceCache)
    (w : World σ) :
    Option ((Option Volume × Option VolumeAttachment × Option GoError) × instanceCache × World σ) :=
  match createOneVolumeBody v p instances w with
  | none => none
  | some (r, c1, w1) =>
    if r.err.isNone || r.volumeName == "" then
      some ((r.volume, r.attachment, r.err), c1, w1)
    else
      some ((r.volume, r.attachment, r.err), c1, (v.gce.doRemoveDisk r.zone r.volumeName w1).2)

/-- Update of one slot of a slice: `l[i] = f(l[i])`. -/
def modifyAt {α : Type} (f : α → α) : Nat → List α → List α
  | _, [] => []
  | 0, x :: xs => f x :: xs
  | i + 1, x :: xs => x :: modifyAt f i xs

/-- `set.Strings.Add`: a set of strings kept as a duplicate-free list. -/
def setAdd (s : List String) (x : String) : List String :=
  if x ∈ s then s else s ++ [x]

/-- First loop of source `CreateVolumes`, from index `i` on: validates each item and collects
the referenced instance IDs.  It panics (`none`) on an item without `Attachment`. -/
def validateLoop (v : gceVolumeSource σ) :
    Nat → List VolumeParams → List CreateVolumesResult → List String →
    Option (List CreateVolumesResult × List String)
  | _, [], results, instanceIds => some (results, instanceIds)
  | i, p :: ps, results, instanceIds =>
    match ValidateVolumeParams v p with
    | some err =>
      validateLoop v (i + 1) ps (modifyAt (fun r => { r with Error := some err }) i results)
        instanceIds
    | none =>
      match p.Attachment with
      | none => none
      | some att => validateLoop v (i + 1) ps results (setAdd instanceIds att.InstanceId)

/-- Second loop of source `CreateVolumes`, from index `i` on: creates one volume for every item
whose slot carries no error. -/
def createLoop (v : gceVolumeSource σ) :
    Nat → List VolumeParams → List CreateVolumesResult → instanceCache → World σ →
    Option (List CreateVolumesResult × instanceCache × World σ)
  | _, [], results, instances, w => some (results, instances, w)
  | i, p :: ps, results, instances, w =>
    if ((results.getD i CreateVolumesResult.zero).Error).isSome then
      createLoop v (i + 1) ps results instances w
    else
      match createOneVolume v p instances w with
      | none => none
      | some ((_, _, some err), c1, w1) =>
        createLoop v (i + 1) ps (modifyAt (fun r => { r with Error := some err }) i results) c1 w1
      | some ((volume, attachment, none), c1, w1) =>
        createLoop v (i + 1) ps
          (modifyAt (fun r => { r with Volume := volume, VolumeAttachment := attachment })
            i results) c1 w1

/-- Source `CreateVolumes`: the results and the overall error, or `none` on a panic. -/
def CreateVolumes (v : gceVolumeSource σ) (params : List VolumeParams) (w : World σ) :
    Option ((List CreateVolumesResult × Option GoError) × World σ) :=
  let results := List.replicate params.length CreateVolumesResult.zero
  match validateLoop v 0 params results [] with
  | none => none
  | some (results, instanceIds) =>
    let instances := instanceCache.empty
    let cw : instanceCache × World σ :=
      if instanceIds.length > 1 then (instances.update v.gce instanceIds w).2
      else (instances, w)
    match createLoop v 0 params results cw.1 cw.2 with
    | none => none
    | some (results, _, w2) => some ((results, none), w2)

/-- Source `destroyOneVolume`. -/
def destroyOneVolume (v : gceVolumeSource σ) (volName : String) (w : World σ) :
    Option GoError × World σ :=
  match parseVolumeId volName with
  | (_, _, some err) => (some (GoError.annotate err "invalid volume id %q" [volName]), w)
  | (zone, _, none) =>
    match v.gce.doRemoveDisk zone volName w with
    | (some err, w1) => (some (GoError.annotate err "cannot destroy volume %q" [volName]), w1)
    | (none, w1) => (none, w1)

/-- The deletion tasks of source `DestroyVolumes`, run in the order `sched` of their indices.
Each task issues at most one backend call, so every interleaving of the tasks is such an
order; task `i` writes slot `i` of the results. -/
def destroyTasks (v : gceVolumeSource σ) (volNames : List String) :
    List Nat → List (Option GoError) → World σ → List (Option GoError) × World σ
  | [], results, w => (results, w)
  | i :: rest, results, w =>
    match volNames[i]? with
    | none => destroyTasks v volNames rest results w
    | some volName =>
      let r := destroyOneVolume v volName w
      destroyTasks v volNames rest (results.set i r.1) r.2

/-- Source `DestroyVolumes`, for a completion order `sched` of its tasks (a permutation of the
indices of `volNames`). -/
def DestroyVolumes (v : gceVolumeSource σ) (volNames : List String) (sched : List Nat)
    (w : World σ) : (List (Option GoError) × Option GoError) × World σ :=
  let results : List (Option GoError) := List.replicate volNames.length none
  let r := destroyTasks v volNames sched results w
  ((r.1, none), r.2)

/-- Loop of source `ListVolumes` over the availability zones. -/
def listLoop (v : gceVolumeSource σ) :
    List String → List String → World σ → List String × World σ
  | [], volumes, w => (volumes, w)
  | zone :: azs, volumes, w =>
    match v.gce.doDisks zone w with
    | (.error _, w1) => listLoop v azs volumes w1
    | (.ok disks, w1) => listLoop v azs (volumes ++ disks.map (fun disk => disk.Name)) w1

/-- Source `ListVolumes` (a nil slice is the empty list). -/
def ListVolumes (v : gceVolumeSource σ) (w : World σ) :
    (List String × Option GoError) × World σ :=
  match v.gce.doAvailabilityZones "" w with
  | (.error err, w1) =>
    (([], some (GoError.annotate err "cannot determine availability zones" [])), w1)
  | (.ok azs, w1) =>
    let r := listLoop v azs [] w1
    ((r.1, none), r.2)

/-- Source `describeOneVolume`. -/
def describeOneVolume (v : gceVolumeSource σ) (volName : String) (w : World σ) :
    (DescribeVolumesResult × Option GoError) × World σ :=
  match parseVolumeId volName with
  | (_, _, some err) =>
    ((DescribeVolumesResult.zero, some (GoError.annotate err "cannot describe %q" [volName])), w)
  | (zone, _, none) =>
    match v.gce.doDisk zone volName w with
    | (.error err, w1) =>
      ((DescribeVolumesResult.zero,
        some (GoError.annotate err "cannot get volume %q" [volName])), w1)
    | (.ok disk, w1) =>
      ((⟨some { Size := gibToMib (toUint64 disk.SizeGb), VolumeId := disk.Name,
                Persistent := false }, none⟩, none), w1)

/-- Loop of source `DescribeVolumes`, from index `i` on; the results are `none` (nil) when an
item fails. -/
def describeLoop (v : gceVolumeSource σ) :
    Nat → List String → List DescribeVolumesResult → World σ →
    (Option (List DescribeVolumesResult) × Option GoError) × World σ
  | _, [], results, w => ((some results, none), w)
  | i, vol :: rest, results, w =>
    match describeOneVolume v vol w with
    | ((_, some err), w1) =>
      ((none, some (GoError.annotate err "cannot describe volumes" [])), w1)
    | ((res, none), w1) => describeLoop v (i + 1) rest (modifyAt (fun _ => res) i results) w1

/-- Source `DescribeVolumes`. -/
def DescribeVolumes (v : gceVolumeSource σ) (volNames : List String) (w : World σ) :
    (Option (List DescribeVolumesResult) × Option GoError) × World σ :=
  describeLoop v 0 volNames (List.replicate volNames.length DescribeVolumesResult.zero) w

/-- Loop of source `AttachVolumes`, from index `i` on (`none` on a nil attached disk returned
without error). -/
def attachLoop (v : gceVolumeSource σ) :
    Nat → List VolumeAttachmentParams → List AttachVolumesResult → World σ →
    Option (List AttachVolumesResult × World σ)
  | _, [], results, w => some (results, w)
  | i, attachment :: rest, results, w =>
    let volumeName := attachment.VolumeId
    let mode := if attachment.ReadOnly then "READ_ONLY" else "READ_WRITE"
    let instanceId := attachment.InstanceId
    match attachOneVolume v volumeName mode instanceId w with
    | ((_, some err), w1) =>
      attachLoop v (i + 1) rest (modifyAt (fun r => { r with Error := some err }) i results) w1
    | ((some attached, none), w1) =>
      let va : VolumeAttachment :=
        { Volume := attachment.Volume, Machine := attachment.Machine,
          info := { DeviceName := attached.DeviceName } }
      attachLoop v (i + 1) rest
        (modifyAt (fun r => { r with VolumeAttachment := some va }) i results) w1
    | ((none, none), _) => none

/-- Source `AttachVolumes`. -/
def AttachVolumes (v : gceVolumeSource σ) (attachParams : List VolumeAttachmentParams)
    (w : World σ) : Option ((List AttachVolumesResult × Option GoError) × World σ) :=
  match attachLoop v 0 attachParams
      (List.replicate attachParams.length AttachVolumesResult.zero) w with
  | none => none
  | some (results, w1) => some ((results, none), w1)

/-- Source `detachOneVolume`. -/
def detachOneVolume (v : gceVolumeSource σ) (attachParam : VolumeAttachmentParams)
    (w : World σ) : Option GoError × World σ :=
  let instId := attachParam.InstanceId
  let volumeName := attachParam.VolumeId
  match parseVolumeId volumeName with
  | (_, _, some err) =>
    (some (GoError.annotate err "%q is not a valid volume id" [volumeName]), w)
  | (zone, _, none) => v.gce.doDetachDisk zone instId volumeName w

/-- Loop of source `DetachVolumes`, from index `i` on. -/
def detachLoop (v : gceVolumeSource σ) :
    Nat → List VolumeAttachmentParams → List (Option GoError) → World σ →
    List (Option GoError) × World σ
  | _, [], result, w => (result, w)
  | i, volumeAttachment :: rest, result, w =>
    let r := detachOneVolume v volumeAttachment w
    detachLoop v (i + 1) rest (modifyAt (fun _ => r.1) i result) r.2

/-- Source `DetachVolumes`. -/
def DetachVolumes (v : gceVolumeSource σ) (attachParams : List VolumeAttachmentParams)
    (w : World σ) : (List (Option GoError) × Option GoError) × World σ :=
  let r := detachLoop v 0 attachParams (List.replicate attachParams.length none) w
  ((r.1, none), r.2)

/-! ## Call-log predicates -/

/-- Whether a logged backend call is a `RemoveDisk`. -/
def Call.isRemoveDisk : Call → Bool
  | Call.RemoveDisk _ _ => true
  | _ => false

/-- Whether a logged backend call is a `CreateDisks`. -/
def Call.isCreateDisks : Call → Bool
  | Call.CreateDisks _ _ => true
  | _ => false

/-- Whether a logged backend call is an `AttachDisk`. -/
def Call.isAttachDisk : Call → Bool
  | Call.AttachDisk _ _ _ _ => true
  | _ => false

/-- The point of source `CreateVolumes` at which its second loop reaches item `k`: the result
slots, the instance cache and the world after validation, pre-population of the cache and the
processing of the items before `k` (`none` if a panic occurred before). -/
def stateBeforeItem (v : gceVolumeSource σ) (params : List VolumeParams) (k : Nat)
    (w : World σ) : Option (List CreateVolumesResult × instanceCache × World σ) :=
  let results := List.replicate params.length CreateVolumesResult.zero
  match validateLoop v 0 params results [] with
  | none => none
  | some (results, instanceIds) =>
    let instances := instanceCache.empty
    let cw : instanceCache × World σ :=
      if instanceIds.length > 1 then (instances.update v.gce instanceIds w).2
      else (instances, w)
    createLoop v 0 (params.take k) results cw.1 cw.2

/-- The content of a fresh result slot after the loop body of `CreateVolumes` has stored the
outcome `(volume, attachment, err)` of `createOneVolume` in it: the error alone when there is
one, the volume and its attachment otherwise. -/
def itemResult (volume : Option Volume) (attachment : Option VolumeAttachment)
    (err : Option GoError) : CreateVolumesResult :=
  match err with
  | some e => ⟨none, none, some e⟩
  | none => ⟨volume, attachment, none⟩

/-- The error with which source `createOneVolume` fails an item whose instance cannot be
resolved: the traced failure `uerr` of the cache update when there is one, the traced
"cannot attach to non-running instance" failure of the lookup otherwise. -/
def unresolvedError (uerr : Option GoError) (instId : String) : GoError :=
  match uerr with
  | some e => GoError.trace e
  | none => GoError.trace (GoError.errorf "cannot attach to non-running instance %v" [instId])

/-! ## Specifications of the sequential operations -/

/-- Specification of the list returned by `ListVolumes`, in the words of its description: zone
by zone, in order, the names of the zone's disks when the listing of that zone succeeds and
nothing when it fails; each listing is issued in the world left by the previous one. -/
def listedVolumes (v : gceVolumeSource σ) : List String → World σ → List String
  | [], _ => []
  | zone :: azs, w =>
    match v.gce.doDisks zone w with
    | (.error _, w1) => listedVolumes v azs w1
    | (.ok disks, w1) => disks.map (fun disk => disk.Name) ++ listedVolumes v azs w1

/-- The disk names contributed by one zone under a fixed answer of the backend: the names of
the disks when the listing succeeds, nothing when it fails. -/
def zoneVolumes (answer : Except GoError (List google.Disk)) : List String :=
  match answer with
  | .error _ => []
  | .ok disks => disks.map (fun disk => disk.Name)

/-- Specification of `DescribeVolumes`, in the words of its description: the IDs are described
one after the other; the first ID whose description fails aborts the call with that failure
annotated and no result; when none fails, the descriptions are returned in order. -/
def describeAll (v : gceVolumeSource σ) :
    List String → World σ → Except GoError (List DescribeVolumesResult) × World σ
  | [], w => (.ok [], w)
  | vol :: rest, w =>
    match describeOneVolume v vol w with
    | ((_, some err), w1) => (.error (GoError.annotate err "cannot describe volumes" []), w1)
    | ((res, none), w1) =>
      match describeAll v rest w1 with
      | (.ok rs, w2) => (.ok (res :: rs), w2)
      | (.error e, w2) => (.error e, w2)

/-- Specification of a per-item, independent, sequential batch: the operation `f` is run on
the items in order, each in the world left by the previous one, and the outcomes are returned
in the order of the items. -/
def runEach {α β : Type} (f : α → World σ → β × World σ) :
    List α → World σ → List β × World σ
  | [], w => ([], w)
  | a :: rest, w =>
    let r := f a w
    let rs := runEach f rest r.2
    (r.1 :: rs.1, rs.2)

/-- Whether a logged backend call is an `Instances` query. -/
def Call.isInstances : Call → Bool
  | Call.Instances _ _ => true
  | _ => false

/-! ## Interleaved execution of `DestroyVolumes` -/

/-- Program points of one deletion goroutine of source `DestroyVolumes`: dispatched;
returned from `destroyOneVolume` with the value `err`, not yet stored; `results[i]` assigned,
the deferred `wg.Done()` pending; finished. -/
inductive TaskPc where
  | ready
  | computed (err : Option GoError)
  | written
  | done
  deriving DecidableEq, Repr

/-- Whether the goroutine has finished. -/
def TaskPc.isDone : TaskPc → Bool
  | .done => true
  | _ => false

/-- Whether the goroutine has not yet called `destroyOneVolume`. -/
def TaskPc.isReady : TaskPc → Bool
  | .ready => true
  | _ => false

/-- Whether the goroutine has assigned its result. -/
def TaskPc.hasWritten : TaskPc → Bool
  | .written => true
  | .done => true
  | _ => false

/-- A deletion goroutine: its arguments `i` and `volumeName`, bound when the `go` statement
is executed, and its program point. -/
structure Task where
  i : Nat
  volumeName : String
  pc : TaskPc
  deriving DecidableEq, Repr

/-- Program points of the body of `DestroyVolumes` after `wg.Add` and `make`: in the loop
with `k` goroutines dispatched (at `wg.Wait()` once the loop is over); returned. -/
inductive MainPc where
  | loop (k : Nat)
  | returned
  deriving DecidableEq, Repr

/-- State of an execution of source `DestroyVolumes`: the program point of its body, the
counter of the `sync.WaitGroup`, the shared slice `results`, the goroutines in dispatch order
(goroutine `g` is the one dispatched `g`-th), and the world.  Two fields record the history:
`writes` holds a pair `(g, j)` for every assignment of `results[j]` made by goroutine `g`,
`order` holds the goroutines in the order in which they called `destroyOneVolume`. -/
structure DestroyState (σ : Type) where
  main : MainPc
  wg : Int
  results : List (Option GoError)
  tasks : List Task
  writes : List (Nat × Nat)
  order : List Nat
  world : World σ

/-- The scheduler's choice: the next step is taken by the body of `DestroyVolumes` or by
goroutine `g`. -/
inductive DestroyAction where
  | main
  | task (g : Nat)
  deriving DecidableEq, Repr

/-- State of `DestroyVolumes` on entering the loop: `wg.Add(len(volNames))` and
`results := make([]error, len(volNames))` have been executed. -/
def destroyInit (volNames : List String) (w : World σ) : DestroyState σ where
  main := .loop 0
  wg := volNames.length
  results := List.replicate volNames.length none
  tasks := []
  writes := []
  order := []
  world := w

/-- One step of an execution of source `DestroyVolumes`; `none` when the chosen thread cannot
move (it has finished, does not exist, is blocked in `wg.Wait()`, or would panic on an index
out of range).

The body dispatches the goroutine of the next item, or, the loop being over, passes
`wg.Wait()` and returns, which `sync.WaitGroup` allows only when the counter is zero.  A
goroutine calls `destroyOneVolume` (one backend call at most, hence one step), then assigns
`results[i]`, then runs the deferred `wg.Done()`, which decrements the counter. -/
def destroyStep (v : gceVolumeSource σ) (volNames : List String) (s : DestroyState σ) :
    DestroyAction → Option (DestroyState σ)
  | .main =>
    match s.main with
    | .returned => none
    | .loop k =>
      match volNames[k]? with
      | some volumeName =>
        some { s with main := .loop (k + 1), tasks := s.tasks ++ [⟨k, volumeName, .ready⟩] }
      | none => if s.wg = 0 then some { s with main := .returned } else none
  | .task g =>
    match s.tasks[g]? with
    | none => none
    | some t =>
      match t.pc with
      | .ready =>
        let r := destroyOneVolume v t.volumeName s.world
        some { s with
          tasks := s.tasks.set g { t with pc := .computed r.1 },
          order := s.order ++ [g],
          world := r.2 }
      | .computed err =>
        if t.i < s.results.length then
          some { s with
            results := s.results.set t.i err,
            writes := s.writes ++ [(g, t.i)],
            tasks := s.tasks.set g { t with pc := .written } }
        else none
      | .written =>
        some { s with wg := s.wg - 1, tasks := s.tasks.set g { t with pc := .done } }
      | .done => none

/-- An execution of source `DestroyVolumes` under the schedule `acts`, from state `s`. -/
def destroyRun (v : gceVolumeSource σ) (volNames : List String) :
    List DestroyAction → DestroyState σ → Option (DestroyState σ)
  | [], s => some s
  | a :: acts, s =>
    match destroyStep v volNames s a with
    | none => none
    | some s1 => destroyRun v volNames acts s1

/-- Number of steps a goroutine still has to take. -/
def TaskPc.remaining : TaskPc → Nat
  | .ready => 3
  | .computed _ => 2
  | .written => 1
  | .done => 0

/-- Number of steps an execution of `DestroyVolumes volNames` in state `s` still has to
take: those of the body (four per goroutine not yet dispatched, of which three are the
goroutine's own, and one to return) and those of the goroutines dispatched. -/
def destroyMeasure (volNames : List String) (s : DestroyState σ) : Nat :=
  (match s.main with
    | .loop k => 4 * (volNames.length - k) + 1
    | .returned => 0) +
  (s.tasks.map (fun t => t.pc.remaining)).sum

/-- The invariant of the executions of `DestroyVolumes volNames` started in world `w`:
the shape of the state, the arguments of the goroutines, the value of the counter, the history
of the assignments, and the relation to the tasks run one after the other in the order
`s.order`. -/
structure DestroyInv (v : gceVolumeSource σ) (volNames : List String) (w : World σ)
    (s : DestroyState σ) : Prop where
  results_length : s.results.length = volNames.length
  tasks_le : s.tasks.length ≤ volNames.length
  loop_count : ∀ k, s.main = .loop k → s.tasks.length = k
  returned_done : s.main = .returned →
    s.tasks.length = volNames.length ∧ ∀ t ∈ s.tasks, t.pc = .done
  args : ∀ (g : Nat) (t : Task), s.tasks[g]? = some t → t.i = g ∧ volNames[g]? = some t.volumeName
  counter : s.wg = (volNames.length : Int) - (s.tasks.countP (fun t => t.pc.isDone) : Nat)
  writes_own : ∀ e ∈ s.writes,
    e.2 = e.1 ∧ ∃ t, s.tasks[e.1]? = some t ∧ t.pc.hasWritten = true
  writes_nodup : s.writes.Nodup
  written_logged : ∀ (g : Nat) (t : Task), s.tasks[g]? = some t → t.pc.hasWritten = true → (g, g) ∈ s.writes
  order_nodup : s.order.Nodup
  order_mem : ∀ g, g ∈ s.order ↔ ∃ t, s.tasks[g]? = some t ∧ t.pc.isReady = false
  world_eq : s.world =
    (destroyTasks v volNames s.order (List.replicate volNames.length none) w).2
  computed_eq : ∀ (g : Nat) (t : Task) (err : Option GoError), s.tasks[g]? = some t → t.pc = .computed err →
    (destroyTasks v volNames s.order (List.replicate volNames.length none) w).1[g]? = some err
  written_eq : ∀ (g : Nat) (t : Task), s.tasks[g]? = some t → t.pc.hasWritten = true →
    s.results[g]? =
      (destroyTasks v volNames s.order (List.replicate volNames.length none) w).1[g]?

/-! ## The items of `AttachVolumes` -/

/-- The call of `attachOneVolume` in the body of the loop of source `AttachVolumes`, for the
item `attachment`: the volume ID, the mode chosen from `ReadOnly`, the instance ID. -/
def attachItem (v : gceVolumeSource σ) (attachment : VolumeAttachmentParams) (w : World σ) :
    (Option AttachedDisk × Option GoError) × World σ :=
  attachOneVolume v attachment.VolumeId
    (if attachment.ReadOnly then "READ_ONLY" else "READ_WRITE") attachment.InstanceId w

/-- The result slot of an item after the body of the loop of source `AttachVolumes`, from
what `attachOneVolume` returned: the error, or else the attachment built from the item and
the device name of the attached disk. -/
def attachSlot (attachment : VolumeAttachmentParams) :
    Option AttachedDisk × Option GoError → AttachVolumesResult
  | (_, some err) => ⟨none, some err⟩
  | (some attached, none) =>
    ⟨some ⟨attachment.Volume, attachment.Machine, ⟨attached.DeviceName⟩⟩, none⟩
  | (none, none) => AttachVolumesResult.zero

/-- One item of `AttachVolumes`: its result slot and the world it leaves. -/
def attachStep (v : gceVolumeSource σ) (attachment : VolumeAttachmentParams) (w : World σ) :
    AttachVolumesResult × World σ :=
  (attachSlot attachment (attachItem v attachment w).1, (attachItem v attachment w).2)

/-- The world left by the items `ps` of `AttachVolumes` run in order from `w`. -/
def attachWorldAfter (v : gceVolumeSource σ) (ps : List VolumeAttachmentParams)
    (w : World σ) : World σ :=
  (runEach (attachStep v) ps w).2

/-- Whether, in backend state `s`, `InstanceDisks` for the zone and the instance succeeds and
reports a disk with the given volume name. -/
def reportsVolume (g : gceConnection σ) (zone instanceId volumeName : String) (s : σ) : Bool :=
  match (g.InstanceDisks zone instanceId s).1 with
  | .ok disks => disks.any (fun disk => disk.VolumeName == volumeName)
  | .error _ => false

/-- Number of `AttachDisk` requests among backend calls. -/
def attachDiskCount (calls : List Call) : Nat :=
  (calls.filter Call.isAttachDisk).length

/-- The backend calls logged between two worlds of a run. -/
def issuedBy (before after : World σ) : List Call :=
  after.calls.drop before.calls.length

/-! ## Concrete backends used to evaluate the operations -/

/-- A stateless backend with one running instance `i-1` in zone `us-east1-a`, answering
`CreateDisks` with `created` and `AttachDisk` with `attached`; removal, detachment and the
listing of an instance's disks (none attached) succeed. -/
def stubConn (created : Except GoError (List google.Disk))
    (attached : Except GoError AttachedDisk) : gceConnection Unit where
  Instances := fun _ _ s => (.ok [⟨"i-1", "us-east1-a", "RUNNING"⟩], s)
  CreateDisks := fun _ _ s => (created, s)
  RemoveDisk := fun _ _ s => (none, s)
  AttachDisk := fun _ _ _ _ s => (attached, s)
  DetachDisk := fun _ _ _ s => (none, s)
  Disk := fun _ name s => (.ok ⟨1, name, 1⟩, s)
  Disks := fun _ s => (.ok [], s)
  InstanceDisks := fun _ _ s => (.ok [], s)
  AvailabilityZones := fun _ s => (.ok ["us-east1-a"], s)

/-- A volume source over `stubConn` whose UUID generator always yields `u1`. -/
def stubSource (created : Except GoError (List google.Disk))
    (attached : Except GoError AttachedDisk) : gceVolumeSource Unit where
  gce := stubConn created attached
  envName := "env"
  envUUID := "uuid"
  NewUUID := fun s => (.ok "u1", s)

/-- The initial world over the stateless backend: no call issued yet. -/
def stubWorld : World Unit := ⟨(), []⟩

/-- A request for 2048 MiB to be attached to instance `i-1`. -/
def sampleParams : VolumeParams where
  Tag := "volume-0"
  Size := 2048
  Attributes := fun _ => none
  Attachment := some ⟨"machine-0", "i-1", false, "volume-0", ""⟩

/-- A request that carries no attachment (nil `Attachment`). -/
def detachedParams : VolumeParams where
  Tag := "volume-1"
  Size := 1024
  Attributes := fun _ => none
  Attachment := none

/-- A request for 1024 MiB to be attached to instance `i-9`, which the stateless backend does
not report as running. -/
def strayParams : VolumeParams where
  Tag := "volume-9"
  Size := 1024
  Attributes := fun _ => none
  Attachment := some ⟨"machine-9", "i-9", false, "volume-9", ""⟩

/-- A stateless backend with the zones `z1`, `z2`, `z3`: `z1` holds the disks `z1--a` and
`z1--b`, the listing of `z2` fails, `z3` holds the disk `z3--c`; `DetachDisk` fails with
"not attached" and `Disk` lookups fail with "no such disk". -/
def zonesConn : gceConnection Unit where
  Instances := fun _ _ s => (.ok [], s)
  CreateDisks := fun _ _ s => (.ok [], s)
  RemoveDisk := fun _ _ s => (none, s)
  AttachDisk := fun _ _ _ _ s => (.error (GoError.new "attach refused"), s)
  DetachDisk := fun _ _ _ s => (some (GoError.new "not attached"), s)
  Disk := fun _ _ s => (.error (GoError.new "no such disk"), s)
  Disks := fun zone s =>
    if zone = "z1" then (.ok [⟨1, "z1--a", 1⟩, ⟨2, "z1--b", 2⟩], s)
    else if zone = "z3" then (.ok [⟨3, "z3--c", 3⟩], s)
    else (.error (GoError.new "zone unavailable"), s)
  InstanceDisks := fun _ _ s => (.ok [], s)
  AvailabilityZones := fun _ s => (.ok ["z1", "z2", "z3"], s)

/-- A volume source over `zonesConn`. -/
def zonesSource : gceVolumeSource Unit where
  gce := zonesConn
  envName := "env"
  envUUID := "uuid"
  NewUUID := fun s => (.ok "u1", s)

/-- A backend whose state is the list of the volume names attached so far: a successful
`AttachDisk` records the volume, and `InstanceDisks` reports the recorded volumes, each under
the device name `sdb`. -/
def tableConn : gceConnection (List String) where
  Instances := fun _ _ s => (.ok [⟨"i-1", "us-east1-a", "RUNNING"⟩], s)
  CreateDisks := fun _ _ s => (.ok [], s)
  RemoveDisk := fun _ _ s => (none, s)
  AttachDisk := fun _ volumeName _ mode s => (.ok ⟨volumeName, "sdb", mode⟩, volumeName :: s)
  DetachDisk := fun _ _ _ s => (none, s)
  Disk := fun _ name s => (.ok ⟨1, name, 1⟩, s)
  Disks := fun _ s => (.ok [], s)
  InstanceDisks := fun _ _ s => (.ok (s.map (fun n => ⟨n, "sdb", "READ_WRITE"⟩)), s)
  AvailabilityZones := fun _ s => (.ok ["us-east1-a"], s)

/-- A volume source over `tableConn`. -/
def tableSource : gceVolumeSource (List String) where
  gce := tableConn
  envName := "env"
  envUUID := "uuid"
  NewUUID := fun s => (.ok "u1", s)

/-- A request to attach the volume `us-east1-a--u1` to the instance `i-1`, read-write. -/
def sampleAttach : VolumeAttachmentParams :=
  ⟨"machine-0", "i-1", false, "volume-0", "us-east1-a--u1"⟩

/-- A volume source over `stubConn` whose UUID generator fails. -/
def noUuidSource : gceVolumeSource Unit where
  gce := stubConn (.ok []) (.error (GoError.new ""))
  envName := "env"
  envUUID := "uuid"
  NewUUID := fun s => (.error (GoError.new "no entropy"), s)

/-- A request for 2048 MiB of type `pd-ssd` to be attached to instance `i-1`. -/
def ssdParams : VolumeParams where
  Tag := "volume-2"
  Size := 2048
  Attributes := fun k => if k = "type" then some (AttrValue.str "pd-ssd") else none
  Attachment := some ⟨"machine-0", "i-1", false, "volume-2", ""⟩

/-- A stateless backend on which the instances `i-1` (zone `us-east1-a`) and `i-2` (zone
`us-east1-b`) run; `CreateDisks` returns no disk. -/
def pairConn : gceConnection Unit where
  Instances := fun _ _ s =>
    (.ok [⟨"i-1", "us-east1-a", "RUNNING"⟩, ⟨"i-2", "us-east1-b", "RUNNING"⟩], s)
  CreateDisks := fun _ _ s => (.ok [], s)
  RemoveDisk := fun _ _ s => (none, s)
  AttachDisk := fun _ _ _ _ s => (.error (GoError.new "attach refused"), s)
  DetachDisk := fun _ _ _ s => (none, s)
  Disk := fun _ name s => (.ok ⟨1, name, 1⟩, s)
  Disks := fun _ s => (.ok [], s)
  InstanceDisks := fun _ _ s => (.ok [], s)
  AvailabilityZones := fun _ s => (.ok ["us-east1-a", "us-east1-b"], s)

/-- A volume source over `pairConn`. -/
def pairSource : gceVolumeSource Unit where
  gce := pairConn
  envName := "env"
  envUUID := "uuid"
  NewUUID := fun s => (.ok "u1", s)

/-- A request for 1024 MiB to be attached to instance `i-2`. -/
def otherParams : VolumeParams where
  Tag := "volume-3"
  Size := 1024
  Attributes := fun _ => none
  Attachment := some ⟨"machine-2", "i-2", false, "volume-3", ""⟩

/-- A schedule for two volumes in which the goroutines interleave: both are dispatched, the
second calls `destroyOneVolume` and assigns its result first, the first finishes first. -/
def interleavedSchedule : List DestroyAction :=
  [.main, .main, .task 1, .task 0, .task 1, .task 0, .task 0, .task 1, .main]

/-- A backend whose state is the number of `AttachDisk` requests it will still refuse and the
list of the volume names attached so far.  `AttachDisk` fails with "try again" while refusals
are left; after that it succeeds and records the volume.  `InstanceDisks` reports the
recorded volumes, each under the device name `sdb`. -/
def flakyConn : gceConnection (Nat × List String) where
  Instances := fun _ _ s => (.ok [⟨"i-1", "us-east1-a", "RUNNING"⟩], s)
  CreateDisks := fun _ _ s => (.ok [], s)
  RemoveDisk := fun _ _ s => (none, s)
  AttachDisk := fun _ volumeName _ mode s =>
    match s.1 with
    | 0 => (.ok ⟨volumeName, "sdb", mode⟩, (0, volumeName :: s.2))
    | k + 1 => (.error (GoError.new "try again"), (k, s.2))
  DetachDisk := fun _ _ _ s => (none, s)
  Disk := fun _ name s => (.ok ⟨1, name, 1⟩, s)
  Disks := fun _ s => (.ok [], s)
  InstanceDisks := fun _ _ s => (.ok (s.2.map (fun n => ⟨n, "sdb", "READ_WRITE"⟩)), s)
  AvailabilityZones := fun _ s => (.ok ["us-east1-a"], s)

/-- A volume source over `flakyConn`. -/
def flakySource : gceVolumeSource (Nat × List String) where
  gce := flakyConn
  envName := "env"
  envUUID := "uuid"
  NewUUID := fun s => (.ok "u1", s)

/-- A request to attach the volume `us-east1-a--u2` to the instance `i-1`, read-only. -/
def otherAttach : VolumeAttachmentParams :=
  ⟨"machine-0", "i-1", true, "volume-1", "us-east1-a--u2"⟩

/-! ## Theorems: unit conversions -/

/-- The ceiling of `m / 1024` is the integer quotient `(m + 1023) / 1024`. -/
theorem ceil_div_1024 (m : Nat) : ⌈(m : ℚ) / 1024⌉₊ = (m + 1023) / 1024 := by
  apply le_antisymm
  · rw [Nat.ceil_le, div_le_iff₀ (by norm_num)]
    have h : m ≤ (m + 1023) / 1024 * 1024 := by omega
    exact_mod_cast h
  · have h := Nat.le_ceil ((m : ℚ) / 1024)
    rw [div_le_iff₀ (by norm_num)] at h
    have h2 : m ≤ ⌈(m : ℚ) / 1024⌉₊ * 1024 := by exact_mod_cast h
    omega

/-- On `uint64` inputs `mibToGib` is the ceiling of `m / 1024` exactly when `m + 1023` does not
overflow, that is for `m ≤ 2 ^ 64 - 1024`. -/
theorem mibToGib_eq_ceil_iff (m : Nat) (hm : m < 2 ^ 64) :
    mibToGib m = ⌈(m : ℚ) / 1024⌉₊ ↔ m ≤ 2 ^ 64 - 1024 := by
  rw [ceil_div_1024]
  unfold mibToGib uint64Mod
  omega

/-- C3, evaluated at the largest `uint64`: `mibToGib (2 ^ 64 - 1)` is `0` although the ceiling
of `(2 ^ 64 - 1) / 1024` is `2 ^ 54`; the four boundary values of the claim do hold. -/
theorem mibToGib_max_uint64 :
    2 ^ 64 - 1 < uint64Mod ∧ mibToGib (2 ^ 64 - 1) = 0 ∧
      ⌈((2 ^ 64 - 1 : ℕ) : ℚ) / 1024⌉₊ = 2 ^ 54 ∧
      mibToGib 0 = 0 ∧ mibToGib 1 = 1 ∧ mibToGib 1024 = 1 ∧ mibToGib 1025 = 2 := by
  refine ⟨by decide, by decide, ?_, by decide, by decide, by decide, by decide⟩
  rw [ceil_div_1024]
  norm_num

/-- C4 fails at the largest `uint64`: the round trip of `2 ^ 64 - 1` is `0`. -/
theorem roundtrip_ge_counterexample :
    2 ^ 64 - 1 < uint64Mod ∧ ¬ (gibToMib (mibToGib (2 ^ 64 - 1)) ≥ 2 ^ 64 - 1) := by
  decide

/-- C4 as amended: for a `uint64` size `m`, the round trip through gibibytes yields at least `m`
exactly when `m ≤ 2 ^ 64 - 1024`. -/
theorem roundtrip_ge_iff (m : Nat) (hm : m < uint64Mod) :
    gibToMib (mibToGib m) ≥ m ↔ m ≤ 2 ^ 64 - 1024 := by
  unfold gibToMib mibToGib uint64Mod at *
  omega

/-- Instance of `roundtrip_ge_iff` at `m = 1025`, whose round trip is `2048`. -/
theorem roundtrip_ge_iff_witness :
    1025 < uint64Mod ∧ (gibToMib (mibToGib 1025) ≥ 1025 ↔ 1025 ≤ 2 ^ 64 - 1024) :=
  ⟨by decide, roundtrip_ge_iff 1025 (by decide)⟩

/-- C5: for a `uint64` size `m`, the round trip through gibibytes returns `m` itself if and
only if `m` is a multiple of 1024. -/
theorem roundtrip_eq_iff (m : Nat) (hm : m < uint64Mod) :
    gibToMib (mibToGib m) = m ↔ 1024 ∣ m := by
  unfold gibToMib mibToGib uint64Mod at *
  omega

/-- Instance of `roundtrip_eq_iff` at `m = 2048`. -/
theorem roundtrip_eq_iff_witness :
    2048 < uint64Mod ∧ (gibToMib (mibToGib 2048) = 2048 ↔ 1024 ∣ 2048) :=
  ⟨by decide, roundtrip_eq_iff 2048 (by decide)⟩

/-- C6 fails at `g = 2 ^ 54`: the product `2 ^ 64` wraps to `0`. -/
theorem gibToMib_counterexample :
    2 ^ 54 < uint64Mod ∧ gibToMib (2 ^ 54) ≠ 2 ^ 54 * 1024 := by
  decide

/-- C6 as amended: `gibToMib g` is `g * 1024` reduced modulo `2 ^ 64`, and it is the exact
product `g * 1024` if and only if `g < 2 ^ 54`. -/
theorem gibToMib_exact_iff (g : Nat) :
    gibToMib g = (g * 1024) % 2 ^ 64 ∧ (gibToMib g = g * 1024 ↔ g < 2 ^ 54) := by
  unfold gibToMib uint64Mod
  omega

/-! ## Theorems: volume-ID codec -/

/-- A successful `cut` splits its input around one occurrence of the separator. -/
theorem cut_sound (sep : List Char) :
    ∀ (s a b : List Char), cut sep s = some (a, b) → s = a ++ (sep ++ b) := by
  intro s
  induction s with
  | nil =>
    intro a b h
    unfold cut at h
    split at h
    · rename_i hp
      rw [List.isPrefixOf_iff_prefix, List.prefix_nil] at hp
      simp only [Option.some.injEq, Prod.mk.injEq] at h
      rw [← h.1, ← h.2, hp]
      rfl
    · exact absurd h (by simp)
  | cons c cs ih =>
    intro a b h
    unfold cut at h
    split at h
    · rename_i hp
      rw [List.isPrefixOf_iff_prefix, List.prefix_iff_eq_append] at hp
      simp only [Option.some.injEq, Prod.mk.injEq] at h
      rw [← h.1, ← h.2]
      exact hp.symm
    · cases hc : cut sep cs with
      | none => rw [hc] at h; exact absurd h (by simp)
      | some r =>
        obtain ⟨a1, b1⟩ := r
        rw [hc] at h
        simp only [Option.some.injEq, Prod.mk.injEq] at h
        rw [← h.1, ← h.2, List.cons_append, ← ih a1 b1 hc]

/-- A successful `cut` splits at the first occurrence: the separator starts at no earlier
position. -/
theorem cut_first (sep : List Char) :
    ∀ (s a b : List Char), cut sep s = some (a, b) →
      ∀ a1 a2 : List Char, a = a1 ++ a2 → a2 ≠ [] → ¬ sep <+: a2 ++ (sep ++ b) := by
  intro s
  induction s with
  | nil =>
    intro a b h a1 a2 ha ha2
    unfold cut at h
    split at h
    · simp only [Option.some.injEq, Prod.mk.injEq] at h
      rw [← h.1] at ha
      have := List.append_eq_nil.mp ha.symm
      exact absurd this.2 ha2
    · exact absurd h (by simp)
  | cons c cs ih =>
    intro a b h a1 a2 ha ha2
    unfold cut at h
    split at h
    · simp only [Option.some.injEq, Prod.mk.injEq] at h
      rw [← h.1] at ha
      have := List.append_eq_nil.mp ha.symm
      exact absurd this.2 ha2
    · rename_i hp
      cases hc : cut sep cs with
      | none => rw [hc] at h; exact absurd h (by simp)
      | some r =>
        obtain ⟨a', b'⟩ := r
        rw [hc] at h
        simp only [Option.some.injEq, Prod.mk.injEq] at h
        obtain ⟨h1, h2⟩ := h
        subst h2
        cases a1 with
        | nil =>
          rw [List.nil_append] at ha
          rw [← ha, ← h1, List.cons_append, ← cut_sound sep cs a' b' hc]
          rwa [List.isPrefixOf_iff_prefix] at hp
        | cons x a1' =>
          rw [← h1, List.cons_append] at ha
          have ht : a' = a1' ++ a2 := (List.cons.inj ha).2
          exact ih a' b' hc a1' a2 ht ha2

/-- The search `cut` fails exactly when the separator does not occur. -/
theorem cut_eq_none_iff (sep : List Char) :
    ∀ s : List Char, cut sep s = none ↔ ¬ sep <:+: s := by
  intro s
  induction s with
  | nil =>
    unfold cut
    rw [List.infix_nil]
    split
    · rename_i hp
      rw [List.isPrefixOf_iff_prefix, List.prefix_nil] at hp
      simp [hp]
    · rename_i hp
      rw [List.isPrefixOf_iff_prefix, List.prefix_nil] at hp
      simp [hp]
  | cons c cs ih =>
    unfold cut
    rw [List.infix_cons_iff]
    split
    · rename_i hp
      rw [List.isPrefixOf_iff_prefix] at hp
      simp [hp]
    · rename_i hp
      rw [List.isPrefixOf_iff_prefix] at hp
      cases hc : cut sep cs with
      | none =>
        have := ih.mp hc
        simp [hp, this]
      | some r =>
        have hne : ¬ cut sep cs = none := by rw [hc]; simp
        have hin : sep <:+: cs := by
          by_contra hcon
          exact hne (ih.mpr hcon)
        simp [hin]

/-- Source `parseVolumeId` expressed through `cut`: the two parts around the first separator,
or the malformed-ID failure. -/
theorem parseVolumeId_eq (volName : String) :
    parseVolumeId volName =
      match cut ['-', '-'] volName.data with
      | some (a, b) => (String.mk a, String.mk b, none)
      | none => ("", "", some (malformedVolumeId volName)) := by
  have hsep : "--".data = ['-', '-'] := rfl
  unfold parseVolumeId SplitN
  rw [hsep]
  show (match (splitN ['-', '-'] (0 + 2) volName.data).map String.mk with
    | [zone, volumeUUID] => (zone, volumeUUID, none)
    | _ => ("", "", some (malformedVolumeId volName))) = _
  unfold splitN
  cases cut ['-', '-'] volName.data with
  | none => rfl
  | some r =>
    obtain ⟨a, b⟩ := r
    rfl

/-- Encoding then decoding, on character lists: the search returns the encoded parts when the
zone neither contains the separator nor ends in a dash. -/
theorem cut_encode (t : List Char) :
    ∀ z : List Char, ¬ ['-', '-'] <:+: z → z.getLast? ≠ some '-' →
      cut ['-', '-'] (z ++ ('-' :: '-' :: t)) = some (z, t) := by
  intro z
  induction z with
  | nil =>
    intro _ _
    simp [cut, List.isPrefixOf]
  | cons c z' ih =>
    intro hin hlast
    have hin' : ¬ ['-', '-'] <:+: z' := fun h => hin (List.infix_cons_iff.mpr (Or.inr h))
    have hnp : ¬ ['-', '-'] <+: (c :: z') := fun h => hin (List.infix_cons_iff.mpr (Or.inl h))
    have hlast' : z'.getLast? ≠ some '-' := by
      cases z' with
      | nil => simp
      | cons d z'' => rwa [List.getLast?_cons_cons] at hlast
    have hnp2 : ¬ (['-', '-'].isPrefixOf (c :: z' ++ ('-' :: '-' :: t)) = true) := by
      rw [List.isPrefixOf_iff_prefix]
      intro hp
      cases z' with
      | nil =>
        simp only [List.cons_append, List.nil_append, List.cons_prefix_cons] at hp
        apply hlast
        rw [← hp.1]
        rfl
      | cons d z'' =>
        apply hnp
        simp only [List.cons_append, List.cons_prefix_cons] at hp
        simp only [List.cons_prefix_cons]
        exact ⟨hp.1, hp.2.1, List.nil_prefix⟩
    rw [List.cons_append] at hnp2 ⊢
    unfold cut
    rw [if_neg hnp2, ih hin' hlast']

/-- C1 fails for a zone ending in a dash: `a-` contains no separator, yet the ID built from
zone `a-` and suffix `x` decodes to zone `a` and suffix `-x`. -/
theorem parseVolumeId_encode_counterexample :
    ¬ "--".data <:+: "a-".data ∧ parseVolumeId ("a-" ++ "--" ++ "x") = ("a", "-x", none) ∧
      parseVolumeId ("a-" ++ "--" ++ "x") ≠ ("a-", "x", none) := by
  decide

/-- C1 as amended: decoding `zone ++ "--" ++ suffix` yields exactly `(zone, suffix)` and no error
if and only if the zone neither contains `"--"` nor ends in `-`. -/
theorem parseVolumeId_encode_iff (zone suffix : String) :
    parseVolumeId (zone ++ "--" ++ suffix) = (zone, suffix, none) ↔
      (¬ "--".data <:+: zone.data ∧ zone.data.getLast? ≠ some '-') := by
  have hsep : "--".data = ['-', '-'] := rfl
  have hdata : (zone ++ "--" ++ suffix).data = zone.data ++ ('-' :: '-' :: suffix.data) := by
    simp [String.data_append, hsep]
  rw [parseVolumeId_eq, hdata, hsep]
  constructor
  · intro h
    cases hc : cut ['-', '-'] (zone.data ++ ('-' :: '-' :: suffix.data)) with
    | none => rw [hc] at h; simp at h
    | some r =>
      obtain ⟨a, b⟩ := r
      rw [hc] at h
      simp only [Prod.mk.injEq, and_true] at h
      have ha : a = zone.data := by rw [← h.1]
      have hb : b = suffix.data := by rw [← h.2]
      subst ha hb
      have hfirst := cut_first _ _ _ _ hc
      constructor
      · rintro ⟨x, y, hxy⟩
        refine hfirst x (['-', '-'] ++ y) (by rw [← hxy]; simp) (by simp) ?_
        exact ⟨y ++ (['-', '-'] ++ suffix.data), by simp⟩
      · intro hl
        obtain ⟨ys, hys⟩ := List.getLast?_eq_some_iff.mp hl
        refine hfirst ys ['-'] hys (by simp) ?_
        exact ⟨'-' :: suffix.data, by simp⟩
  · rintro ⟨hin, hlast⟩
    rw [cut_encode suffix.data zone.data hin hlast]

/-- Instance of `parseVolumeId_encode_iff` at zone `us-east1-a` and suffix `u1`. -/
theorem parseVolumeId_encode_iff_witness :
    parseVolumeId ("us-east1-a" ++ "--" ++ "u1") = ("us-east1-a", "u1", none) :=
  (parseVolumeId_encode_iff "us-east1-a" "u1").mpr (by decide)

/-- C7: `parseVolumeId` returns empty parts and the malformed-ID error exactly for the strings
without `"--"`, and returns no error exactly for the strings that contain `"--"`. -/
theorem parseVolumeId_error_iff (volName : String) :
    (parseVolumeId volName = ("", "", some (malformedVolumeId volName)) ↔
        ¬ "--".data <:+: volName.data) ∧
      ((parseVolumeId volName).2.2 = none ↔ "--".data <:+: volName.data) := by
  have hsep : "--".data = ['-', '-'] := rfl
  rw [parseVolumeId_eq, hsep]
  cases hc : cut ['-', '-'] volName.data with
  | none =>
    have hn := (cut_eq_none_iff _ _).mp hc
    simp [hn]
  | some r =>
    obtain ⟨a, b⟩ := r
    have hin : ['-', '-'] <:+: volName.data := by
      by_contra hcon
      rw [(cut_eq_none_iff _ _).mpr hcon] at hc
      exact absurd hc (by simp)
    simp [hin]

/-- Instances of `parseVolumeId_error_iff`: an ID without separator fails, one with a separator
decodes without error. -/
theorem parseVolumeId_error_iff_witness :
    parseVolumeId "not-a-valid-id" = ("", "", some (malformedVolumeId "not-a-valid-id")) ∧
      (parseVolumeId "us-east1-a--u1").2.2 = none :=
  ⟨(parseVolumeId_error_iff "not-a-valid-id").1.mpr (by decide),
   (parseVolumeId_error_iff "us-east1-a--u1").2.mpr (by decide)⟩

/-- C8: when `parseVolumeId id` succeeds with `(zone, suffix)`, the parts reassemble to `id`
and the zone does not contain `"--"`. -/
theorem parseVolumeId_decode (id zone suffix : String)
    (h : parseVolumeId id = (zone, suffix, none)) :
    zone ++ "--" ++ suffix = id ∧ ¬ "--".data <:+: zone.data := by
  have hsep : "--".data = ['-', '-'] := rfl
  rw [parseVolumeId_eq] at h
  cases hc : cut ['-', '-'] id.data with
  | none => rw [hc] at h; simp at h
  | some r =>
    obtain ⟨a, b⟩ := r
    rw [hc] at h
    simp only [Prod.mk.injEq, and_true] at h
    have ha : a = zone.data := by rw [← h.1]
    have hb : b = suffix.data := by rw [← h.2]
    subst ha hb
    constructor
    · apply String.ext
      rw [String.data_append, String.data_append, hsep, cut_sound _ _ _ _ hc]
      simp
    · rw [hsep]
      rintro ⟨x, y, hxy⟩
      refine cut_first _ _ _ _ hc x (['-', '-'] ++ y) (by rw [← hxy]; simp) (by simp) ?_
      exact ⟨y ++ (['-', '-'] ++ suffix.data), by simp⟩

/-- Instance of `parseVolumeId_decode` at the ID `us-east1-a--u1`. -/
theorem parseVolumeId_decode_witness :
    parseVolumeId "us-east1-a--u1" = ("us-east1-a", "u1", none) ∧
      "us-east1-a" ++ "--" ++ "u1" = "us-east1-a--u1" ∧ ¬ "--".data <:+: "us-east1-a".data :=
  ⟨by decide, parseVolumeId_decode "us-east1-a--u1" "us-east1-a" "u1" (by decide)⟩

/-! ## Theorems: creation of one volume -/

/-- A successful `nameVolume` yields a non-empty name of the form `<zone>--<uuid>` and issues
no backend call. -/
theorem nameVolume_ok (v : gceVolumeSource σ) (zone name : String) (w w2 : World σ)
    (h : nameVolume v zone w = ((name, none), w2)) :
    (∃ uuid, name = zone ++ "--" ++ uuid) ∧ name ≠ "" ∧ w2.calls = w.calls := by
  unfold nameVolume at h
  split at h
  · simp at h
  · rename_i uuid s hs
    simp only [Prod.mk.injEq, and_true] at h
    obtain ⟨hn, hw⟩ := h
    refine ⟨⟨uuid, hn.symm⟩, ?_, by rw [← hw]⟩
    rw [← hn]
    intro hcon
    have := congrArg String.data hcon
    simp [String.data_append] at this

/-- C2 fails on a backend whose `CreateDisks` fails: the item does fail with the annotated
error, but the calls issued are the instance query, the creation request and then a
`RemoveDisk` for the generated name `us-east1-a--u1`. -/
theorem createOneVolume_createDisks_failure_counterexample :
    (createOneVolume (stubSource (.error (GoError.new "quota exceeded")) (.error (GoError.new "")))
        sampleParams instanceCache.empty stubWorld).map
      (fun r => (r.1.2.2, r.2.2.calls)) =
    some (some (GoError.annotate (GoError.new "quota exceeded") "cannot create disk" []),
      [Call.Instances "" [StatusRunning],
       Call.CreateDisks "us-east1-a" [⟨2, "us-east1-a--u1", DiskTypePersistentStandard⟩],
       Call.RemoveDisk "us-east1-a" "us-east1-a--u1"]) := by
  decide

/-- C2 as amended: when the instance resolves, the name is generated and the backend's
`CreateDisks` request fails with `err`, the item fails with `err` annotated
"cannot create disk", returns neither volume nor attachment, and the deferred cleanup issues
exactly one `RemoveDisk` for the generated name in the instance's zone right after the failed
request, whose outcome does not affect the result. -/
theorem createOneVolume_createDisks_failure (v : gceVolumeSource σ) (p : VolumeParams)
    (att : VolumeAttachmentParams) (instances c1 : instanceCache) (w w1 w2 w3 : World σ)
    (inst : Instance) (name : String) (err : GoError)
    (hatt : p.Attachment = some att)
    (hupd : instances.update v.gce [att.InstanceId] w = (none, c1, w1))
    (hget : c1.get att.InstanceId = (inst, none))
    (hname : nameVolume v inst.ZoneName w1 = ((name, none), w2))
    (hcreate : v.gce.doCreateDisks inst.ZoneName
        [⟨mibToGib p.Size, name, persistentTypeOf p⟩] w2 = (.error err, w3)) :
    ∃ w4 : World σ,
      createOneVolume v p instances w =
        some ((none, none, some (GoError.annotate err "cannot create disk" [])), c1, w4) ∧
      w4.st = (v.gce.RemoveDisk inst.ZoneName name w3.st).2 ∧
      w4.calls = w2.calls ++
        [Call.CreateDisks inst.ZoneName [⟨mibToGib p.Size, name, persistentTypeOf p⟩],
         Call.RemoveDisk inst.ZoneName name] := by
  obtain ⟨_, hne, _⟩ := nameVolume_ok v _ _ _ _ hname
  have hw3 : w3.calls = w2.calls ++
      [Call.CreateDisks inst.ZoneName [⟨mibToGib p.Size, name, persistentTypeOf p⟩]] := by
    unfold gceConnection.doCreateDisks at hcreate
    simp only [Prod.mk.injEq] at hcreate
    rw [← hcreate.2]
  refine ⟨(v.gce.doRemoveDisk inst.ZoneName name w3).2, ?_, rfl, ?_⟩
  · unfold createOneVolume createOneVolumeBody
    simp only [hatt, hupd, hget, hname, hcreate]
    simp [hne]
  · unfold gceConnection.doRemoveDisk
    simp [hw3]

/-- The only backend call `instanceCache.update` may issue is the query for running
instances. -/
theorem update_calls (c : instanceCache) (g : gceConnection σ) (ids : List String)
    (w : World σ) :
    ∃ issued, (c.update g ids w).2.2.calls = w.calls ++ issued ∧
      ∀ x ∈ issued, x = Call.Instances "" [StatusRunning] := by
  unfold instanceCache.update
  dsimp only
  generalize (match ids with
    | [id] => (c id).isSome
    | _ => false) = cached
  cases cached with
  | true => exact ⟨[], by simp, by simp⟩
  | false =>
    refine ⟨[Call.Instances "" [StatusRunning]], ?_, by simp⟩
    unfold gceConnection.doInstances
    cases g.Instances "" [StatusRunning] w.st with
    | mk r s => cases r <;> rfl

/-- The backend calls of `attachOneVolume` are `InstanceDisks` and `AttachDisk` requests; in
particular it never removes a disk. -/
theorem attachOneVolume_calls (v : gceVolumeSource σ) (volumeName mode instanceId : String)
    (w : World σ) :
    ∃ issued, (attachOneVolume v volumeName mode instanceId w).2.calls = w.calls ++ issued ∧
      ∀ x ∈ issued, x.isRemoveDisk = false := by
  unfold attachOneVolume
  split
  · exact ⟨[], by simp, by simp⟩
  · rename_i zone _ _
    unfold gceConnection.doInstanceDisks
    cases v.gce.InstanceDisks zone instanceId w.st with
    | mk r s =>
      cases r with
      | error e => exact ⟨[Call.InstanceDisks zone instanceId], rfl, by simp [Call.isRemoveDisk]⟩
      | ok disks =>
        dsimp only
        split
        · exact ⟨[Call.InstanceDisks zone instanceId], rfl, by simp [Call.isRemoveDisk]⟩
        · unfold gceConnection.doAttachDisk
          dsimp only
          cases v.gce.AttachDisk zone volumeName instanceId mode s with
          | mk r2 s2 =>
            refine ⟨[Call.InstanceDisks zone instanceId,
              Call.AttachDisk zone volumeName instanceId mode], ?_, by simp [Call.isRemoveDisk]⟩
            cases r2 <;> simp

/-- Whenever `attachOneVolume` returns no error it returns an attached disk. -/
theorem attachOneVolume_some (v : gceVolumeSource σ) (volumeName mode instanceId : String)
    (w : World σ) :
    (attachOneVolume v volumeName mode instanceId w).1.2 = none →
      (attachOneVolume v volumeName mode instanceId w).1.1.isSome = true := by
  unfold attachOneVolume
  split
  · simp
  · rename_i zone _ _
    cases v.gce.doInstanceDisks zone instanceId w with
    | mk r w1 =>
      cases r with
      | error e => simp
      | ok disks =>
        dsimp only
        split
        · simp
        · cases v.gce.doAttachDisk zone volumeName instanceId mode w1 with
          | mk r2 w2 => cases r2 <;> simp

/-- Instance of `createOneVolume_createDisks_failure`: on a backend whose `CreateDisks` fails,
the only calls after the instance query are the creation request and the removal of
`us-east1-a--u1`. -/
theorem createOneVolume_createDisks_failure_witness :
    ∃ w4 : World Unit,
      createOneVolume (stubSource (.error (GoError.new "quota exceeded")) (.error (GoError.new "")))
          sampleParams instanceCache.empty stubWorld =
        some ((none, none,
          some (GoError.annotate (GoError.new "quota exceeded") "cannot create disk" [])),
          (instanceCache.empty.update
            (stubSource (.error (GoError.new "quota exceeded")) (.error (GoError.new ""))).gce
            ["i-1"] stubWorld).2.1, w4) ∧
      w4.st = () ∧
      w4.calls = [Call.Instances "" [StatusRunning]] ++
        [Call.CreateDisks "us-east1-a" [⟨mibToGib 2048, "us-east1-a--u1", persistentTypeOf sampleParams⟩],
         Call.RemoveDisk "us-east1-a" "us-east1-a--u1"] :=
  createOneVolume_createDisks_failure
    (stubSource (.error (GoError.new "quota exceeded")) (.error (GoError.new "")))
    sampleParams ⟨"machine-0", "i-1", false, "volume-0", ""⟩ instanceCache.empty _
    stubWorld _ _ _ ⟨"i-1", "us-east1-a", "RUNNING"⟩ "us-east1-a--u1"
    (GoError.new "quota exceeded") rfl rfl rfl rfl rfl

/-- C10: when the instance resolves, the backend creates exactly one disk and attaching it
fails, the item succeeds with a Volume for that disk, a nil VolumeAttachment and no error, and
none of the backend calls issued for the item is a `RemoveDisk`; as the only item of a batch,
`CreateVolumes` stores exactly that outcome in its result slot. -/
theorem createOneVolume_attach_failure (v : gceVolumeSource σ) (p : VolumeParams)
    (att : VolumeAttachmentParams) (instances c1 : instanceCache) (w w1 w2 w3 w4 : World σ)
    (inst : Instance) (name : String) (gceDisk : google.Disk) (x : Option AttachedDisk)
    (aerr : GoError)
    (hatt : p.Attachment = some att)
    (hupd : instances.update v.gce [att.InstanceId] w = (none, c1, w1))
    (hget : c1.get att.InstanceId = (inst, none))
    (hname : nameVolume v inst.ZoneName w1 = ((name, none), w2))
    (hcreate : v.gce.doCreateDisks inst.ZoneName
        [⟨mibToGib p.Size, name, persistentTypeOf p⟩] w2 = (.ok [gceDisk], w3))
    (hattach : attachOneVolume v gceDisk.Name "READ_WRITE" inst.ID w3 = ((x, some aerr), w4)) :
    createOneVolume v p instances w =
        some ((some ⟨p.Tag, ⟨gceDisk.Name, gibToMib (toUint64 gceDisk.SizeGb), true⟩⟩,
               none, none), c1, w4) ∧
      (∃ issued, w4.calls = w.calls ++ issued ∧ ∀ c ∈ issued, c.isRemoveDisk = false) ∧
      (instances = instanceCache.empty →
        CreateVolumes v [p] w =
          some (([⟨some ⟨p.Tag, ⟨gceDisk.Name, gibToMib (toUint64 gceDisk.SizeGb), true⟩⟩,
                   none, none⟩], none), w4)) := by
  have hone : createOneVolume v p instances w =
      some ((some ⟨p.Tag, ⟨gceDisk.Name, gibToMib (toUint64 gceDisk.SizeGb), true⟩⟩,
             none, none), c1, w4) := by
    unfold createOneVolume createOneVolumeBody
    simp only [hatt, hupd, hget, hname, hcreate, hattach]
    simp
  refine ⟨hone, ?_, ?_⟩
  · obtain ⟨i1, h1, h1'⟩ := update_calls instances v.gce [att.InstanceId] w
    rw [hupd] at h1
    obtain ⟨_, _, h2⟩ := nameVolume_ok v _ _ _ _ hname
    have h3 : w3.calls = w2.calls ++
        [Call.CreateDisks inst.ZoneName [⟨mibToGib p.Size, name, persistentTypeOf p⟩]] := by
      unfold gceConnection.doCreateDisks at hcreate
      simp only [Prod.mk.injEq] at hcreate
      rw [← hcreate.2]
    obtain ⟨i4, h4, h4'⟩ := attachOneVolume_calls v gceDisk.Name "READ_WRITE" inst.ID w3
    rw [hattach] at h4
    refine ⟨i1 ++ [Call.CreateDisks inst.ZoneName
        [⟨mibToGib p.Size, name, persistentTypeOf p⟩]] ++ i4, ?_, ?_⟩
    · dsimp only at h1 h4
      rw [h4, h3, h2, h1]
      simp
    · intro c hc
      simp only [List.mem_append, List.mem_singleton] at hc
      rcases hc with (hc | hc) | hc
      · rw [h1' c hc]; rfl
      · rw [hc]; rfl
      · exact h4' c hc
  · intro hempty
    subst hempty
    unfold CreateVolumes validateLoop
    simp only [ValidateVolumeParams, hatt, validateLoop, setAdd]
    simp [createLoop, hone, CreateVolumesResult.zero, modifyAt]

/-- Instance of `createOneVolume_attach_failure`: on a backend that creates the requested disk
and rejects the attachment, the single item yields the 2048 MiB volume without attachment or
error. -/
theorem createOneVolume_attach_failure_witness :
    createOneVolume
        (stubSource (.ok [⟨7, "us-east1-a--u1", 2⟩]) (.error (GoError.new "attach failed")))
        sampleParams instanceCache.empty stubWorld =
      some ((some ⟨"volume-0", ⟨"us-east1-a--u1", 2048, true⟩⟩, none, none),
        (instanceCache.empty.update
          (stubSource (.ok [⟨7, "us-east1-a--u1", 2⟩]) (.error (GoError.new "attach failed"))).gce
          ["i-1"] stubWorld).2.1,
        ⟨(), [Call.Instances "" [StatusRunning],
              Call.CreateDisks "us-east1-a" [⟨2, "us-east1-a--u1", DiskTypePersistentStandard⟩],
              Call.InstanceDisks "us-east1-a" "i-1",
              Call.AttachDisk "us-east1-a" "us-east1-a--u1" "i-1" "READ_WRITE"]⟩) :=
  (createOneVolume_attach_failure
    (stubSource (.ok [⟨7, "us-east1-a--u1", 2⟩]) (.error (GoError.new "attach failed")))
    sampleParams ⟨"machine-0", "i-1", false, "volume-0", ""⟩ instanceCache.empty _
    stubWorld _ _ _ _ ⟨"i-1", "us-east1-a", "RUNNING"⟩ "us-east1-a--u1"
    ⟨7, "us-east1-a--u1", 2⟩ none
    (GoError.annotate (GoError.new "attach failed") "cannot attach volume" [])
    rfl rfl rfl rfl rfl rfl).1

/-! ## Theorems: batch creation -/

/-- Updating a slot keeps the length of the slice. -/
theorem length_modifyAt {α : Type} (f : α → α) :
    ∀ (i : Nat) (l : List α), (modifyAt f i l).length = l.length := by
  intro i l
  induction l generalizing i with
  | nil => simp [modifyAt]
  | cons x xs ih =>
    cases i with
    | zero => simp [modifyAt]
    | succ i => simp [modifyAt, ih]

/-- Updating slot `i` changes slot `i` by `f` and no other slot. -/
theorem getElem?_modifyAt {α : Type} (f : α → α) :
    ∀ (i : Nat) (l : List α) (j : Nat),
      (modifyAt f i l)[j]? = if j = i then (l[j]?).map f else l[j]? := by
  intro i l
  induction l generalizing i with
  | nil => intro j; simp [modifyAt]
  | cons x xs ih =>
    intro j
    cases i with
    | zero =>
      cases j with
      | zero => simp [modifyAt]
      | succ j => simp [modifyAt]
    | succ i =>
      cases j with
      | zero => simp [modifyAt]
      | succ j => simp [modifyAt, ih]

/-- The first loop of `CreateVolumes` panics exactly when some item has no attachment, and
otherwise leaves the result slots as they were. -/
theorem validateLoop_spec (v : gceVolumeSource σ) :
    ∀ (ps : List VolumeParams) (i : Nat) (results : List CreateVolumesResult)
      (ids : List String),
      (validateLoop v i ps results ids = none ↔ ∃ p ∈ ps, p.Attachment = none) ∧
      ∀ out ids', validateLoop v i ps results ids = some (out, ids') → out = results := by
  intro ps
  induction ps with
  | nil =>
    intro i results ids
    simp [validateLoop]
  | cons p ps ih =>
    intro i results ids
    cases hatt : p.Attachment with
    | none => simp [validateLoop, ValidateVolumeParams, hatt]
    | some att =>
      simp only [validateLoop, ValidateVolumeParams, hatt, List.mem_cons, exists_eq_or_imp]
      have := ih (i + 1) results (setAdd ids att.InstanceId)
      simp only [reduceCtorEq, false_or]
      exact this

/-- A successful `createOneVolume` returns a volume carrying the tag of its parameters. -/
theorem createOneVolume_tag (v : gceVolumeSource σ) (p : VolumeParams) (c c1 : instanceCache)
    (w w1 : World σ) (volume : Option Volume) (attachment : Option VolumeAttachment)
    (h : createOneVolume v p c w = some ((volume, attachment, none), c1, w1)) :
    ∃ vol, volume = some vol ∧ vol.Tag = p.Tag := by
  unfold createOneVolume at h
  cases hb : createOneVolumeBody v p c w with
  | none => rw [hb] at h; simp at h
  | some r =>
    obtain ⟨r, c2, w2⟩ := r
    rw [hb] at h
    have herr : r.err = none ∧ r.volume = volume := by
      dsimp only at h
      split at h
      · simp only [Option.some.injEq, Prod.mk.injEq] at h
        exact ⟨h.1.2.2, h.1.1⟩
      · simp only [Option.some.injEq, Prod.mk.injEq] at h
        exact ⟨h.1.2.2, h.1.1⟩
    obtain ⟨herr, hvol⟩ := herr
    subst hvol
    unfold createOneVolumeBody at hb
    dsimp only at hb
    repeat' split at hb
    all_goals first
      | (simp at hb; done)
      | (simp only [Option.some.injEq, Prod.mk.injEq] at hb
         obtain ⟨hr, -, -⟩ := hb
         subst hr
         first
           | (simp at herr; done)
           | (exact ⟨_, rfl, rfl⟩))

/-- The second loop of `CreateVolumes`, started at index `i` on the items `ps`: it keeps the
number of slots, touches no slot outside `i .. i + ps.length - 1`, and a volume found in slot
`i + k` afterwards either was there before or carries the tag of `ps[k]`. -/
theorem createLoop_spec (v : gceVolumeSource σ) :
    ∀ (ps : List VolumeParams) (i : Nat) (results : List CreateVolumesResult)
      (c : instanceCache) (w : World σ) (out : List CreateVolumesResult) (c' : instanceCache)
      (w' : World σ),
      createLoop v i ps results c w = some (out, c', w') →
      out.length = results.length ∧
      (∀ j, (j < i ∨ i + ps.length ≤ j) → out[j]? = results[j]?) ∧
      (∀ k p, ps[k]? = some p → ∀ r, out[i + k]? = some r → ∀ vol, r.Volume = some vol →
        (∃ r0, results[i + k]? = some r0 ∧ r0.Volume = some vol) ∨ vol.Tag = p.Tag) := by
  intro ps
  induction ps with
  | nil =>
    intro i results c w out c' w' h
    simp only [createLoop, Option.some.injEq, Prod.mk.injEq] at h
    obtain ⟨rfl, -, -⟩ := h
    simp
  | cons p ps ih =>
    intro i results c w out c' w' h
    have key : ∃ (f : CreateVolumesResult → CreateVolumesResult)
        (results' : List CreateVolumesResult) (c1 : instanceCache) (w1 : World σ),
        createLoop v (i + 1) ps results' c1 w1 = some (out, c', w') ∧
        results'.length = results.length ∧
        (∀ j, results'[j]? = if j = i then (results[j]?).map f else results[j]?) ∧
        (∀ r0 vol, (f r0).Volume = some vol → r0.Volume = some vol ∨ vol.Tag = p.Tag) := by
      unfold createLoop at h
      split at h
      · refine ⟨id, results, c, w, h, rfl, ?_, fun r0 vol hv => Or.inl hv⟩
        intro j
        split <;> simp
      · cases hc : createOneVolume v p c w with
        | none => rw [hc] at h; simp at h
        | some t =>
          obtain ⟨⟨volume, attachment, err⟩, c1, w1⟩ := t
          rw [hc] at h
          cases err with
          | some e =>
            exact ⟨_, _, c1, w1, h, length_modifyAt _ _ _, getElem?_modifyAt _ _ _,
              fun r0 vol hv => Or.inl hv⟩
          | none =>
            obtain ⟨vol', hv', ht⟩ := createOneVolume_tag _ _ _ _ _ _ _ _ hc
            refine ⟨_, _, c1, w1, h, length_modifyAt _ _ _, getElem?_modifyAt _ _ _, ?_⟩
            intro r0 vol hv
            right
            dsimp only at hv
            rw [hv'] at hv
            cases hv
            exact ht
    obtain ⟨f, results', c1, w1, hloop, hlen, hget, hf⟩ := key
    obtain ⟨h1, h2, h3⟩ := ih (i + 1) results' c1 w1 out c' w' hloop
    refine ⟨by rw [h1, hlen], ?_, ?_⟩
    · intro j hj
      rw [List.length_cons] at hj
      have hji : j ≠ i := by omega
      rw [h2 j (by omega), hget j, if_neg hji]
    · intro k q hq r hr vol hvol
      cases k with
      | zero =>
        simp only [List.getElem?_cons_zero, Option.some.injEq] at hq
        subst hq
        rw [Nat.add_zero, h2 i (Or.inl (by omega)), hget i, if_pos rfl] at hr
        obtain ⟨r0, hr0, hfr⟩ := Option.map_eq_some'.mp hr
        subst hfr
        rcases hf r0 vol hvol with h' | h'
        · exact Or.inl ⟨r0, by simpa using hr0, h'⟩
        · exact Or.inr h'
      | succ k =>
        simp only [List.getElem?_cons_succ] at hq
        have hidx : i + (k + 1) = i + 1 + k := by omega
        rw [hidx] at hr ⊢
        rcases h3 k q hq r hr vol hvol with ⟨r0, hr0, h'⟩ | h'
        · rw [hget, if_neg (by omega)] at hr0
          exact Or.inl ⟨r0, hr0, h'⟩
        · exact Or.inr h'

/-- Source `attachOneVolume` never returns a nil disk together with a nil error. -/
theorem attachOneVolume_ne (v : gceVolumeSource σ) (volumeName mode instanceId : String)
    (w w' : World σ) : attachOneVolume v volumeName mode instanceId w ≠ ((none, none), w') := by
  intro hcon
  have h := attachOneVolume_some v volumeName mode instanceId w
  rw [hcon] at h
  exact absurd (h rfl) (by simp)

/-- With an attachment present, `createOneVolume` returns (it does not panic). -/
theorem createOneVolume_isSome (v : gceVolumeSource σ) (p : VolumeParams) (c : instanceCache)
    (w : World σ) (hatt : p.Attachment ≠ none) : (createOneVolume v p c w).isSome = true := by
  have hbody : (createOneVolumeBody v p c w).isSome = true := by
    unfold createOneVolumeBody
    dsimp only
    repeat' split
    all_goals first
      | rfl
      | (exact absurd ‹p.Attachment = none› hatt)
      | skip
    rename_i hcon
    exact absurd hcon (attachOneVolume_ne _ _ _ _ _ _)
  unfold createOneVolume
  cases hb : createOneVolumeBody v p c w with
  | none => rw [hb] at hbody; simp at hbody
  | some r =>
    obtain ⟨r, c1, w1⟩ := r
    dsimp only
    split <;> rfl

/-- The second loop of `CreateVolumes` returns when every item carries an attachment. -/
theorem createLoop_isSome (v : gceVolumeSource σ) :
    ∀ (ps : List VolumeParams) (i : Nat) (results : List CreateVolumesResult)
      (c : instanceCache) (w : World σ),
      (∀ p ∈ ps, p.Attachment ≠ none) → (createLoop v i ps results c w).isSome = true := by
  intro ps
  induction ps with
  | nil => intro i results c w _; rfl
  | cons p ps ih =>
    intro i results c w hall
    have hp : p.Attachment ≠ none := hall p (List.mem_cons_self _ _)
    have hps : ∀ q ∈ ps, q.Attachment ≠ none := fun q hq => hall q (List.mem_cons_of_mem _ hq)
    unfold createLoop
    split
    · exact ih _ _ _ _ hps
    · have hone := createOneVolume_isSome v p c w hp
      cases hc : createOneVolume v p c w with
      | none => rw [hc] at hone; simp at hone
      | some t =>
        obtain ⟨⟨volume, attachment, err⟩, c1, w1⟩ := t
        cases err with
        | some e => exact ih _ _ _ _ hps
        | none => exact ih _ _ _ _ hps

/-- Source `CreateVolumes` panics exactly on the batches that contain an item without
attachment request. -/
theorem CreateVolumes_eq_none_iff (v : gceVolumeSource σ) (params : List VolumeParams)
    (w : World σ) :
    CreateVolumes v params w = none ↔ ∃ p ∈ params, p.Attachment = none := by
  obtain ⟨hnone, hsome⟩ := validateLoop_spec v params 0
    (List.replicate params.length CreateVolumesResult.zero) []
  unfold CreateVolumes
  dsimp only
  cases hv : validateLoop v 0 params
      (List.replicate params.length CreateVolumesResult.zero) [] with
  | none => simpa using hnone.mp hv
  | some t =>
    obtain ⟨results, ids⟩ := t
    have hall : ¬ ∃ p ∈ params, p.Attachment = none := by
      intro hex
      rw [hnone.mpr hex] at hv
      exact absurd hv (by simp)
    have hall' : ∀ p ∈ params, p.Attachment ≠ none := fun p hp hn => hall ⟨p, hp, hn⟩
    dsimp only
    generalize (if ids.length > 1 then (instanceCache.empty.update v.gce ids w).2
      else (instanceCache.empty, w)) = cw
    have hl := createLoop_isSome v params 0 results cw.1 cw.2 hall'
    cases hc : createLoop v 0 params results cw.1 cw.2 with
    | none => rw [hc] at hl; simp at hl
    | some t =>
      obtain ⟨out, c2, w2⟩ := t
      simp [hall]

/-- Whenever source `CreateVolumes` returns, it returns a nil overall error and exactly one
result per item, and a result that carries a Volume carries the tag of the item at the same
index. -/
theorem CreateVolumes_aligned (v : gceVolumeSource σ) (params : List VolumeParams)
    (w w' : World σ) (results : List CreateVolumesResult) (err : Option GoError)
    (h : CreateVolumes v params w = some ((results, err), w')) :
    err = none ∧ results.length = params.length ∧
      ∀ (i : Nat) (p : VolumeParams) (r : CreateVolumesResult) (vol : Volume),
        params[i]? = some p → results[i]? = some r → r.Volume = some vol →
        vol.Tag = p.Tag := by
  obtain ⟨-, hsome⟩ := validateLoop_spec v params 0
    (List.replicate params.length CreateVolumesResult.zero) []
  unfold CreateVolumes at h
  dsimp only at h
  cases hv : validateLoop v 0 params
      (List.replicate params.length CreateVolumesResult.zero) [] with
  | none => rw [hv] at h; simp at h
  | some t =>
    obtain ⟨results0, ids⟩ := t
    have h0 := hsome results0 ids hv
    subst h0
    rw [hv] at h
    dsimp only at h
    generalize (if ids.length > 1 then (instanceCache.empty.update v.gce ids w).2
      else (instanceCache.empty, w)) = cw at h
    cases heq : createLoop v 0 params
        (List.replicate params.length CreateVolumesResult.zero) cw.1 cw.2 with
    | none => rw [heq] at h; simp at h
    | some t =>
      obtain ⟨out, c2, w2⟩ := t
      rw [heq] at h
      simp only [Option.some.injEq, Prod.mk.injEq] at h
      obtain ⟨⟨hres, herr⟩, -⟩ := h
      subst hres
      obtain ⟨h1, -, h3⟩ := createLoop_spec v params 0 _ _ _ _ _ _ heq
      refine ⟨herr.symm, by rw [h1, List.length_replicate], ?_⟩
      intro i p r vol hp hr hvol
      have hr' : out[0 + i]? = some r := by rw [Nat.zero_add]; exact hr
      rcases h3 i p hp r hr' vol hvol with ⟨r0, hr0, hv0⟩ | ht
      · exfalso
        rw [Nat.zero_add, List.getElem?_replicate] at hr0
        split at hr0
        · simp only [Option.some.injEq] at hr0
          rw [← hr0] at hv0
          simp [CreateVolumesResult.zero] at hv0
        · simp at hr0
      · exact ht

/-- C9, evaluated on batches with an item that carries no attachment request: `CreateVolumes`
panics on the nil `Attachment` (it returns nothing, neither results nor an overall error),
whether that item is alone or follows a well-formed item. -/
theorem CreateVolumes_nil_attachment :
    detachedParams.Attachment = none ∧
      (CreateVolumes
        (stubSource (.ok [⟨7, "us-east1-a--u1", 1⟩]) (.ok ⟨"us-east1-a--u1", "sdb", "READ_WRITE"⟩))
        [detachedParams] stubWorld).isNone = true ∧
      (CreateVolumes
        (stubSource (.ok [⟨7, "us-east1-a--u1", 1⟩]) (.ok ⟨"us-east1-a--u1", "sdb", "READ_WRITE"⟩))
        [sampleParams, detachedParams] stubWorld).isNone = true := by
  decide

/-! ## Theorems: failures within the creation of one volume -/

/-- C20: when the instance resolves, the name is generated and the backend's `CreateDisks`
returns without error a number of disks other than one, the item fails with
"unexpected number of disks created" and the deferred cleanup issues exactly one `RemoveDisk`
for the generated name in the instance's zone, right after the creation request; the
reported error does not depend on the outcome of that removal. -/
theorem createOneVolume_wrong_disk_count (v : gceVolumeSource σ) (p : VolumeParams)
    (att : VolumeAttachmentParams) (instances c1 : instanceCache) (w w1 w2 w3 : World σ)
    (inst : Instance) (name : String) (gceDisks : List google.Disk)
    (hatt : p.Attachment = some att)
    (hupd : instances.update v.gce [att.InstanceId] w = (none, c1, w1))
    (hget : c1.get att.InstanceId = (inst, none))
    (hname : nameVolume v inst.ZoneName w1 = ((name, none), w2))
    (hcreate : v.gce.doCreateDisks inst.ZoneName
        [⟨mibToGib p.Size, name, persistentTypeOf p⟩] w2 = (.ok gceDisks, w3))
    (hlen : gceDisks.length ≠ 1) :
    ∃ (w4 : World σ) (queries : List Call),
      createOneVolume v p instances w =
        some ((none, none, some (GoError.new "unexpected number of disks created")), c1, w4) ∧
      w4.st = (v.gce.RemoveDisk inst.ZoneName name w3.st).2 ∧
      (∀ x ∈ queries, x = Call.Instances "" [StatusRunning]) ∧
      w4.calls = w.calls ++ queries ++
        [Call.CreateDisks inst.ZoneName [⟨mibToGib p.Size, name, persistentTypeOf p⟩],
         Call.RemoveDisk inst.ZoneName name] := by
  obtain ⟨_, hne, hw2⟩ := nameVolume_ok v _ _ _ _ hname
  obtain ⟨queries, hq, hq'⟩ := update_calls instances v.gce [att.InstanceId] w
  rw [hupd] at hq
  dsimp only at hq
  have hw3 : w3.calls = w2.calls ++
      [Call.CreateDisks inst.ZoneName [⟨mibToGib p.Size, name, persistentTypeOf p⟩]] := by
    unfold gceConnection.doCreateDisks at hcreate
    simp only [Prod.mk.injEq] at hcreate
    rw [← hcreate.2]
  refine ⟨(v.gce.doRemoveDisk inst.ZoneName name w3).2, queries, ?_, rfl, hq', ?_⟩
  · unfold createOneVolume createOneVolumeBody
    simp only [hatt, hupd, hget, hname, hcreate]
    cases gceDisks with
    | nil => simp [hne]
    | cons d ds =>
      cases ds with
      | nil => exact absurd rfl hlen
      | cons d2 ds2 => simp [hne]
  · unfold gceConnection.doRemoveDisk
    simp [hw3, hw2, hq]

/-- Instance of `createOneVolume_wrong_disk_count`: on a backend whose `CreateDisks` returns
no disk at all, the calls are the instance query, the creation request and the removal of
`us-east1-a--u1`. -/
theorem createOneVolume_wrong_disk_count_witness :
    ∃ (w4 : World Unit) (queries : List Call),
      createOneVolume (stubSource (.ok []) (.error (GoError.new "")))
          sampleParams instanceCache.empty stubWorld =
        some ((none, none, some (GoError.new "unexpected number of disks created")),
          (instanceCache.empty.update (stubSource (.ok []) (.error (GoError.new ""))).gce
            ["i-1"] stubWorld).2.1, w4) ∧
      w4.st = () ∧
      (∀ x ∈ queries, x = Call.Instances "" [StatusRunning]) ∧
      w4.calls = [] ++ queries ++
        [Call.CreateDisks "us-east1-a"
          [⟨mibToGib 2048, "us-east1-a--u1", persistentTypeOf sampleParams⟩],
         Call.RemoveDisk "us-east1-a" "us-east1-a--u1"] :=
  createOneVolume_wrong_disk_count (stubSource (.ok []) (.error (GoError.new "")))
    sampleParams ⟨"machine-0", "i-1", false, "volume-0", ""⟩ instanceCache.empty _
    stubWorld _ _ _ ⟨"i-1", "us-east1-a", "RUNNING"⟩ "us-east1-a--u1" []
    rfl rfl rfl rfl rfl (by decide)

/-- When the item's instance cannot be resolved (the per-item cache update fails, or it
succeeds and the cache still has no entry for the instance), `createOneVolume` fails the item
with the traced error, and the only backend calls it issues are instance queries. -/
theorem createOneVolume_unresolved (v : gceVolumeSource σ) (p : VolumeParams)
    (att : VolumeAttachmentParams) (instances c1 : instanceCache) (w w1 : World σ)
    (uerr : Option GoError)
    (hatt : p.Attachment = some att)
    (hupd : instances.update v.gce [att.InstanceId] w = (uerr, c1, w1))
    (hbad : uerr ≠ none ∨ c1 att.InstanceId = none) :
    createOneVolume v p instances w =
        some ((none, none, some (unresolvedError uerr att.InstanceId)), c1, w1) ∧
      ∃ issued, w1.calls = w.calls ++ issued ∧
        ∀ x ∈ issued, x = Call.Instances "" [StatusRunning] := by
  constructor
  · unfold createOneVolume createOneVolumeBody
    simp only [hatt, hupd]
    cases uerr with
    | some e => simp [unresolvedError]
    | none =>
      have hc : c1 att.InstanceId = none := by
        rcases hbad with h | h
        · exact absurd rfl h
        · exact h
      simp [instanceCache.get, hc, unresolvedError]
  · have := update_calls instances v.gce [att.InstanceId] w
    rw [hupd] at this
    exact this

/-! ## Theorems: the items of a batch -/

/-- One pass of the second loop of `CreateVolumes`, on the item at index `i`. -/
theorem createLoop_cons (v : gceVolumeSource σ) (i : Nat) (p : VolumeParams)
    (ps : List VolumeParams) (results : List CreateVolumesResult) (c : instanceCache)
    (w : World σ) :
    createLoop v i (p :: ps) results c w =
      if ((results.getD i CreateVolumesResult.zero).Error).isSome then
        createLoop v (i + 1) ps results c w
      else
        match createOneVolume v p c w with
        | none => none
        | some ((_, _, some err), c1, w1) =>
          createLoop v (i + 1) ps
            (modifyAt (fun r => { r with Error := some err }) i results) c1 w1
        | some ((volume, attachment, none), c1, w1) =>
          createLoop v (i + 1) ps
            (modifyAt (fun r => { r with Volume := volume, VolumeAttachment := attachment })
              i results) c1 w1 := by
  rw [createLoop]

/-- The second loop of `CreateVolumes` over a concatenation is the loop over the first part
followed by the loop over the second part. -/
theorem createLoop_append (v : gceVolumeSource σ) :
    ∀ (ps1 ps2 : List VolumeParams) (i : Nat) (results : List CreateVolumesResult)
      (c : instanceCache) (w : World σ),
      createLoop v i (ps1 ++ ps2) results c w =
        (createLoop v i ps1 results c w).bind
          (fun t => createLoop v (i + ps1.length) ps2 t.1 t.2.1 t.2.2) := by
  intro ps1
  induction ps1 with
  | nil => intro ps2 i results c w; simp [createLoop]
  | cons p ps1 ih =>
    intro ps2 i results c w
    have hidx : i + (p :: ps1).length = i + 1 + ps1.length := by
      rw [List.length_cons]; omega
    rw [hidx, List.cons_append, createLoop_cons v i p (ps1 ++ ps2), createLoop_cons v i p ps1]
    by_cases hc : ((results.getD i CreateVolumesResult.zero).Error).isSome = true
    · rw [if_pos hc, if_pos hc]
      exact ih ps2 (i + 1) results c w
    · rw [if_neg hc, if_neg hc]
      cases createOneVolume v p c w with
      | none => rfl
      | some t =>
        obtain ⟨⟨volume, attachment, err⟩, c1, w1⟩ := t
        cases err with
        | some e => exact ih ps2 (i + 1) _ c1 w1
        | none => exact ih ps2 (i + 1) _ c1 w1

/-- Source `CreateVolumes` returns the result slots and the world reached after the last
item. -/
theorem CreateVolumes_eq_stateBeforeItem (v : gceVolumeSource σ) (params : List VolumeParams)
    (w : World σ) :
    CreateVolumes v params w =
      (stateBeforeItem v params params.length w).map (fun t => ((t.1, none), t.2.2)) := by
  unfold CreateVolumes stateBeforeItem
  dsimp only
  cases validateLoop v 0 params (List.replicate params.length CreateVolumesResult.zero) [] with
  | none => rfl
  | some t =>
    obtain ⟨results, ids⟩ := t
    dsimp only
    rw [List.take_length]
    generalize (if ids.length > 1 then (instanceCache.empty.update v.gce ids w).2
      else (instanceCache.empty, w)) = cw
    cases createLoop v 0 params results cw.1 cw.2 with
    | none => rfl
    | some t2 =>
      obtain ⟨out, c2, w2⟩ := t2
      rfl

/-- The state at item `k + 1` is reached from the state at item `k` by one pass of the loop
body over the item at index `k`. -/
theorem stateBeforeItem_succ (v : gceVolumeSource σ) (params : List VolumeParams) (k : Nat)
    (p : VolumeParams) (w : World σ) (hp : params[k]? = some p) :
    stateBeforeItem v params (k + 1) w =
      (stateBeforeItem v params k w).bind (fun t => createLoop v k [p] t.1 t.2.1 t.2.2) := by
  have hk : k < params.length := (List.getElem?_eq_some_iff.mp hp).1
  have htake : params.take (k + 1) = params.take k ++ [p] := by
    rw [List.take_succ, hp]
    rfl
  have hlen : (params.take k).length = k := by
    rw [List.length_take]; omega
  unfold stateBeforeItem
  dsimp only
  cases validateLoop v 0 params (List.replicate params.length CreateVolumesResult.zero) [] with
  | none => rfl
  | some t =>
    obtain ⟨results, ids⟩ := t
    dsimp only
    rw [htake, createLoop_append, hlen, Nat.zero_add]

/-- Before item `k` is processed its slot still holds the zero value, and the number of slots
is the number of items. -/
theorem stateBeforeItem_slot (v : gceVolumeSource σ) (params : List VolumeParams) (k : Nat)
    (w : World σ) (rk : List CreateVolumesResult) (ck : instanceCache) (wk : World σ)
    (hs : stateBeforeItem v params k w = some (rk, ck, wk)) :
    rk.length = params.length ∧
      ∀ j, k ≤ j → j < params.length → rk[j]? = some CreateVolumesResult.zero := by
  obtain ⟨-, hsome⟩ := validateLoop_spec v params 0
    (List.replicate params.length CreateVolumesResult.zero) []
  unfold stateBeforeItem at hs
  dsimp only at hs
  cases hv : validateLoop v 0 params
      (List.replicate params.length CreateVolumesResult.zero) [] with
  | none => rw [hv] at hs; simp at hs
  | some t =>
    obtain ⟨results0, ids⟩ := t
    have h0 := hsome results0 ids hv
    subst h0
    rw [hv] at hs
    dsimp only at hs
    obtain ⟨h1, h2, -⟩ := createLoop_spec v _ 0 _ _ _ _ _ _ hs
    refine ⟨by rw [h1, List.length_replicate], ?_⟩
    intro j hkj hj
    rw [h2 j (Or.inr (by rw [List.length_take]; omega)), List.getElem?_replicate, if_pos hj]

/-- Slots below `m` are final once the loop has reached item `m`: they are the same at every
later point of the loop. -/
theorem stateBeforeItem_frame (v : gceVolumeSource σ) (params : List VolumeParams) (m n : Nat)
    (w : World σ) (rm rn : List CreateVolumesResult) (cm cn : instanceCache) (wm wn : World σ)
    (hmn : m ≤ n) (hn : n ≤ params.length)
    (hsm : stateBeforeItem v params m w = some (rm, cm, wm))
    (hsn : stateBeforeItem v params n w = some (rn, cn, wn)) :
    ∀ j, j < m → rn[j]? = rm[j]? := by
  have hsplit : params.take n = params.take m ++ (params.take n).drop m := by
    have h := (List.take_append_drop m (params.take n)).symm
    rwa [List.take_take, Nat.min_eq_left hmn] at h
  have hlen : (params.take m).length = m := by
    rw [List.length_take]; omega
  unfold stateBeforeItem at hsm hsn
  dsimp only at hsm hsn
  cases hv : validateLoop v 0 params
      (List.replicate params.length CreateVolumesResult.zero) [] with
  | none => rw [hv] at hsm; simp at hsm
  | some t =>
    obtain ⟨results0, ids⟩ := t
    rw [hv] at hsm hsn
    dsimp only at hsm hsn
    rw [hsplit, createLoop_append, hsm, hlen, Nat.zero_add] at hsn
    obtain ⟨-, h2, -⟩ := createLoop_spec v _ m _ _ _ _ _ _ hsn
    intro j hj
    exact h2 j (Or.inl hj)

/-- The outcome of one item of a batch: if every item carries an attachment request and
`createOneVolume`, run on item `k` in the state in which the loop reaches it, returns
`(volume, attachment, err)`, then `CreateVolumes` returns one slot per item and slot `k` holds
exactly that outcome (`itemResult`: the error alone when there is one). -/
theorem CreateVolumes_item (v : gceVolumeSource σ) (params : List VolumeParams) (w : World σ)
    (k : Nat) (p : VolumeParams) (rk : List CreateVolumesResult) (ck ck' : instanceCache)
    (wk wk' : World σ) (volume : Option Volume) (attachment : Option VolumeAttachment)
    (err : Option GoError)
    (hall : ∀ q ∈ params, q.Attachment ≠ none)
    (hp : params[k]? = some p)
    (hs : stateBeforeItem v params k w = some (rk, ck, wk))
    (hone : createOneVolume v p ck wk = some ((volume, attachment, err), ck', wk')) :
    ∃ (results rk' : List CreateVolumesResult) (w' : World σ),
      CreateVolumes v params w = some ((results, none), w') ∧
      results.length = params.length ∧
      stateBeforeItem v params (k + 1) w = some (rk', ck', wk') ∧
      results[k]? = some (itemResult volume attachment err) := by
  have hk : k < params.length := (List.getElem?_eq_some_iff.mp hp).1
  obtain ⟨hrk, hslot⟩ := stateBeforeItem_slot v params k w rk ck wk hs
  have hzero : rk.getD k CreateVolumesResult.zero = CreateVolumesResult.zero := by
    rw [List.getD_eq_getElem?_getD, hslot k (Nat.le_refl k) hk]
    rfl
  -- the state after the item
  have hnext : ∃ f : CreateVolumesResult → CreateVolumesResult,
      stateBeforeItem v params (k + 1) w = some (modifyAt f k rk, ck', wk') ∧
      f CreateVolumesResult.zero = itemResult volume attachment err := by
    rw [stateBeforeItem_succ v params k p w hp, hs]
    simp only [Option.some_bind]
    rw [createLoop_cons, hzero, hone]
    cases err with
    | some e => exact ⟨_, rfl, rfl⟩
    | none => exact ⟨_, rfl, rfl⟩
  obtain ⟨f, hnext, hf⟩ := hnext
  -- the call returns
  cases hcv : CreateVolumes v params w with
  | none =>
    obtain ⟨q, hq, hqn⟩ := (CreateVolumes_eq_none_iff v params w).mp hcv
    exact absurd hqn (hall q hq)
  | some t =>
    obtain ⟨⟨results, e⟩, w'⟩ := t
    obtain ⟨he, hlen, -⟩ := CreateVolumes_aligned v params w w' results e hcv
    subst he
    refine ⟨results, modifyAt f k rk, w', rfl, hlen, hnext, ?_⟩
    rw [CreateVolumes_eq_stateBeforeItem] at hcv
    cases hfin : stateBeforeItem v params params.length w with
    | none => rw [hfin] at hcv; simp at hcv
    | some t2 =>
      obtain ⟨rn, cn, wn⟩ := t2
      rw [hfin] at hcv
      simp only [Option.map_some', Option.some.injEq, Prod.mk.injEq, and_true] at hcv
      obtain ⟨hres, -⟩ := hcv
      subst hres
      rw [stateBeforeItem_frame v params (k + 1) params.length w _ _ _ _ _ _ (by omega)
        (Nat.le_refl _) hnext hfin k (by omega), getElem?_modifyAt, if_pos rfl,
        hslot k (Nat.le_refl k) hk, Option.map_some', hf]

/-- In a batch whose items all carry an attachment request the loop reaches every item. -/
theorem stateBeforeItem_isSome (v : gceVolumeSource σ) (params : List VolumeParams) (k : Nat)
    (w : World σ) (hall : ∀ q ∈ params, q.Attachment ≠ none) :
    (stateBeforeItem v params k w).isSome = true := by
  obtain ⟨hnone, -⟩ := validateLoop_spec v params 0
    (List.replicate params.length CreateVolumesResult.zero) []
  unfold stateBeforeItem
  dsimp only
  cases hv : validateLoop v 0 params
      (List.replicate params.length CreateVolumesResult.zero) [] with
  | none =>
    obtain ⟨q, hq, hqn⟩ := hnone.mp hv
    exact absurd hqn (hall q hq)
  | some t =>
    obtain ⟨results, ids⟩ := t
    dsimp only
    exact createLoop_isSome v _ 0 results _ _
      (fun q hq => hall q (List.mem_of_mem_take hq))

/-- Every slot returned by `CreateVolumes` holds the outcome of `createOneVolume` run on the
item of the same index, in the state in which the loop reached that item. -/
theorem CreateVolumes_item_inv (v : gceVolumeSource σ) (params : List VolumeParams)
    (w w' : World σ) (results : List CreateVolumesResult) (e : Option GoError)
    (k : Nat) (p : VolumeParams)
    (h : CreateVolumes v params w = some ((results, e), w'))
    (hp : params[k]? = some p) :
    ∃ (rk : List CreateVolumesResult) (ck ck' : instanceCache) (wk wk' : World σ)
      (volume : Option Volume) (attachment : Option VolumeAttachment) (err : Option GoError),
      stateBeforeItem v params k w = some (rk, ck, wk) ∧
      createOneVolume v p ck wk = some ((volume, attachment, err), ck', wk') ∧
      results[k]? = some (itemResult volume attachment err) := by
  have hall : ∀ q ∈ params, q.Attachment ≠ none := by
    intro q hq hqn
    have := (CreateVolumes_eq_none_iff v params w).mpr ⟨q, hq, hqn⟩
    rw [this] at h
    exact absurd h (by simp)
  have hsome := stateBeforeItem_isSome v params k w hall
  cases hs : stateBeforeItem v params k w with
  | none => rw [hs] at hsome; simp at hsome
  | some t =>
    obtain ⟨rk, ck, wk⟩ := t
    have hone := createOneVolume_isSome v p ck wk (hall p (List.getElem?_mem hp))
    cases hc : createOneVolume v p ck wk with
    | none => rw [hc] at hone; simp at hone
    | some t2 =>
      obtain ⟨⟨volume, attachment, err⟩, ck', wk'⟩ := t2
      obtain ⟨results2, rk', w2, hcv, -, -, hres⟩ :=
        CreateVolumes_item v params w k p rk ck ck' wk wk' volume attachment err hall hp hs hc
      rw [h] at hcv
      simp only [Option.some.injEq, Prod.mk.injEq] at hcv
      obtain ⟨⟨hr, -⟩, -⟩ := hcv
      subst hr
      exact ⟨rk, ck, ck', wk, wk', volume, attachment, err, rfl, hc, hres⟩

/-- A successful `createOneVolume` went through every step: the instance resolved, the name
was generated, the backend created exactly one disk, and the returned volume describes that
disk. -/
theorem createOneVolume_success_inv (v : gceVolumeSource σ) (p : VolumeParams)
    (c c' : instanceCache) (w w' : World σ) (volume : Option Volume)
    (attachment : Option VolumeAttachment)
    (h : createOneVolume v p c w = some ((volume, attachment, none), c', w')) :
    ∃ (att : VolumeAttachmentParams) (c1 : instanceCache) (w1 w2 w3 : World σ)
      (inst : Instance) (name : String) (gceDisk : google.Disk),
      p.Attachment = some att ∧
      c.update v.gce [att.InstanceId] w = (none, c1, w1) ∧
      c1.get att.InstanceId = (inst, none) ∧
      nameVolume v inst.ZoneName w1 = ((name, none), w2) ∧
      v.gce.doCreateDisks inst.ZoneName [⟨mibToGib p.Size, name, persistentTypeOf p⟩] w2 =
        (.ok [gceDisk], w3) ∧
      volume = some ⟨p.Tag, ⟨gceDisk.Name, gibToMib (toUint64 gceDisk.SizeGb), true⟩⟩ := by
  cases hatt : p.Attachment with
  | none => simp [createOneVolume, createOneVolumeBody, hatt] at h
  | some att =>
    rcases hupd : c.update v.gce [att.InstanceId] w with ⟨uerr, c1, w1⟩
    cases uerr with
    | some e => simp [createOneVolume, createOneVolumeBody, hatt, hupd] at h
    | none =>
      rcases hget : c1.get att.InstanceId with ⟨inst, gerr⟩
      cases gerr with
      | some e => simp [createOneVolume, createOneVolumeBody, hatt, hupd, hget] at h
      | none =>
        rcases hname : nameVolume v inst.ZoneName w1 with ⟨⟨name, nerr⟩, w2⟩
        cases nerr with
        | some e =>
          simp [createOneVolume, createOneVolumeBody, hatt, hupd, hget, hname] at h
          split at h <;> simp at h
        | none =>
          rcases hcreate : v.gce.doCreateDisks inst.ZoneName
            [⟨mibToGib p.Size, name, persistentTypeOf p⟩] w2 with ⟨r, w3⟩
          cases r with
          | error e =>
            simp [createOneVolume, createOneVolumeBody, hatt, hupd, hget, hname, hcreate] at h
            split at h <;> simp at h
          | ok gceDisks =>
            have hone : ∃ gceDisk, gceDisks = [gceDisk] := by
              cases gceDisks with
              | nil =>
                simp [createOneVolume, createOneVolumeBody, hatt, hupd, hget, hname,
                  hcreate] at h
                split at h <;> simp at h
              | cons d ds =>
                cases ds with
                | nil => exact ⟨d, rfl⟩
                | cons d2 ds2 =>
                  simp [createOneVolume, createOneVolumeBody, hatt, hupd, hget, hname,
                    hcreate] at h
                  split at h <;> simp at h
            obtain ⟨gceDisk, rfl⟩ := hone
            refine ⟨att, c1, w1, w2, w3, inst, name, gceDisk, rfl, hupd, hget, hname, hcreate, ?_⟩
            rcases hattach : attachOneVolume v gceDisk.Name "READ_WRITE" inst.ID w3 with
              ⟨⟨x, aerr⟩, w4⟩
            cases aerr with
            | some e =>
              simp [createOneVolume, createOneVolumeBody, hatt, hupd, hget, hname, hcreate,
                hattach] at h
              exact h.1.1.symm
            | none =>
              cases x with
              | none => exact absurd hattach (attachOneVolume_ne _ _ _ _ _ _)
              | some d =>
                simp [createOneVolume, createOneVolumeBody, hatt, hupd, hget, hname, hcreate,
                  hattach] at h
                exact h.1.1.symm

/-- When the instance resolves, the name is generated and the backend creates exactly one
disk, `createOneVolume` succeeds with the volume describing that disk, whatever the outcome
of the attachment. -/
theorem createOneVolume_one_disk (v : gceVolumeSource σ) (p : VolumeParams)
    (att : VolumeAttachmentParams) (instances c1 : instanceCache) (w w1 w2 w3 : World σ)
    (inst : Instance) (name : String) (gceDisk : google.Disk)
    (hatt : p.Attachment = some att)
    (hupd : instances.update v.gce [att.InstanceId] w = (none, c1, w1))
    (hget : c1.get att.InstanceId = (inst, none))
    (hname : nameVolume v inst.ZoneName w1 = ((name, none), w2))
    (hcreate : v.gce.doCreateDisks inst.ZoneName
        [⟨mibToGib p.Size, name, persistentTypeOf p⟩] w2 = (.ok [gceDisk], w3)) :
    ∃ (attachment : Option VolumeAttachment) (w4 : World σ),
      createOneVolume v p instances w =
        some ((some ⟨p.Tag, ⟨gceDisk.Name, gibToMib (toUint64 gceDisk.SizeGb), true⟩⟩,
               attachment, none), c1, w4) := by
  rcases hattach : attachOneVolume v gceDisk.Name "READ_WRITE" inst.ID w3 with ⟨⟨x, aerr⟩, w4⟩
  cases aerr with
  | some e =>
    refine ⟨none, w4, ?_⟩
    simp [createOneVolume, createOneVolumeBody, hatt, hupd, hget, hname, hcreate, hattach]
  | none =>
    cases x with
    | none => exact absurd hattach (attachOneVolume_ne _ _ _ _ _ _)
    | some d =>
      refine ⟨some ⟨p.Tag, att.Machine, ⟨d.DeviceName⟩⟩, w4, ?_⟩
      simp [createOneVolume, createOneVolumeBody, hatt, hupd, hget, hname, hcreate, hattach]

/-- C11: for every item of `CreateVolumes` whose result carries no error, the loop reached
the item in some state in which its instance resolved, a name was generated and the backend's
`CreateDisks` returned exactly one disk; the result carries a Volume with the item's tag whose
VolumeId is that disk's name, whose Size is `gibToMib` of that disk's size in GiB, and which
is persistent. -/
theorem CreateVolumes_volume_info (v : gceVolumeSource σ) (params : List VolumeParams)
    (w w' : World σ) (results : List CreateVolumesResult) (e : Option GoError)
    (k : Nat) (p : VolumeParams) (r : CreateVolumesResult)
    (h : CreateVolumes v params w = some ((results, e), w'))
    (hp : params[k]? = some p) (hr : results[k]? = some r) (hok : r.Error = none) :
    ∃ (rk : List CreateVolumesResult) (ck c1 : instanceCache) (wk w1 w2 w3 : World σ)
      (att : VolumeAttachmentParams) (inst : Instance) (name : String) (gceDisk : google.Disk)
      (vol : Volume),
      stateBeforeItem v params k w = some (rk, ck, wk) ∧
      p.Attachment = some att ∧
      ck.update v.gce [att.InstanceId] wk = (none, c1, w1) ∧
      c1.get att.InstanceId = (inst, none) ∧
      nameVolume v inst.ZoneName w1 = ((name, none), w2) ∧
      v.gce.doCreateDisks inst.ZoneName [⟨mibToGib p.Size, name, persistentTypeOf p⟩] w2 =
        (.ok [gceDisk], w3) ∧
      r.Volume = some vol ∧ vol.Tag = p.Tag ∧
      vol.info.VolumeId = gceDisk.Name ∧
      vol.info.Size = gibToMib (toUint64 gceDisk.SizeGb) ∧
      vol.info.Persistent = true := by
  obtain ⟨rk, ck, ck', wk, wk', volume, attachment, err, hs, hone, hres⟩ :=
    CreateVolumes_item_inv v params w w' results e k p h hp
  rw [hr] at hres
  simp only [Option.some.injEq] at hres
  subst hres
  cases err with
  | some e2 => simp [itemResult] at hok
  | none =>
    obtain ⟨att, c1, w1, w2, w3, inst, name, gceDisk, hatt, hupd, hget, hname, hcreate, hvol⟩ :=
      createOneVolume_success_inv v p ck ck' wk wk' volume attachment hone
    exact ⟨rk, ck, c1, wk, w1, w2, w3, att, inst, name, gceDisk, _, hs, hatt, hupd, hget, hname,
      hcreate, by rw [hvol]; rfl, rfl, rfl, rfl, rfl⟩

/-- Instance of `CreateVolumes_volume_info`: a 2048 MiB request for which the backend creates
a 2 GiB disk named `us-east1-a--u1` returns a persistent volume of Size 2048 with that ID. -/
theorem CreateVolumes_volume_info_witness :
    (CreateVolumes
        (stubSource (.ok [⟨7, "us-east1-a--u1", 2⟩]) (.ok ⟨"us-east1-a--u1", "sdb", "READ_WRITE"⟩))
        [sampleParams] stubWorld).map (fun t => t.1.1) =
      some [⟨some ⟨"volume-0", ⟨"us-east1-a--u1", 2048, true⟩⟩,
             some ⟨"volume-0", "machine-0", ⟨"sdb"⟩⟩, none⟩] ∧
    ∃ (rk : List CreateVolumesResult) (ck c1 : instanceCache) (wk w1 w2 w3 : World Unit)
      (att : VolumeAttachmentParams) (inst : Instance) (name : String) (gceDisk : google.Disk)
      (vol : Volume),
      stateBeforeItem
        (stubSource (.ok [⟨7, "us-east1-a--u1", 2⟩]) (.ok ⟨"us-east1-a--u1", "sdb", "READ_WRITE"⟩))
        [sampleParams] 0 stubWorld = some (rk, ck, wk) ∧
      sampleParams.Attachment = some att ∧
      ck.update
        (stubSource (.ok [⟨7, "us-east1-a--u1", 2⟩])
          (.ok ⟨"us-east1-a--u1", "sdb", "READ_WRITE"⟩)).gce [att.InstanceId] wk =
        (none, c1, w1) ∧
      c1.get att.InstanceId = (inst, none) ∧
      nameVolume
        (stubSource (.ok [⟨7, "us-east1-a--u1", 2⟩]) (.ok ⟨"us-east1-a--u1", "sdb", "READ_WRITE"⟩))
        inst.ZoneName w1 = ((name, none), w2) ∧
      (stubSource (.ok [⟨7, "us-east1-a--u1", 2⟩])
          (.ok ⟨"us-east1-a--u1", "sdb", "READ_WRITE"⟩)).gce.doCreateDisks inst.ZoneName
        [⟨mibToGib sampleParams.Size, name, persistentTypeOf sampleParams⟩] w2 =
        (.ok [gceDisk], w3) ∧
      (⟨some ⟨"volume-0", ⟨"us-east1-a--u1", 2048, true⟩⟩,
          some ⟨"volume-0", "machine-0", ⟨"sdb"⟩⟩, none⟩ : CreateVolumesResult).Volume =
        some vol ∧
      vol.Tag = sampleParams.Tag ∧
      vol.info.VolumeId = gceDisk.Name ∧
      vol.info.Size = gibToMib (toUint64 gceDisk.SizeGb) ∧
      vol.info.Persistent = true :=
  ⟨by decide,
   CreateVolumes_volume_info
    (stubSource (.ok [⟨7, "us-east1-a--u1", 2⟩]) (.ok ⟨"us-east1-a--u1", "sdb", "READ_WRITE"⟩))
    [sampleParams] stubWorld _ _ none 0 sampleParams _ rfl rfl rfl rfl⟩

/-- C12: in a batch whose items all carry an attachment request, if the loop reaches item `k`
in a state in which the per-item cache update fails (the instance query fails), or succeeds
and leaves no cache entry for the item's instance (the instance is not among the running
ones), then slot `k` carries only an error (the traced query failure, respectively the traced
"cannot attach to non-running instance"), and the backend calls issued for the item are
instance queries: neither `CreateDisks` nor `RemoveDisk` is called for it. -/
theorem CreateVolumes_unresolved_instance (v : gceVolumeSource σ)
    (params : List VolumeParams) (w : World σ) (k : Nat) (p : VolumeParams)
    (att : VolumeAttachmentParams) (rk : List CreateVolumesResult) (ck c1 : instanceCache)
    (wk w1 : World σ) (uerr : Option GoError)
    (hall : ∀ q ∈ params, q.Attachment ≠ none)
    (hp : params[k]? = some p) (hatt : p.Attachment = some att)
    (hs : stateBeforeItem v params k w = some (rk, ck, wk))
    (hupd : ck.update v.gce [att.InstanceId] wk = (uerr, c1, w1))
    (hbad : uerr ≠ none ∨ c1 att.InstanceId = none) :
    ∃ (results rk' : List CreateVolumesResult) (w' : World σ) (issued : List Call),
      CreateVolumes v params w = some ((results, none), w') ∧
      results.length = params.length ∧
      results[k]? = some ⟨none, none, some (unresolvedError uerr att.InstanceId)⟩ ∧
      stateBeforeItem v params (k + 1) w = some (rk', c1, w1) ∧
      w1.calls = wk.calls ++ issued ∧
      ∀ x ∈ issued, x = Call.Instances "" [StatusRunning] ∧
        x.isCreateDisks = false ∧ x.isRemoveDisk = false := by
  obtain ⟨hone, issued, hcalls, hissued⟩ :=
    createOneVolume_unresolved v p att ck c1 wk w1 uerr hatt hupd hbad
  obtain ⟨results, rk', w', hcv, hlen, hnext, hres⟩ :=
    CreateVolumes_item v params w k p rk ck c1 wk w1 _ _ _ hall hp hs hone
  refine ⟨results, rk', w', issued, hcv, hlen, hres, hnext, hcalls, ?_⟩
  intro x hx
  rw [hissued x hx]
  exact ⟨rfl, rfl, rfl⟩

/-- Instance of `CreateVolumes_unresolved_instance`: the only item of the batch targets
instance `i-9`, which is not running; its slot carries the traced
"cannot attach to non-running instance" error and the only call issued is the instance
query. -/
theorem CreateVolumes_unresolved_instance_witness :
    ∃ (results rk' : List CreateVolumesResult) (w' : World Unit) (issued : List Call),
      CreateVolumes (stubSource (.ok []) (.error (GoError.new ""))) [strayParams] stubWorld =
        some ((results, none), w') ∧
      results.length = [strayParams].length ∧
      results[0]? = some ⟨none, none, some (unresolvedError none "i-9")⟩ ∧
      stateBeforeItem (stubSource (.ok []) (.error (GoError.new ""))) [strayParams] (0 + 1)
          stubWorld =
        some (rk', (instanceCache.empty.update
          (stubSource (.ok []) (.error (GoError.new ""))).gce ["i-9"] stubWorld).2.1,
          ⟨(), [Call.Instances "" [StatusRunning]]⟩) ∧
      [Call.Instances "" [StatusRunning]] = stubWorld.calls ++ issued ∧
      ∀ x ∈ issued, x = Call.Instances "" [StatusRunning] ∧
        x.isCreateDisks = false ∧ x.isRemoveDisk = false :=
  CreateVolumes_unresolved_instance (stubSource (.ok []) (.error (GoError.new "")))
    [strayParams] stubWorld 0 strayParams ⟨"machine-9", "i-9", false, "volume-9", ""⟩
    _ instanceCache.empty _ stubWorld ⟨(), [Call.Instances "" [StatusRunning]]⟩ none
    (by decide) rfl rfl rfl rfl (Or.inr rfl)

/-- C13: in a batch whose items all carry an attachment request, let item `i` be reached in a
state in which its instance cannot be resolved, and let an item `j` be reached in a state
in which its instance resolves, a name is generated and the backend's `CreateDisks` returns
exactly one disk.  Then `CreateVolumes` returns one slot per item, slot `i` carries an error
and no volume, and slot `j` carries the volume for that disk and no error. -/
theorem CreateVolumes_item_independent (v : gceVolumeSource σ) (params : List VolumeParams)
    (w : World σ) (i j : Nat) (pi pj : VolumeParams) (atti attj : VolumeAttachmentParams)
    (ri rj : List CreateVolumesResult) (ci ci1 cj c1 : instanceCache)
    (wi wi1 wj w1 w2 w3 : World σ) (uerr : Option GoError)
    (inst : Instance) (name : String) (gceDisk : google.Disk)
    (hall : ∀ q ∈ params, q.Attachment ≠ none)
    (hpi : params[i]? = some pi) (hatti : pi.Attachment = some atti)
    (hsi : stateBeforeItem v params i w = some (ri, ci, wi))
    (hupdi : ci.update v.gce [atti.InstanceId] wi = (uerr, ci1, wi1))
    (hbad : uerr ≠ none ∨ ci1 atti.InstanceId = none)
    (hpj : params[j]? = some pj) (hattj : pj.Attachment = some attj)
    (hsj : stateBeforeItem v params j w = some (rj, cj, wj))
    (hupdj : cj.update v.gce [attj.InstanceId] wj = (none, c1, w1))
    (hgetj : c1.get attj.InstanceId = (inst, none))
    (hname : nameVolume v inst.ZoneName w1 = ((name, none), w2))
    (hcreate : v.gce.doCreateDisks inst.ZoneName
        [⟨mibToGib pj.Size, name, persistentTypeOf pj⟩] w2 = (.ok [gceDisk], w3)) :
    ∃ (results : List CreateVolumesResult) (w' : World σ) (attachment : Option VolumeAttachment),
      CreateVolumes v params w = some ((results, none), w') ∧
      results.length = params.length ∧
      results[i]? = some ⟨none, none, some (unresolvedError uerr atti.InstanceId)⟩ ∧
      results[j]? =
        some ⟨some ⟨pj.Tag, ⟨gceDisk.Name, gibToMib (toUint64 gceDisk.SizeGb), true⟩⟩,
              attachment, none⟩ := by
  obtain ⟨honei, -⟩ := createOneVolume_unresolved v pi atti ci ci1 wi wi1 uerr hatti hupdi hbad
  obtain ⟨results, -, w', hcv, hlen, -, hresi⟩ :=
    CreateVolumes_item v params w i pi ri ci ci1 wi wi1 _ _ _ hall hpi hsi honei
  obtain ⟨attachment, w4, hone⟩ :=
    createOneVolume_one_disk v pj attj cj c1 wj w1 w2 w3 inst name gceDisk hattj hupdj hgetj
      hname hcreate
  obtain ⟨results2, -, w2', hcv2, -, -, hresj⟩ :=
    CreateVolumes_item v params w j pj rj cj c1 wj w4 _ _ _ hall hpj hsj hone
  rw [hcv] at hcv2
  simp only [Option.some.injEq, Prod.mk.injEq, and_true] at hcv2
  obtain ⟨hr, -⟩ := hcv2
  subst hr
  exact ⟨results, w', attachment, hcv, hlen, hresi, hresj⟩

/-- Instance of `CreateVolumes_item_independent`: in the batch of a request for the
non-running instance `i-9` followed by a request for the running instance `i-1`, the first
slot carries the error and the second the 2048 MiB volume. -/
theorem CreateVolumes_item_independent_witness :
    ∃ (results : List CreateVolumesResult) (w' : World Unit)
      (attachment : Option VolumeAttachment),
      CreateVolumes
          (stubSource (.ok [⟨7, "us-east1-a--u1", 2⟩])
            (.ok ⟨"us-east1-a--u1", "sdb", "READ_WRITE"⟩))
          [strayParams, sampleParams] stubWorld = some ((results, none), w') ∧
      results.length = [strayParams, sampleParams].length ∧
      results[0]? = some ⟨none, none, some (unresolvedError none "i-9")⟩ ∧
      results[1]? =
        some ⟨some ⟨"volume-0", ⟨"us-east1-a--u1", gibToMib (toUint64 2), true⟩⟩,
              attachment, none⟩ :=
  CreateVolumes_item_independent
    (stubSource (.ok [⟨7, "us-east1-a--u1", 2⟩]) (.ok ⟨"us-east1-a--u1", "sdb", "READ_WRITE"⟩))
    [strayParams, sampleParams] stubWorld 0 1 strayParams sampleParams
    ⟨"machine-9", "i-9", false, "volume-9", ""⟩ ⟨"machine-0", "i-1", false, "volume-0", ""⟩
    _ _ _ _ _ _ _ _ _ _ _ _ none ⟨"i-1", "us-east1-a", "RUNNING"⟩ "us-east1-a--u1"
    ⟨7, "us-east1-a--u1", 2⟩
    (by decide) rfl rfl rfl rfl (Or.inr rfl) rfl rfl rfl rfl rfl rfl rfl

/-! ## Theorems: destruction -/

/-- The two outcomes of `parseVolumeId`: without `"--"` the empty parts and the malformed-ID
error, with `"--"` a zone, a suffix and no error. -/
theorem parseVolumeId_cases (volName : String) :
    (¬ "--".data <:+: volName.data ∧
        parseVolumeId volName = ("", "", some (malformedVolumeId volName))) ∨
      ("--".data <:+: volName.data ∧
        ∃ zone suffix, parseVolumeId volName = (zone, suffix, none)) := by
  have hsep : "--".data = ['-', '-'] := rfl
  rw [parseVolumeId_eq, hsep]
  cases hc : cut ['-', '-'] volName.data with
  | none => exact Or.inl ⟨(cut_eq_none_iff _ _).mp hc, rfl⟩
  | some r =>
    obtain ⟨a, b⟩ := r
    refine Or.inr ⟨?_, _, _, rfl⟩
    by_contra hcon
    rw [(cut_eq_none_iff _ _).mpr hcon] at hc
    exact absurd hc (by simp)

/-- Source `destroyOneVolume` on a malformed ID: the annotated malformed-ID error, and the
world is left as it was (no backend call). -/
theorem destroyOneVolume_malformed (v : gceVolumeSource σ) (volName : String) (w : World σ)
    (h : ¬ "--".data <:+: volName.data) :
    destroyOneVolume v volName w =
      (some (GoError.annotate (malformedVolumeId volName) "invalid volume id %q" [volName]),
       w) := by
  rcases parseVolumeId_cases volName with ⟨-, hp⟩ | ⟨hin, -⟩
  · unfold destroyOneVolume
    rw [hp]
  · exact absurd hin h

/-- Source `destroyOneVolume` on a well-formed ID: exactly one `RemoveDisk` for the decoded
zone and the ID, whose error, if any, is returned annotated. -/
theorem destroyOneVolume_wellformed (v : gceVolumeSource σ) (volName : String) (w : World σ)
    (h : "--".data <:+: volName.data) :
    destroyOneVolume v volName w =
      ((v.gce.RemoveDisk (parseVolumeId volName).1 volName w.st).1.map
          (fun err => GoError.annotate err "cannot destroy volume %q" [volName]),
       ⟨(v.gce.RemoveDisk (parseVolumeId volName).1 volName w.st).2,
        w.calls ++ [Call.RemoveDisk (parseVolumeId volName).1 volName]⟩) := by
  rcases parseVolumeId_cases volName with ⟨hn, -⟩ | ⟨-, zone, suffix, hp⟩
  · exact absurd h hn
  · unfold destroyOneVolume gceConnection.doRemoveDisk
    rw [hp]
    dsimp only
    cases v.gce.RemoveDisk zone volName w.st with
    | mk r s => cases r <;> rfl

/-- The deletion tasks keep the number of result slots. -/
theorem destroyTasks_length (v : gceVolumeSource σ) (volNames : List String) :
    ∀ (sched : List Nat) (results : List (Option GoError)) (w : World σ),
      (destroyTasks v volNames sched results w).1.length = results.length := by
  intro sched
  induction sched with
  | nil => intro results w; rfl
  | cons i rest ih =>
    intro results w
    unfold destroyTasks
    cases volNames[i]? with
    | none => exact ih results w
    | some volName =>
      dsimp only
      rw [ih, List.length_set]

/-- A slot whose task is not scheduled is left as it was. -/
theorem destroyTasks_frame (v : gceVolumeSource σ) (volNames : List String) (i : Nat) :
    ∀ (sched : List Nat) (results : List (Option GoError)) (w : World σ),
      i ∉ sched → (destroyTasks v volNames sched results w).1[i]? = results[i]? := by
  intro sched
  induction sched with
  | nil => intro results w _; rfl
  | cons k rest ih =>
    intro results w hi
    have hik : k ≠ i := fun h => hi (h ▸ List.mem_cons_self _ _)
    have hrest : i ∉ rest := fun h => hi (List.mem_cons_of_mem _ h)
    unfold destroyTasks
    cases volNames[k]? with
    | none => exact ih results w hrest
    | some volName =>
      dsimp only
      rw [ih _ _ hrest, List.getElem?_set, if_neg hik]

/-- The world reached by the deletion tasks does not depend on the result slots. -/
theorem destroyTasks_world (v : gceVolumeSource σ) (volNames : List String) :
    ∀ (sched : List Nat) (r1 r2 : List (Option GoError)) (w : World σ),
      (destroyTasks v volNames sched r1 w).2 = (destroyTasks v volNames sched r2 w).2 := by
  intro sched
  induction sched with
  | nil => intro r1 r2 w; rfl
  | cons k rest ih =>
    intro r1 r2 w
    unfold destroyTasks
    cases volNames[k]? with
    | none => exact ih r1 r2 w
    | some volName => exact ih _ _ _

/-- Running the tasks of a concatenated schedule is running the first part, then the
second. -/
theorem destroyTasks_append (v : gceVolumeSource σ) (volNames : List String) :
    ∀ (s1 s2 : List Nat) (results : List (Option GoError)) (w : World σ),
      destroyTasks v volNames (s1 ++ s2) results w =
        destroyTasks v volNames s2 (destroyTasks v volNames s1 results w).1
          (destroyTasks v volNames s1 results w).2 := by
  intro s1
  induction s1 with
  | nil => intro s2 results w; rfl
  | cons k rest ih =>
    intro s2 results w
    rw [List.cons_append]
    show destroyTasks v volNames (k :: (rest ++ s2)) results w = _
    rw [destroyTasks, destroyTasks]
    cases volNames[k]? with
    | none => exact ih s2 results w
    | some volName => exact ih s2 _ _

/-- C14: for every completion order `sched` of the deletion tasks (a permutation of the
indices), `DestroyVolumes` returns a nil overall error and one result per ID, and for every
index `i`, with `wi` the world in which task `i` runs (the tasks scheduled before it having
completed): the result at `i` is the outcome of `destroyOneVolume` on `volNames[i]` in `wi`; it
is nil if and only if the ID contains `"--"` and the backend's `RemoveDisk` of the decoded
zone and the ID succeeds in `wi`; and for an ID without `"--"` it is the annotated malformed-ID
error and the task leaves the world as it was, issuing no backend call. -/
theorem DestroyVolumes_results (v : gceVolumeSource σ) (volNames : List String)
    (sched : List Nat) (w : World σ) (hperm : sched.Perm (List.range volNames.length)) :
    (DestroyVolumes v volNames sched w).1.2 = none ∧
    (DestroyVolumes v volNames sched w).1.1.length = volNames.length ∧
    ∀ (i : Nat) (volName : String), volNames[i]? = some volName →
      ∃ s1 s2 : List Nat, sched = s1 ++ i :: s2 ∧
        (DestroyVolumes v volNames sched w).1.1[i]? =
          some (destroyOneVolume v volName (DestroyVolumes v volNames s1 w).2).1 ∧
        ((DestroyVolumes v volNames sched w).1.1[i]? = some none ↔
          ("--".data <:+: volName.data ∧
            (v.gce.RemoveDisk (parseVolumeId volName).1 volName
              (DestroyVolumes v volNames s1 w).2.st).1 = none)) ∧
        (¬ "--".data <:+: volName.data →
          destroyOneVolume v volName (DestroyVolumes v volNames s1 w).2 =
            (some (GoError.annotate (malformedVolumeId volName) "invalid volume id %q"
              [volName]), (DestroyVolumes v volNames s1 w).2)) := by
  refine ⟨rfl, ?_, ?_⟩
  · unfold DestroyVolumes
    dsimp only
    rw [destroyTasks_length, List.length_replicate]
  · intro i volName hi
    have hk : i < volNames.length := (List.getElem?_eq_some_iff.mp hi).1
    have hmem : i ∈ sched := hperm.symm.subset (List.mem_range.mpr hk)
    have hnodup : sched.Nodup := hperm.nodup_iff.mpr (List.nodup_range _)
    obtain ⟨s1, s2, hsplit⟩ := List.append_of_mem hmem
    have hnd := hnodup
    rw [hsplit] at hnd
    have hi2 : i ∉ s2 := by
      have := (List.nodup_append.mp hnd).2.1
      exact (List.nodup_cons.mp this).1
    have hval : (DestroyVolumes v volNames sched w).1.1[i]? =
        some (destroyOneVolume v volName (DestroyVolumes v volNames s1 w).2).1 := by
      unfold DestroyVolumes
      dsimp only
      rw [hsplit, destroyTasks_append]
      rw [destroyTasks, hi]
      dsimp only
      rw [destroyTasks_frame v volNames i s2 _ _ hi2, List.getElem?_set, if_pos rfl,
        if_pos (by rw [destroyTasks_length, List.length_replicate]; exact hk)]
    refine ⟨s1, s2, hsplit, hval, ?_, fun hn => destroyOneVolume_malformed v volName _ hn⟩
    rw [hval]
    by_cases hin : "--".data <:+: volName.data
    · rw [destroyOneVolume_wellformed v volName _ hin]
      dsimp only
      cases (v.gce.RemoveDisk (parseVolumeId volName).1 volName
        (DestroyVolumes v volNames s1 w).2.st).1 with
      | none => simp [hin]
      | some e => simp
    · rw [destroyOneVolume_malformed v volName _ hin]
      simp [hin]

/-- Instance of `DestroyVolumes_results`: a well-formed and a malformed ID, the task of the
malformed one completing first; the results are index-aligned all the same. -/
theorem DestroyVolumes_results_witness :
    (DestroyVolumes (stubSource (.ok []) (.error (GoError.new "")))
        ["us-east1-a--u1", "not-a-valid-id"] [1, 0] stubWorld).1 =
      ([none, some (GoError.annotate (malformedVolumeId "not-a-valid-id")
          "invalid volume id %q" ["not-a-valid-id"])], none) ∧
    (DestroyVolumes (stubSource (.ok []) (.error (GoError.new "")))
        ["us-east1-a--u1", "not-a-valid-id"] [1, 0] stubWorld).2.calls =
      [Call.RemoveDisk "us-east1-a" "us-east1-a--u1"] ∧
    (DestroyVolumes (stubSource (.ok []) (.error (GoError.new "")))
        ["us-east1-a--u1", "not-a-valid-id"] [1, 0] stubWorld).1.2 = none ∧
    (DestroyVolumes (stubSource (.ok []) (.error (GoError.new "")))
        ["us-east1-a--u1", "not-a-valid-id"] [1, 0] stubWorld).1.1.length =
      ["us-east1-a--u1", "not-a-valid-id"].length :=
  ⟨by decide, by decide,
   (DestroyVolumes_results (stubSource (.ok []) (.error (GoError.new "")))
      ["us-east1-a--u1", "not-a-valid-id"] [1, 0] stubWorld (by decide)).1,
   (DestroyVolumes_results (stubSource (.ok []) (.error (GoError.new "")))
      ["us-east1-a--u1", "not-a-valid-id"] [1, 0] stubWorld (by decide)).2.1⟩

/-! ## Theorems: listing -/

/-- The loop of `ListVolumes` appends to its accumulator the specified list of volumes. -/
theorem listLoop_eq (v : gceVolumeSource σ) :
    ∀ (azs volumes : List String) (w : World σ),
      (listLoop v azs volumes w).1 = volumes ++ listedVolumes v azs w := by
  intro azs
  induction azs with
  | nil => intro volumes w; simp [listLoop, listedVolumes]
  | cons zone azs ih =>
    intro volumes w
    unfold listLoop listedVolumes
    cases v.gce.doDisks zone w with
    | mk r w1 =>
      cases r with
      | error e => exact ih volumes w1
      | ok disks =>
        dsimp only
        rw [ih, List.append_assoc]

/-- On a backend whose answer to `Disks` depends on the zone only, the specified list is the
concatenation, in zone order, of what each zone contributes. -/
theorem listedVolumes_stateless (v : gceVolumeSource σ)
    (answer : String → Except GoError (List google.Disk))
    (hans : ∀ zone s, (v.gce.Disks zone s).1 = answer zone) :
    ∀ (azs : List String) (w : World σ),
      listedVolumes v azs w = (azs.map (fun zone => zoneVolumes (answer zone))).flatten := by
  intro azs
  induction azs with
  | nil => intro w; rfl
  | cons zone azs ih =>
    intro w
    unfold listedVolumes gceConnection.doDisks
    dsimp only
    have h := hans zone w.st
    cases hd : v.gce.Disks zone w.st with
    | mk r s =>
      rw [hd] at h
      dsimp only at h
      subst h
      cases ha : answer zone with
      | error e => simp [ih, zoneVolumes, ha]
      | ok disks => simp [ih, zoneVolumes, ha]

/-- C15: `ListVolumes` returns an error exactly when the backend's availability-zone query
fails, and then it is that failure annotated; otherwise it returns a nil error and the
specified list: zone by zone in the order returned, the disk names of the zones whose listing
succeeds, the zones whose listing fails being skipped.  On a backend whose `Disks` answer
depends on the zone only, that list is the concatenation over the zones of their
contributions. -/
theorem ListVolumes_spec (v : gceVolumeSource σ) (w : World σ) :
    ((ListVolumes v w).1.2 ≠ none ↔ ∃ err, (v.gce.AvailabilityZones "" w.st).1 = .error err) ∧
    (∀ err, (v.gce.AvailabilityZones "" w.st).1 = .error err →
      (ListVolumes v w).1 =
        ([], some (GoError.annotate err "cannot determine availability zones" []))) ∧
    (∀ azs, (v.gce.AvailabilityZones "" w.st).1 = .ok azs →
      (ListVolumes v w).1 =
        (listedVolumes v azs (v.gce.doAvailabilityZones "" w).2, none) ∧
      ∀ answer : String → Except GoError (List google.Disk),
        (∀ zone s, (v.gce.Disks zone s).1 = answer zone) →
        (ListVolumes v w).1.1 = (azs.map (fun zone => zoneVolumes (answer zone))).flatten) := by
  unfold ListVolumes gceConnection.doAvailabilityZones
  dsimp only
  cases v.gce.AvailabilityZones "" w.st with
  | mk r s =>
    cases r with
    | error e => simp
    | ok azs =>
      dsimp only
      refine ⟨by simp, by simp, ?_⟩
      intro azs' h
      simp only [Except.ok.injEq] at h
      subst h
      refine ⟨by rw [listLoop_eq]; rfl, ?_⟩
      intro answer hans
      rw [listLoop_eq, List.nil_append, listedVolumes_stateless v answer hans]

/-- Instance of `ListVolumes_spec`: with the zones `z1`, `z2`, `z3`, the listing of `z2`
failing, the result is the disks of `z1` followed by those of `z3`, and no error. -/
theorem ListVolumes_spec_witness :
    (ListVolumes zonesSource stubWorld).1 = (["z1--a", "z1--b", "z3--c"], none) ∧
    (ListVolumes zonesSource stubWorld).1 =
      (listedVolumes zonesSource ["z1", "z2", "z3"]
        (zonesSource.gce.doAvailabilityZones "" stubWorld).2, none) :=
  ⟨by decide, ((ListVolumes_spec zonesSource stubWorld).2.2 ["z1", "z2", "z3"] rfl).1⟩

/-! ## Theorems: description -/

/-- A successful specified description yields one result per ID. -/
theorem describeAll_length (v : gceVolumeSource σ) :
    ∀ (names : List String) (w w' : World σ) (rs : List DescribeVolumesResult),
      describeAll v names w = (.ok rs, w') → rs.length = names.length := by
  intro names
  induction names with
  | nil =>
    intro w w' rs h
    simp only [describeAll, Prod.mk.injEq, Except.ok.injEq] at h
    rw [← h.1]
    rfl
  | cons vol rest ih =>
    intro w w' rs h
    unfold describeAll at h
    rcases hd : describeOneVolume v vol w with ⟨⟨res, err⟩, w1⟩
    rw [hd] at h
    cases err with
    | some e => simp at h
    | none =>
      dsimp only at h
      rcases hr : describeAll v rest w1 with ⟨r, w2⟩
      rw [hr] at h
      cases r with
      | error e => simp at h
      | ok rs2 =>
        simp only [Prod.mk.injEq, Except.ok.injEq] at h
        rw [← h.1, List.length_cons, List.length_cons, ih w1 w2 rs2 hr]

/-- The loop of `DescribeVolumes` refines the specification: on success it has written the
specified descriptions into the slots `i, i + 1, ...` and left the other slots alone; on
failure it returns nil results and the specified error. -/
theorem describeLoop_spec (v : gceVolumeSource σ) :
    ∀ (names : List String) (i : Nat) (results : List DescribeVolumesResult) (w : World σ),
      (∀ rs w', describeAll v names w = (.ok rs, w') →
        ∃ out, describeLoop v i names results w = ((some out, none), w') ∧
          out.length = results.length ∧
          ∀ j, out[j]? = if i ≤ j ∧ j < i + names.length ∧ j < results.length
            then rs[j - i]? else results[j]?) ∧
      (∀ e w', describeAll v names w = (.error e, w') →
        describeLoop v i names results w = ((none, some e), w')) := by
  intro names
  induction names with
  | nil =>
    intro i results w
    constructor
    · intro rs w' h
      simp only [describeAll, Prod.mk.injEq, Except.ok.injEq] at h
      refine ⟨results, by rw [describeLoop, h.2], rfl, ?_⟩
      intro j
      rw [if_neg]
      simp only [List.length_nil, Nat.add_zero]
      omega
    · intro e w' h
      simp [describeAll] at h
  | cons vol rest ih =>
    intro i results w
    rcases hd : describeOneVolume v vol w with ⟨⟨res, err⟩, w1⟩
    cases err with
    | some e0 =>
      constructor
      · intro rs w' h
        simp [describeAll, hd] at h
      · intro e w' h
        simp only [describeAll, hd, Prod.mk.injEq, Except.error.injEq] at h
        rw [describeLoop, hd, ← h.1, ← h.2]
    | none =>
      obtain ⟨ih1, ih2⟩ := ih (i + 1) (modifyAt (fun _ => res) i results) w1
      rcases hr : describeAll v rest w1 with ⟨r, w2⟩
      cases r with
      | error e1 =>
        constructor
        · intro rs w' h
          simp [describeAll, hd, hr] at h
        · intro e w' h
          simp only [describeAll, hd, hr, Prod.mk.injEq, Except.error.injEq] at h
          rw [describeLoop, hd]
          dsimp only
          rw [ih2 e1 w2 hr, ← h.1, ← h.2]
      | ok rs2 =>
        constructor
        · intro rs w' h
          simp only [describeAll, hd, hr, Prod.mk.injEq, Except.ok.injEq] at h
          obtain ⟨out, hloop, hlen, hget⟩ := ih1 rs2 w2 hr
          refine ⟨out, ?_, by rw [hlen, length_modifyAt], ?_⟩
          · rw [describeLoop, hd]
            dsimp only
            rw [hloop, h.2]
          · intro j
            rw [hget j, length_modifyAt, getElem?_modifyAt, ← h.1, List.length_cons]
            by_cases hj1 : i + 1 ≤ j ∧ j < i + 1 + rest.length ∧ j < results.length
            · rw [if_pos hj1, if_pos (by omega)]
              have : j - i = (j - (i + 1)) + 1 := by omega
              rw [this, List.getElem?_cons_succ]
            · rw [if_neg hj1]
              by_cases hji : j = i
              · subst hji
                rw [if_pos rfl]
                by_cases hlt : j < results.length
                · rw [if_pos (by omega), Nat.sub_self, List.getElem?_cons_zero,
                    List.getElem?_eq_getElem hlt]
                  rfl
                · rw [if_neg (by omega), List.getElem?_eq_none (by omega)]
                  rfl
              · rw [if_neg hji, if_neg (by omega)]
        · intro e w' h
          simp [describeAll, hd, hr] at h

/-- Source `DescribeVolumes` refines the specification `describeAll`. -/
theorem DescribeVolumes_eq_describeAll (v : gceVolumeSource σ) (names : List String)
    (w : World σ) :
    DescribeVolumes v names w =
      match describeAll v names w with
      | (.ok rs, w') => ((some rs, none), w')
      | (.error e, w') => ((none, some e), w') := by
  obtain ⟨h1, h2⟩ := describeLoop_spec v names 0
    (List.replicate names.length DescribeVolumesResult.zero) w
  unfold DescribeVolumes
  rcases hd : describeAll v names w with ⟨r, w'⟩
  cases r with
  | error e => exact h2 e w' hd
  | ok rs =>
    obtain ⟨out, hloop, hlen, hget⟩ := h1 rs w' hd
    rw [hloop]
    have hrs := describeAll_length v names w w' rs hd
    have : out = rs := by
      apply List.ext_getElem?
      intro j
      rw [hget j, List.length_replicate]
      by_cases hj : j < names.length
      · rw [if_pos (by omega), Nat.sub_zero]
      · rw [if_neg (by omega), List.getElem?_eq_none (by rw [List.length_replicate]; omega),
          List.getElem?_eq_none (by omega)]
    rw [this]

/-- The specified description of a concatenation: the first part, then the second part in
the world left by the first; a failure in the first part is final. -/
theorem describeAll_append (v : gceVolumeSource σ) :
    ∀ (pre post : List String) (w : World σ),
      describeAll v (pre ++ post) w =
        match describeAll v pre w with
        | (.ok rs, wk) =>
          match describeAll v post wk with
          | (.ok rs2, w2) => (.ok (rs ++ rs2), w2)
          | (.error e, w2) => (.error e, w2)
        | (.error e, wk) => (.error e, wk) := by
  intro pre
  induction pre with
  | nil =>
    intro post w
    rw [List.nil_append]
    show _ = match describeAll v post w with
      | (.ok rs2, w2) => (.ok ([] ++ rs2), w2)
      | (.error e, w2) => (.error e, w2)
    rcases describeAll v post w with ⟨r, w2⟩
    cases r <;> rfl
  | cons vol rest ih =>
    intro post w
    rw [List.cons_append]
    rw [describeAll, describeAll]
    rcases describeOneVolume v vol w with ⟨⟨res, err⟩, w1⟩
    cases err with
    | some e => rfl
    | none =>
      dsimp only
      rw [ih post w1]
      rcases describeAll v rest w1 with ⟨r, wk⟩
      cases r with
      | error e => rfl
      | ok rs =>
        dsimp only
        rcases describeAll v post wk with ⟨r2, w2⟩
        cases r2 <;> rfl

/-- A failing specified description fails at a first ID: the IDs before it are described
successfully, and the call ends in the world left by the failing description. -/
theorem describeAll_error_split (v : gceVolumeSource σ) :
    ∀ (names : List String) (w w' : World σ) (e : GoError),
      describeAll v names w = (.error e, w') →
      ∃ (pre : List String) (name : String) (post : List String)
        (rs : List DescribeVolumesResult) (wk : World σ) (x : DescribeVolumesResult)
        (err : GoError),
        names = pre ++ name :: post ∧ describeAll v pre w = (.ok rs, wk) ∧
        describeOneVolume v name wk = ((x, some err), w') ∧
        e = GoError.annotate err "cannot describe volumes" [] := by
  intro names
  induction names with
  | nil => intro w w' e h; simp [describeAll] at h
  | cons vol rest ih =>
    intro w w' e h
    rcases hd : describeOneVolume v vol w with ⟨⟨res, err⟩, w1⟩
    cases err with
    | some e0 =>
      simp only [describeAll, hd, Prod.mk.injEq, Except.error.injEq] at h
      refine ⟨[], vol, rest, [], w, res, e0, rfl, rfl, ?_, h.1.symm⟩
      rw [hd, h.2]
    | none =>
      rcases hr : describeAll v rest w1 with ⟨r, w2⟩
      cases r with
      | ok rs2 => simp [describeAll, hd, hr] at h
      | error e1 =>
        simp only [describeAll, hd, hr, Prod.mk.injEq, Except.error.injEq] at h
        obtain ⟨pre, name, post, rs, wk, x, err, hsplit, hpre, hone, he⟩ := ih w1 w2 e1 hr
        refine ⟨vol :: pre, name, post, res :: rs, wk, x, err, by rw [hsplit]; rfl, ?_, ?_, ?_⟩
        · simp [describeAll, hd, hpre]
        · rw [hone, h.2]
        · rw [← h.1, he]

/-- Source `describeOneVolume` fails exactly on a malformed ID, without backend call, and on
a well-formed ID whose `Disk` lookup fails; otherwise it describes the disk looked up. -/
theorem describeOneVolume_spec (v : gceVolumeSource σ) (volName : String) (w : World σ) :
    (¬ "--".data <:+: volName.data →
      describeOneVolume v volName w =
        ((DescribeVolumesResult.zero,
          some (GoError.annotate (malformedVolumeId volName) "cannot describe %q" [volName])),
         w)) ∧
    ("--".data <:+: volName.data →
      (∀ err w1, v.gce.doDisk (parseVolumeId volName).1 volName w = (.error err, w1) →
        describeOneVolume v volName w =
          ((DescribeVolumesResult.zero,
            some (GoError.annotate err "cannot get volume %q" [volName])), w1)) ∧
      (∀ disk w1, v.gce.doDisk (parseVolumeId volName).1 volName w = (.ok disk, w1) →
        describeOneVolume v volName w =
          ((⟨some ⟨disk.Name, gibToMib (toUint64 disk.SizeGb), false⟩, none⟩, none), w1))) := by
  rcases parseVolumeId_cases volName with ⟨hn, hp⟩ | ⟨hin, zone, suffix, hp⟩
  · refine ⟨fun _ => ?_, fun h => absurd h hn⟩
    unfold describeOneVolume
    rw [hp]
  · refine ⟨fun h => absurd hin h, fun _ => ⟨?_, ?_⟩⟩
    · intro err w1 h
      unfold describeOneVolume
      rw [hp] at h ⊢
      dsimp only at h ⊢
      rw [h]
    · intro disk w1 h
      unfold describeOneVolume
      rw [hp] at h ⊢
      dsimp only at h ⊢
      rw [h]

/-- The outcome of source `DescribeVolumes` read off the specification. -/
theorem DescribeVolumes_ok_iff (v : gceVolumeSource σ) (names : List String) (w w' : World σ)
    (out : List DescribeVolumesResult) :
    DescribeVolumes v names w = ((some out, none), w') ↔ describeAll v names w = (.ok out, w') := by
  rw [DescribeVolumes_eq_describeAll]
  rcases describeAll v names w with ⟨r, w2⟩
  cases r <;> simp

/-- C16: `DescribeVolumes` is all-or-nothing.  (1) It returns either a nil error and exactly
one result per ID, or nil results and an error.  (2) If the IDs before some ID are described
successfully and the description of that ID then fails, the call returns nil results and that
failure annotated, in the world left by the failing description: nothing is looked up for the
later IDs.  (3) An overall error only arises in that way.  (4) When the call succeeds, the
result at each index holds the name and the size in MiB (`gibToMib` of the GiB size) of the
disk looked up for the ID at that index.  (5) The description of one ID fails exactly when the
ID is malformed (no lookup is issued then) or its `Disk` lookup fails. -/
theorem DescribeVolumes_all_or_nothing (v : gceVolumeSource σ) (names : List String)
    (w : World σ) :
    ((∃ out w', DescribeVolumes v names w = ((some out, none), w') ∧
        out.length = names.length) ∨
      (∃ e w', DescribeVolumes v names w = ((none, some e), w'))) ∧
    (∀ (pre : List String) (name : String) (post : List String)
      (rs : List DescribeVolumesResult) (wk wk' : World σ) (x : DescribeVolumesResult)
      (err : GoError),
      names = pre ++ name :: post →
      DescribeVolumes v pre w = ((some rs, none), wk) →
      describeOneVolume v name wk = ((x, some err), wk') →
      DescribeVolumes v names w =
        ((none, some (GoError.annotate err "cannot describe volumes" [])), wk')) ∧
    (∀ e w', DescribeVolumes v names w = ((none, some e), w') →
      ∃ (pre : List String) (name : String) (post : List String)
        (rs : List DescribeVolumesResult) (wk : World σ) (x : DescribeVolumesResult)
        (err : GoError),
        names = pre ++ name :: post ∧
        DescribeVolumes v pre w = ((some rs, none), wk) ∧
        describeOneVolume v name wk = ((x, some err), w') ∧
        e = GoError.annotate err "cannot describe volumes" []) ∧
    (∀ out w', DescribeVolumes v names w = ((some out, none), w') →
      ∀ (pre : List String) (name : String) (post : List String),
        names = pre ++ name :: post →
        ∃ (rs : List DescribeVolumesResult) (wk wk' : World σ) (disk : google.Disk),
          DescribeVolumes v pre w = ((some rs, none), wk) ∧
          "--".data <:+: name.data ∧
          v.gce.doDisk (parseVolumeId name).1 name wk = (.ok disk, wk') ∧
          out[pre.length]? =
            some ⟨some ⟨disk.Name, gibToMib (toUint64 disk.SizeGb), false⟩, none⟩) ∧
    (∀ (name : String) (wk : World σ),
      ((describeOneVolume v name wk).1.2 ≠ none ↔
        (¬ "--".data <:+: name.data ∨
          ∃ e, (v.gce.Disk (parseVolumeId name).1 name wk.st).1 = .error e)) ∧
      (¬ "--".data <:+: name.data → (describeOneVolume v name wk).2 = wk)) := by
  refine ⟨?_, ?_, ?_, ?_, ?_⟩
  · rw [DescribeVolumes_eq_describeAll]
    rcases hd : describeAll v names w with ⟨r, w2⟩
    cases r with
    | error e => exact Or.inr ⟨e, w2, rfl⟩
    | ok rs => exact Or.inl ⟨rs, w2, rfl, describeAll_length v names w w2 rs hd⟩
  · intro pre name post rs wk wk' x err hsplit hpre hone
    rw [DescribeVolumes_ok_iff] at hpre
    rw [DescribeVolumes_eq_describeAll, hsplit, describeAll_append, hpre]
    dsimp only
    rw [describeAll, hone]
  · intro e w' h
    rw [DescribeVolumes_eq_describeAll] at h
    rcases hd : describeAll v names w with ⟨r, w2⟩
    rw [hd] at h
    cases r with
    | ok rs => simp at h
    | error e1 =>
      simp only [Prod.mk.injEq, Option.some.injEq, true_and] at h
      obtain ⟨he, hw⟩ := h
      subst he hw
      obtain ⟨pre, name, post, rs, wk, x, err, hsplit, hpre, hone, he⟩ :=
        describeAll_error_split v names w w2 e1 hd
      exact ⟨pre, name, post, rs, wk, x, err, hsplit,
        (DescribeVolumes_ok_iff v pre w wk rs).mpr hpre, hone, he⟩
  · intro out w' h pre name post hsplit
    rw [DescribeVolumes_ok_iff, hsplit, describeAll_append] at h
    rcases hpre : describeAll v pre w with ⟨r, wk⟩
    rw [hpre] at h
    cases r with
    | error e => simp at h
    | ok rs =>
      dsimp only at h
      rw [describeAll] at h
      rcases hone : describeOneVolume v name wk with ⟨⟨res, err⟩, w1⟩
      rw [hone] at h
      cases err with
      | some e => simp at h
      | none =>
        dsimp only at h
        rcases hpost : describeAll v post w1 with ⟨r3, w3⟩
        rw [hpost] at h
        cases r3 with
        | error e => simp at h
        | ok rs3 =>
          simp only [Prod.mk.injEq, Except.ok.injEq] at h
          obtain ⟨hout, -⟩ := h
          have hlen := describeAll_length v pre w wk rs hpre
          have hslot : out[pre.length]? = some res := by
            rw [← hout, ← hlen, List.getElem?_append_right (Nat.le_refl _), Nat.sub_self,
              List.getElem?_cons_zero]
          obtain ⟨hmal, hwell⟩ := describeOneVolume_spec v name wk
          by_cases hin : "--".data <:+: name.data
          · obtain ⟨herr, hok⟩ := hwell hin
            rcases hdisk : v.gce.doDisk (parseVolumeId name).1 name wk with ⟨r4, w4⟩
            cases r4 with
            | error e =>
              have := herr e w4 hdisk
              rw [hone] at this
              simp at this
            | ok disk =>
              have := hok disk w4 hdisk
              rw [hone] at this
              simp only [Prod.mk.injEq, and_true] at this
              refine ⟨rs, wk, w4, disk, (DescribeVolumes_ok_iff v pre w wk rs).mpr hpre, hin,
                hdisk, ?_⟩
              rw [hslot, this.1]
          · have := hmal hin
            rw [hone] at this
            simp at this
  · intro name wk
    obtain ⟨hmal, hwell⟩ := describeOneVolume_spec v name wk
    by_cases hin : "--".data <:+: name.data
    · obtain ⟨herr, hok⟩ := hwell hin
      refine ⟨?_, fun h => absurd hin h⟩
      have hst : (v.gce.doDisk (parseVolumeId name).1 name wk).1 =
          (v.gce.Disk (parseVolumeId name).1 name wk.st).1 := rfl
      rcases hdisk : v.gce.doDisk (parseVolumeId name).1 name wk with ⟨r4, w4⟩
      rw [hdisk] at hst
      dsimp only at hst
      rw [← hst]
      cases r4 with
      | error e => rw [herr e w4 hdisk]; simp
      | ok disk => rw [hok disk w4 hdisk]; simp [hin]
    · rw [hmal hin]
      simp [hin]

/-- Instance of `DescribeVolumes_all_or_nothing`: the second of three IDs is malformed; the
call returns no result and the doubly annotated malformed-ID error, and the only lookup issued
is the one for the first ID. -/
theorem DescribeVolumes_all_or_nothing_witness :
    DescribeVolumes (stubSource (.ok []) (.error (GoError.new "")))
        ["us-east1-a--u1", "not-a-valid-id", "us-east1-a--u3"] stubWorld =
      ((none, some (GoError.annotate
          (GoError.annotate (malformedVolumeId "not-a-valid-id") "cannot describe %q"
            ["not-a-valid-id"]) "cannot describe volumes" [])),
        ⟨(), [Call.Disk "us-east1-a" "us-east1-a--u1"]⟩) :=
  (DescribeVolumes_all_or_nothing (stubSource (.ok []) (.error (GoError.new "")))
      ["us-east1-a--u1", "not-a-valid-id", "us-east1-a--u3"] stubWorld).2.1
    ["us-east1-a--u1"] "not-a-valid-id" ["us-east1-a--u3"]
    [⟨some ⟨"us-east1-a--u1", 1024, false⟩, none⟩]
    ⟨(), [Call.Disk "us-east1-a" "us-east1-a--u1"]⟩
    ⟨(), [Call.Disk "us-east1-a" "us-east1-a--u1"]⟩
    DescribeVolumesResult.zero
    (GoError.annotate (malformedVolumeId "not-a-valid-id") "cannot describe %q"
      ["not-a-valid-id"])
    rfl rfl rfl

/-! ## Theorems: detachment -/

/-- The specified batch yields one outcome per item. -/
theorem runEach_length {α β : Type} (f : α → World σ → β × World σ) :
    ∀ (l : List α) (w : World σ), (runEach f l w).1.length = l.length := by
  intro l
  induction l with
  | nil => intro w; rfl
  | cons a rest ih =>
    intro w
    simp only [runEach, List.length_cons, ih]

/-- The specified batch over a concatenation: the first part, then the second part in the
world left by the first. -/
theorem runEach_append {α β : Type} (f : α → World σ → β × World σ) :
    ∀ (pre post : List α) (w : World σ),
      runEach f (pre ++ post) w =
        ((runEach f pre w).1 ++ (runEach f post (runEach f pre w).2).1,
         (runEach f post (runEach f pre w).2).2) := by
  intro pre
  induction pre with
  | nil => intro post w; rfl
  | cons a rest ih =>
    intro post w
    rw [List.cons_append]
    simp only [runEach]
    rw [ih]
    rfl

/-- The loop of `DetachVolumes` refines the specified batch: it writes the outcomes into the
slots `i, i + 1, ...`, leaves the other slots alone and ends in the specified world. -/
theorem detachLoop_spec (v : gceVolumeSource σ) :
    ∀ (ps : List VolumeAttachmentParams) (i : Nat) (result : List (Option GoError))
      (w : World σ),
      (detachLoop v i ps result w).2 = (runEach (detachOneVolume v) ps w).2 ∧
      (detachLoop v i ps result w).1.length = result.length ∧
      ∀ j, (detachLoop v i ps result w).1[j]? =
        if i ≤ j ∧ j < i + ps.length ∧ j < result.length
          then (runEach (detachOneVolume v) ps w).1[j - i]? else result[j]? := by
  intro ps
  induction ps with
  | nil =>
    intro i result w
    refine ⟨rfl, rfl, ?_⟩
    intro j
    rw [if_neg]
    · rfl
    · simp only [List.length_nil, Nat.add_zero]
      omega
  | cons a rest ih =>
    intro i result w
    obtain ⟨h1, h2, h3⟩ := ih (i + 1)
      (modifyAt (fun _ => (detachOneVolume v a w).1) i result) (detachOneVolume v a w).2
    rw [detachLoop]
    refine ⟨by rw [h1]; rfl, by rw [h2, length_modifyAt], ?_⟩
    intro j
    rw [h3 j, length_modifyAt, getElem?_modifyAt, List.length_cons]
    simp only [runEach]
    by_cases hj1 : i + 1 ≤ j ∧ j < i + 1 + rest.length ∧ j < result.length
    · rw [if_pos hj1, if_pos (by omega)]
      have : j - i = (j - (i + 1)) + 1 := by omega
      rw [this, List.getElem?_cons_succ]
    · rw [if_neg hj1]
      by_cases hji : j = i
      · subst hji
        rw [if_pos rfl]
        by_cases hlt : j < result.length
        · rw [if_pos (by omega), Nat.sub_self, List.getElem?_cons_zero,
            List.getElem?_eq_getElem hlt]
          rfl
        · rw [if_neg (by omega), List.getElem?_eq_none (by omega)]
          rfl
      · rw [if_neg hji, if_neg (by omega)]

/-- Source `DetachVolumes` refines the specified batch of `detachOneVolume`. -/
theorem DetachVolumes_eq_runEach (v : gceVolumeSource σ) (ps : List VolumeAttachmentParams)
    (w : World σ) :
    DetachVolumes v ps w =
      (((runEach (detachOneVolume v) ps w).1, none), (runEach (detachOneVolume v) ps w).2) := by
  obtain ⟨h1, h2, h3⟩ := detachLoop_spec v ps 0 (List.replicate ps.length none) w
  unfold DetachVolumes
  dsimp only
  rw [h1]
  have : (detachLoop v 0 ps (List.replicate ps.length none) w).1 =
      (runEach (detachOneVolume v) ps w).1 := by
    apply List.ext_getElem?
    intro j
    rw [h3 j, List.length_replicate]
    by_cases hj : j < ps.length
    · rw [if_pos (by omega), Nat.sub_zero]
    · rw [if_neg (by omega), List.getElem?_eq_none (by rw [List.length_replicate]; omega),
        List.getElem?_eq_none (by rw [runEach_length]; omega)]
  rw [this]

/-- C18: `DetachVolumes` returns a nil overall error and exactly one result per item; the
result at each index is the outcome of `detachOneVolume` on the item of that index in the
world left by the items before it.  For an item whose volume ID contains `"--"`,
`detachOneVolume` issues exactly one `DetachDisk` for the decoded zone, the instance and the
volume ID, and nothing else, and the backend's outcome is the item's result as it is; for a
malformed volume ID the result is the annotated malformed-ID error and no backend call is
made. -/
theorem DetachVolumes_results (v : gceVolumeSource σ) (ps : List VolumeAttachmentParams)
    (w : World σ) :
    (DetachVolumes v ps w).1.2 = none ∧
    (DetachVolumes v ps w).1.1.length = ps.length ∧
    (∀ (pre : List VolumeAttachmentParams) (a : VolumeAttachmentParams)
      (post : List VolumeAttachmentParams), ps = pre ++ a :: post →
      (DetachVolumes v ps w).1.1[pre.length]? =
        some (detachOneVolume v a (DetachVolumes v pre w).2).1) ∧
    (∀ (a : VolumeAttachmentParams) (wk : World σ),
      ("--".data <:+: a.VolumeId.data →
        detachOneVolume v a wk =
          ((v.gce.DetachDisk (parseVolumeId a.VolumeId).1 a.InstanceId a.VolumeId wk.st).1,
           ⟨(v.gce.DetachDisk (parseVolumeId a.VolumeId).1 a.InstanceId a.VolumeId wk.st).2,
            wk.calls ++
              [Call.DetachDisk (parseVolumeId a.VolumeId).1 a.InstanceId a.VolumeId]⟩)) ∧
      (¬ "--".data <:+: a.VolumeId.data →
        detachOneVolume v a wk =
          (some (GoError.annotate (malformedVolumeId a.VolumeId)
            "%q is not a valid volume id" [a.VolumeId]), wk))) := by
  refine ⟨rfl, ?_, ?_, ?_⟩
  · rw [DetachVolumes_eq_runEach]
    exact runEach_length _ ps w
  · intro pre a post hsplit
    rw [DetachVolumes_eq_runEach, DetachVolumes_eq_runEach, hsplit, runEach_append]
    dsimp only
    rw [← runEach_length (detachOneVolume v) pre w,
      List.getElem?_append_right (Nat.le_refl _), Nat.sub_self]
    simp only [runEach, List.getElem?_cons_zero]
  · intro a wk
    rcases parseVolumeId_cases a.VolumeId with ⟨hn, hp⟩ | ⟨hin, zone, suffix, hp⟩
    · refine ⟨fun h => absurd h hn, fun _ => ?_⟩
      unfold detachOneVolume
      dsimp only
      rw [hp]
    · refine ⟨fun _ => ?_, fun h => absurd hin h⟩
      unfold detachOneVolume gceConnection.doDetachDisk
      dsimp only
      rw [hp]

/-- Instance of `DetachVolumes_results`: a well-formed and a malformed volume ID on a backend
whose `DetachDisk` fails with "not attached"; the first result is that failure as the backend
reported it, the second the malformed-ID error, and the only call is the one `DetachDisk`. -/
theorem DetachVolumes_results_witness :
    DetachVolumes zonesSource
        [⟨"machine-0", "i-1", false, "volume-0", "z1--a"⟩,
         ⟨"machine-0", "i-1", false, "volume-1", "not-a-valid-id"⟩] stubWorld =
      (([some (GoError.new "not attached"),
         some (GoError.annotate (malformedVolumeId "not-a-valid-id")
           "%q is not a valid volume id" ["not-a-valid-id"])], none),
       ⟨(), [Call.DetachDisk "z1" "i-1" "z1--a"]⟩) ∧
    (DetachVolumes zonesSource
        [⟨"machine-0", "i-1", false, "volume-0", "z1--a"⟩,
         ⟨"machine-0", "i-1", false, "volume-1", "not-a-valid-id"⟩] stubWorld).1.1.length =
      2 :=
  ⟨rfl,
   (DetachVolumes_results zonesSource
      [⟨"machine-0", "i-1", false, "volume-0", "z1--a"⟩,
       ⟨"machine-0", "i-1", false, "volume-1", "not-a-valid-id"⟩] stubWorld).2.1⟩

/-! ## Theorems: attachment -/

/-- Source `attachOneVolume` when the instance already reports the volume: the first reported
disk with that volume name is returned and the only backend call is `InstanceDisks`. -/
theorem attachOneVolume_found (v : gceVolumeSource σ) (volumeName mode instanceId : String)
    (w w1 : World σ) (zone suffix : String) (disks : List AttachedDisk) (d : AttachedDisk)
    (hp : parseVolumeId volumeName = (zone, suffix, none))
    (hdisks : v.gce.doInstanceDisks zone instanceId w = (.ok disks, w1))
    (hfind : disks.find? (fun disk => disk.VolumeName == volumeName) = some d) :
    attachOneVolume v volumeName mode instanceId w = ((some d, none), w1) ∧
      w1.calls = w.calls ++ [Call.InstanceDisks zone instanceId] := by
  constructor
  · unfold attachOneVolume
    rw [hp]
    dsimp only
    rw [hdisks]
    dsimp only
    rw [hfind]
  · unfold gceConnection.doInstanceDisks at hdisks
    simp only [Prod.mk.injEq] at hdisks
    rw [← hdisks.2]

/-- A successful `attachOneVolume` either found the volume among the instance's disks, or did
not find it and had it attached by the backend. -/
theorem attachOneVolume_success_cases (v : gceVolumeSource σ)
    (volumeName mode instanceId : String) (w w1 : World σ) (d : AttachedDisk)
    (h : attachOneVolume v volumeName mode instanceId w = ((some d, none), w1)) :
    ∃ (zone suffix : String) (disks : List AttachedDisk) (wmid : World σ),
      parseVolumeId volumeName = (zone, suffix, none) ∧
      v.gce.doInstanceDisks zone instanceId w = (.ok disks, wmid) ∧
      ((disks.find? (fun disk => disk.VolumeName == volumeName) = some d ∧ w1 = wmid) ∨
       (disks.find? (fun disk => disk.VolumeName == volumeName) = none ∧
        v.gce.doAttachDisk zone volumeName instanceId mode wmid = (.ok d, w1))) := by
  rcases parseVolumeId_cases volumeName with ⟨-, hp⟩ | ⟨-, zone, suffix, hp⟩
  · simp [attachOneVolume, hp] at h
  · rcases hdisks : v.gce.doInstanceDisks zone instanceId w with ⟨r, wmid⟩
    cases r with
    | error e => simp [attachOneVolume, hp, hdisks] at h
    | ok disks =>
      refine ⟨zone, suffix, disks, wmid, hp, hdisks, ?_⟩
      cases hfind : disks.find? (fun disk => disk.VolumeName == volumeName) with
      | some d0 =>
        simp [attachOneVolume, hp, hdisks, hfind] at h
        exact Or.inl ⟨by rw [h.1], h.2.symm⟩
      | none =>
        rcases hatt : v.gce.doAttachDisk zone volumeName instanceId mode wmid with ⟨r2, w2⟩
        cases r2 with
        | error e => simp [attachOneVolume, hp, hdisks, hfind, hatt] at h
        | ok d2 =>
          simp [attachOneVolume, hp, hdisks, hfind, hatt] at h
          exact Or.inr ⟨rfl, by rw [h.1, h.2]⟩

/-- Source `attachOneVolume` issues at most one `AttachDisk`. -/
theorem attachOneVolume_attachCount (v : gceVolumeSource σ)
    (volumeName mode instanceId : String) (w : World σ) :
    ((attachOneVolume v volumeName mode instanceId w).2.calls.filter Call.isAttachDisk).length ≤
      (w.calls.filter Call.isAttachDisk).length + 1 := by
  unfold attachOneVolume
  split
  · dsimp only
    omega
  · rename_i zone _ _
    unfold gceConnection.doInstanceDisks
    cases v.gce.InstanceDisks zone instanceId w.st with
    | mk r s =>
      cases r with
      | error e => simp [Call.isAttachDisk]
      | ok disks =>
        dsimp only
        split
        · simp [Call.isAttachDisk]
        · unfold gceConnection.doAttachDisk
          dsimp only
          cases v.gce.AttachDisk zone volumeName instanceId mode s with
          | mk r2 s2 => cases r2 <;> simp [Call.isAttachDisk]

/-- Source `AttachVolumes` on a single item: the world reached is the one left by
`attachOneVolume`, and the result slot holds its error, or the attachment built from the
attached disk. -/
theorem AttachVolumes_single (v : gceVolumeSource σ) (a : VolumeAttachmentParams)
    (w : World σ) :
    ∃ r : AttachVolumesResult,
      AttachVolumes v [a] w = some (([r], none),
        (attachOneVolume v a.VolumeId (if a.ReadOnly then "READ_ONLY" else "READ_WRITE")
          a.InstanceId w).2) ∧
      (∀ d, (attachOneVolume v a.VolumeId (if a.ReadOnly then "READ_ONLY" else "READ_WRITE")
          a.InstanceId w).1 = (some d, none) →
        r = ⟨some ⟨a.Volume, a.Machine, ⟨d.DeviceName⟩⟩, none⟩) ∧
      (r.Error = none →
        ∃ d, (attachOneVolume v a.VolumeId (if a.ReadOnly then "READ_ONLY" else "READ_WRITE")
          a.InstanceId w).1 = (some d, none)) := by
  rcases hone : attachOneVolume v a.VolumeId (if a.ReadOnly then "READ_ONLY" else "READ_WRITE")
    a.InstanceId w with ⟨⟨x, err⟩, w1⟩
  cases err with
  | some e =>
    refine ⟨⟨none, some e⟩, ?_, ?_, ?_⟩
    · simp [AttachVolumes, attachLoop, hone, modifyAt, AttachVolumesResult.zero]
    · intro d hd; simp at hd
    · intro h; simp at h
  | none =>
    cases x with
    | none => exact absurd hone (attachOneVolume_ne _ _ _ _ _ _)
    | some d =>
      refine ⟨⟨some ⟨a.Volume, a.Machine, ⟨d.DeviceName⟩⟩, none⟩, ?_, ?_, ?_⟩
      · simp [AttachVolumes, attachLoop, hone, modifyAt, AttachVolumesResult.zero]
      · intro d2 hd
        simp only [Prod.mk.injEq, Option.some.injEq, and_true] at hd
        rw [hd]
      · intro _
        exact ⟨d, rfl⟩

/-- Updating the slot that follows a prefix. -/
theorem modifyAt_append_length {α : Type} (f : α → α) (pre : List α) (x : α) (tl : List α) :
    modifyAt f pre.length (pre ++ x :: tl) = pre ++ f x :: tl := by
  induction pre with
  | nil => rfl
  | cons y ys ih =>
    show y :: modifyAt f ys.length (ys ++ x :: tl) = y :: (ys ++ f x :: tl)
    rw [ih]

/-- The loop of `AttachVolumes` refines the specified batch of `attachStep`: started behind
the slots `pre`, it appends the slot of each item and ends in the specified world. -/
theorem attachLoop_eq_runEach (v : gceVolumeSource σ) :
    ∀ (ps : List VolumeAttachmentParams) (pre : List AttachVolumesResult) (w : World σ),
      attachLoop v pre.length ps (pre ++ List.replicate ps.length AttachVolumesResult.zero) w =
        some (pre ++ (runEach (attachStep v) ps w).1, (runEach (attachStep v) ps w).2) := by
  intro ps
  induction ps with
  | nil =>
    intro pre w
    simp [attachLoop, runEach]
  | cons a rest ih =>
    intro pre w
    rw [List.length_cons, List.replicate_succ, attachLoop]
    simp only [modifyAt_append_length]
    rcases hone : attachOneVolume v a.VolumeId (if a.ReadOnly then "READ_ONLY" else "READ_WRITE")
      a.InstanceId w with ⟨⟨x, err⟩, w1⟩
    have hstep : attachStep v a w = (attachSlot a (x, err), w1) := by
      simp only [attachStep, attachItem, hone]
    have hrun : runEach (attachStep v) (a :: rest) w =
        (attachSlot a (x, err) :: (runEach (attachStep v) rest w1).1,
         (runEach (attachStep v) rest w1).2) := by
      simp only [runEach, hstep]
    rw [hrun]
    cases err with
    | some e =>
      have h := ih (pre ++ [attachSlot a (x, some e)]) w1
      rw [List.length_append, List.length_singleton, List.append_assoc,
        List.singleton_append, List.append_assoc, List.singleton_append] at h
      cases x <;> exact h
    | none =>
      cases x with
      | none => exact absurd hone (attachOneVolume_ne _ _ _ _ _ _)
      | some d =>
        have h := ih (pre ++ [attachSlot a (some d, none)]) w1
        rw [List.length_append, List.length_singleton, List.append_assoc,
          List.singleton_append, List.append_assoc, List.singleton_append] at h
        exact h

/-- Source `AttachVolumes` refines the specified batch of `attachStep`: it returns, with one
slot per item in the order of the items and a nil error. -/
theorem AttachVolumes_eq_runEach (v : gceVolumeSource σ) (ps : List VolumeAttachmentParams)
    (w : World σ) :
    AttachVolumes v ps w =
      some (((runEach (attachStep v) ps w).1, none), attachWorldAfter v ps w) := by
  have h := attachLoop_eq_runEach v ps [] w
  simp only [List.length_nil, List.nil_append] at h
  unfold AttachVolumes attachWorldAfter
  rw [h]

/-- The outcome of an item of the specified batch is that of the operation run in the world
left by the items before it. -/
theorem runEach_getElem?_length {α β : Type} (f : α → World σ → β × World σ)
    (pre post : List α) (a : α) (w : World σ) :
    (runEach f (pre ++ a :: post) w).1[pre.length]? = some (f a (runEach f pre w).2).1 := by
  rw [runEach_append]
  dsimp only
  rw [List.getElem?_append_right (by rw [runEach_length]), runEach_length, Nat.sub_self]
  simp only [runEach, List.getElem?_cons_zero]

/-- The world left by a batch extended by one item. -/
theorem attachWorldAfter_concat (v : gceVolumeSource σ) (pre : List VolumeAttachmentParams)
    (a : VolumeAttachmentParams) (w : World σ) :
    attachWorldAfter v (pre ++ [a]) w = (attachStep v a (attachWorldAfter v pre w)).2 := by
  unfold attachWorldAfter
  rw [runEach_append]
  rfl

/-- The calls logged between two worlds, the later of which extends the log of the earlier. -/
theorem issuedBy_of_append (before after : World σ) (c : List Call)
    (h : after.calls = before.calls ++ c) : issuedBy before after = c := by
  unfold issuedBy
  rw [h, List.drop_left]

/-- Source `attachOneVolume` as called for an item with a well-formed volume ID, spelled out
on the answers of the backend. -/
theorem attachItem_wellformed (v : gceVolumeSource σ) (a : VolumeAttachmentParams)
    (w : World σ) (zone suffix : String)
    (hp : parseVolumeId a.VolumeId = (zone, suffix, none)) :
    attachItem v a w =
      match (v.gce.InstanceDisks zone a.InstanceId w.st).1 with
      | .error err =>
        ((none, some (GoError.annotate err
            "cannot verify if the disk is already in the instance" [])),
          ⟨(v.gce.InstanceDisks zone a.InstanceId w.st).2,
            w.calls ++ [Call.InstanceDisks zone a.InstanceId]⟩)
      | .ok disks =>
        match disks.find? (fun disk => disk.VolumeName == a.VolumeId) with
        | some d =>
          ((some d, none),
            ⟨(v.gce.InstanceDisks zone a.InstanceId w.st).2,
              w.calls ++ [Call.InstanceDisks zone a.InstanceId]⟩)
        | none =>
          match (v.gce.AttachDisk zone a.VolumeId a.InstanceId
              (if a.ReadOnly then "READ_ONLY" else "READ_WRITE")
              (v.gce.InstanceDisks zone a.InstanceId w.st).2).1 with
          | .error err =>
            ((none, some (GoError.annotate err "cannot attach volume" [])),
              ⟨(v.gce.AttachDisk zone a.VolumeId a.InstanceId
                  (if a.ReadOnly then "READ_ONLY" else "READ_WRITE")
                  (v.gce.InstanceDisks zone a.InstanceId w.st).2).2,
                w.calls ++ [Call.InstanceDisks zone a.InstanceId,
                  Call.AttachDisk zone a.VolumeId a.InstanceId
                    (if a.ReadOnly then "READ_ONLY" else "READ_WRITE")]⟩)
          | .ok d =>
            ((some d, none),
              ⟨(v.gce.AttachDisk zone a.VolumeId a.InstanceId
                  (if a.ReadOnly then "READ_ONLY" else "READ_WRITE")
                  (v.gce.InstanceDisks zone a.InstanceId w.st).2).2,
                w.calls ++ [Call.InstanceDisks zone a.InstanceId,
                  Call.AttachDisk zone a.VolumeId a.InstanceId
                    (if a.ReadOnly then "READ_ONLY" else "READ_WRITE")]⟩) := by
  unfold attachItem attachOneVolume gceConnection.doInstanceDisks gceConnection.doAttachDisk
  rw [hp]
  dsimp only
  rcases h1 : v.gce.InstanceDisks zone a.InstanceId w.st with ⟨r, s⟩
  cases r with
  | error e => rfl
  | ok disks =>
    dsimp only
    cases hfind : disks.find? (fun disk => disk.VolumeName == a.VolumeId) with
    | some d => rfl
    | none =>
      dsimp only
      rcases h2 : v.gce.AttachDisk zone a.VolumeId a.InstanceId
        (if a.ReadOnly then "READ_ONLY" else "READ_WRITE") s with ⟨r2, s2⟩
      cases r2 with
      | error e => simp [List.append_assoc]
      | ok d => simp [List.append_assoc]

/-- The number of `AttachDisk` requests among calls issued one after the other. -/
theorem attachDiskCount_append (c1 c2 : List Call) :
    attachDiskCount (c1 ++ c2) = attachDiskCount c1 + attachDiskCount c2 := by
  unfold attachDiskCount
  rw [List.filter_append, List.length_append]

/-- `InstanceDisks` reports a volume exactly when the search of `attachOneVolume` among the
reported disks finds one. -/
theorem reportsVolume_iff (g : gceConnection σ) (zone instanceId volumeName : String) (s : σ) :
    reportsVolume g zone instanceId volumeName s = true ↔
      ∃ disks d, (g.InstanceDisks zone instanceId s).1 = .ok disks ∧
        disks.find? (fun disk => disk.VolumeName == volumeName) = some d := by
  unfold reportsVolume
  cases h : (g.InstanceDisks zone instanceId s).1 with
  | error e => simp
  | ok disks =>
    dsimp only
    constructor
    · intro hany
      cases hfind : disks.find? (fun disk => disk.VolumeName == volumeName) with
      | some d => exact ⟨disks, d, rfl, hfind⟩
      | none =>
        rw [List.any_eq_true] at hany
        obtain ⟨x, hx, hxp⟩ := hany
        have := List.find?_eq_none.mp hfind x hx
        exact absurd hxp this
    · rintro ⟨disks2, d, hd, hfind⟩
      simp only [Except.ok.injEq] at hd
      subst hd
      rw [List.any_eq_true]
      have hp := List.find?_some hfind
      exact ⟨d, List.mem_of_find?_eq_some hfind, hp⟩

/-- An item of `AttachVolumes` whose volume is already reported by `InstanceDisks`: the slot
holds the attachment with the device name of the first reported disk with that volume name,
and the only backend call is the `InstanceDisks` query. -/
theorem attachStep_found (v : gceVolumeSource σ) (a : VolumeAttachmentParams) (w : World σ)
    (zone suffix : String) (hp : parseVolumeId a.VolumeId = (zone, suffix, none))
    (hrep : reportsVolume v.gce zone a.InstanceId a.VolumeId w.st = true) :
    ∃ disks d, (v.gce.InstanceDisks zone a.InstanceId w.st).1 = .ok disks ∧
      disks.find? (fun disk => disk.VolumeName == a.VolumeId) = some d ∧
      attachStep v a w =
        (⟨some ⟨a.Volume, a.Machine, ⟨d.DeviceName⟩⟩, none⟩,
         ⟨(v.gce.InstanceDisks zone a.InstanceId w.st).2,
          w.calls ++ [Call.InstanceDisks zone a.InstanceId]⟩) := by
  obtain ⟨disks, d, hd, hfind⟩ := (reportsVolume_iff _ _ _ _ _).mp hrep
  refine ⟨disks, d, hd, hfind, ?_⟩
  unfold attachStep
  rw [attachItem_wellformed v a w zone suffix hp, hd]
  dsimp only
  rw [hfind]
  rfl

/-- The backend calls of one item of `AttachVolumes`.  The item extends the log by at most
one `AttachDisk` request; it issues one exactly when the volume ID is well-formed and
`InstanceDisks` succeeds without reporting the volume; it does so whenever its slot holds the
error "cannot attach volume"; and an item that issues none, or else fails with that error,
or else had its `AttachDisk` request succeed, leaving the backend in the state of the world
it returns. -/
theorem attachStep_calls (v : gceVolumeSource σ) (a : VolumeAttachmentParams) (w : World σ) :
    ∃ c, (attachStep v a w).2.calls = w.calls ++ c ∧
      attachDiskCount c ≤ 1 ∧
      (attachDiskCount c = 1 ↔
        ∃ zone suffix disks, parseVolumeId a.VolumeId = (zone, suffix, none) ∧
          (v.gce.InstanceDisks zone a.InstanceId w.st).1 = .ok disks ∧
          disks.find? (fun disk => disk.VolumeName == a.VolumeId) = none) ∧
      (∀ e, (attachStep v a w).1.Error =
          some (GoError.annotate e "cannot attach volume" []) → attachDiskCount c = 1) ∧
      (attachDiskCount c = 0 ∨
        (∃ e, (attachStep v a w).1.Error =
          some (GoError.annotate e "cannot attach volume" [])) ∨
        (∃ zone suffix d s, parseVolumeId a.VolumeId = (zone, suffix, none) ∧
          v.gce.AttachDisk zone a.VolumeId a.InstanceId
            (if a.ReadOnly then "READ_ONLY" else "READ_WRITE") s =
            (.ok d, (attachStep v a w).2.st))) := by
  rcases parseVolumeId_cases a.VolumeId with ⟨-, hp⟩ | ⟨-, zone, suffix, hp⟩
  · have hitem : attachItem v a w =
        ((none, some (GoError.annotate (malformedVolumeId a.VolumeId)
          "invalid volume name" [])), w) := by
      unfold attachItem attachOneVolume
      rw [hp]
    refine ⟨[], ?_, ?_, ?_, ?_, ?_⟩
    · simp [attachStep, hitem]
    · simp [attachDiskCount]
    · simp [attachDiskCount, hp]
    · intro e he
      simp [attachStep, hitem, attachSlot] at he
    · left
      simp [attachDiskCount]
  · have hitem := attachItem_wellformed v a w zone suffix hp
    have hzone : ∀ z s, parseVolumeId a.VolumeId = (z, s, none) → z = zone := by
      intro z s h
      rw [hp] at h
      simp only [Prod.mk.injEq] at h
      exact h.1.symm
    cases hd : (v.gce.InstanceDisks zone a.InstanceId w.st).1 with
    | error e0 =>
      rw [hd] at hitem
      dsimp only at hitem
      refine ⟨[Call.InstanceDisks zone a.InstanceId], ?_, ?_, ?_, ?_, ?_⟩
      · simp [attachStep, hitem]
      · simp [attachDiskCount, Call.isAttachDisk]
      · constructor
        · intro h
          simp [attachDiskCount, Call.isAttachDisk] at h
        · rintro ⟨z, s, disks, hz, hdz, -⟩
          rw [hzone z s hz, hd] at hdz
          simp at hdz
      · intro e he
        simp [attachStep, hitem, attachSlot] at he
      · left
        simp [attachDiskCount, Call.isAttachDisk]
    | ok disks =>
      rw [hd] at hitem
      dsimp only at hitem
      cases hfind : disks.find? (fun disk => disk.VolumeName == a.VolumeId) with
      | some d =>
        rw [hfind] at hitem
        dsimp only at hitem
        refine ⟨[Call.InstanceDisks zone a.InstanceId], ?_, ?_, ?_, ?_, ?_⟩
        · simp [attachStep, hitem]
        · simp [attachDiskCount, Call.isAttachDisk]
        · constructor
          · intro h
            simp [attachDiskCount, Call.isAttachDisk] at h
          · rintro ⟨z, s, disks2, hz, hdz, hf2⟩
            rw [hzone z s hz, hd] at hdz
            simp only [Except.ok.injEq] at hdz
            subst hdz
            rw [hfind] at hf2
            simp at hf2
        · intro e he
          simp [attachStep, hitem, attachSlot] at he
        · left
          simp [attachDiskCount, Call.isAttachDisk]
      | none =>
        rw [hfind] at hitem
        dsimp only at hitem
        have hone : attachDiskCount [Call.InstanceDisks zone a.InstanceId,
            Call.AttachDisk zone a.VolumeId a.InstanceId
              (if a.ReadOnly then "READ_ONLY" else "READ_WRITE")] = 1 := by
          simp [attachDiskCount, Call.isAttachDisk]
        cases hatt : (v.gce.AttachDisk zone a.VolumeId a.InstanceId
            (if a.ReadOnly then "READ_ONLY" else "READ_WRITE")
            (v.gce.InstanceDisks zone a.InstanceId w.st).2).1 with
        | error e1 =>
          rw [hatt] at hitem
          dsimp only at hitem
          refine ⟨_, ?_, Nat.le_of_eq hone, ?_, ?_, ?_⟩
          · simp only [attachStep, hitem]
          · exact ⟨fun _ => ⟨zone, suffix, disks, hp, hd, hfind⟩, fun _ => hone⟩
          · intro e _
            exact hone
          · right; left
            exact ⟨e1, by simp [attachStep, hitem, attachSlot]⟩
        | ok d =>
          rw [hatt] at hitem
          dsimp only at hitem
          refine ⟨_, ?_, Nat.le_of_eq hone, ?_, ?_, ?_⟩
          · simp only [attachStep, hitem]
          · exact ⟨fun _ => ⟨zone, suffix, disks, hp, hd, hfind⟩, fun _ => hone⟩
          · intro e _
            exact hone
          · right; right
            refine ⟨zone, suffix, d, (v.gce.InstanceDisks zone a.InstanceId w.st).2, hp, ?_⟩
            simp only [attachStep, hitem]
            exact Prod.ext hatt rfl

/-- C17 fails on the backend `flakyConn`, on which every successful `AttachDisk` makes the
volume appear in `InstanceDisks` (and `AttachDisk` does succeed once its refusals are used
up).  With one refusal left, the first attach of a pair fails in `AttachDisk`, the second
attach of the same pair does not find the volume and issues `AttachDisk` again: two requests,
whether the pair is attached by two calls in a row or twice in one call.  And for a volume ID
without separator that `InstanceDisks` does report, no attachment is returned. -/
theorem AttachVolumes_twice_counterexample :
    (∀ (zone vol inst mode : String) (s s' : Nat × List String) (d : AttachedDisk),
      flakySource.gce.AttachDisk zone vol inst mode s = (.ok d, s') →
      reportsVolume flakySource.gce zone inst vol s' = true) ∧
    flakySource.gce.AttachDisk "us-east1-a" "us-east1-a--u1" "i-1" "READ_WRITE" (0, []) =
      (.ok ⟨"us-east1-a--u1", "sdb", "READ_WRITE"⟩, (0, ["us-east1-a--u1"])) ∧
    ((AttachVolumes flakySource [sampleAttach] ⟨(1, []), []⟩).bind
      (fun t => AttachVolumes flakySource [sampleAttach] t.2)).map (fun t => t.2.calls) =
    some [Call.InstanceDisks "us-east1-a" "i-1",
          Call.AttachDisk "us-east1-a" "us-east1-a--u1" "i-1" "READ_WRITE",
          Call.InstanceDisks "us-east1-a" "i-1",
          Call.AttachDisk "us-east1-a" "us-east1-a--u1" "i-1" "READ_WRITE"] ∧
    (AttachVolumes flakySource [sampleAttach, sampleAttach] ⟨(1, []), []⟩).map
      (fun t => attachDiskCount t.2.calls) = some 2 ∧
    reportsVolume flakySource.gce "" "i-1" "not-a-valid-id" (0, ["not-a-valid-id"]) = true ∧
    (AttachVolumes flakySource [⟨"machine-0", "i-1", false, "volume-0", "not-a-valid-id"⟩]
        ⟨(0, ["not-a-valid-id"]), []⟩).map
      (fun t => (t.1.1.map (fun r => r.VolumeAttachment), t.2.calls)) = some ([none], []) := by
  refine ⟨?_, rfl, rfl, rfl, rfl, rfl⟩
  intro zone vol inst mode s s' d h
  obtain ⟨n, l⟩ := s
  cases n with
  | zero =>
    simp only [flakySource, flakyConn, Prod.mk.injEq] at h
    rw [← h.2]
    simp [reportsVolume, flakySource, flakyConn]
  | succ k =>
    simp [flakySource, flakyConn] at h

/-- C17 as amended, for the items of batches of any length.

(a) `AttachVolumes` returns one slot per item, in the order of the items, and a nil error;
the world it returns is `attachWorldAfter`, the slots are those of `attachStep` run item after
item; two calls in a row give the slots and the world of one call on the concatenation.

(b) An item with a well-formed volume ID for which, when the loop reaches it, `InstanceDisks`
for the decoded zone and the instance reports a disk with the requested volume name: its slot
holds the attachment with the device name of the first such disk, and the item issues the
`InstanceDisks` query only, no `AttachDisk`.

(c) Two items with the same volume ID and instance ID, the second after the first with any
items in between and around, in one call.  Each issues at most one `AttachDisk`.  On a
backend where a successful `AttachDisk` makes the volume appear in `InstanceDisks`, if the
items in between do not make it disappear again, and if the first attach does not fail with
"cannot attach volume", the two together issue at most one `AttachDisk`.  If the first attach
does fail with that error, it has issued one `AttachDisk`, and the two together issue two
exactly when the volume ID is well-formed and the `InstanceDisks` query of the second attach
succeeds without reporting the volume. -/
theorem AttachVolumes_idempotent (v : gceVolumeSource σ) :
    (∀ (ps : List VolumeAttachmentParams) (w : World σ),
      AttachVolumes v ps w =
        some (((runEach (attachStep v) ps w).1, none), attachWorldAfter v ps w) ∧
      (runEach (attachStep v) ps w).1.length = ps.length) ∧
    (∀ (ps1 ps2 : List VolumeAttachmentParams) (w w1 w2 : World σ)
      (r1 r2 : List AttachVolumesResult),
      AttachVolumes v ps1 w = some ((r1, none), w1) →
      AttachVolumes v ps2 w1 = some ((r2, none), w2) →
      AttachVolumes v (ps1 ++ ps2) w = some ((r1 ++ r2, none), w2)) ∧
    (∀ (pre post : List VolumeAttachmentParams) (a : VolumeAttachmentParams) (w : World σ)
      (zone suffix : String),
      parseVolumeId a.VolumeId = (zone, suffix, none) →
      reportsVolume v.gce zone a.InstanceId a.VolumeId (attachWorldAfter v pre w).st = true →
      ∃ (disks : List AttachedDisk) (d : AttachedDisk) (results : List AttachVolumesResult),
        (v.gce.InstanceDisks zone a.InstanceId (attachWorldAfter v pre w).st).1 = .ok disks ∧
        disks.find? (fun disk => disk.VolumeName == a.VolumeId) = some d ∧
        AttachVolumes v (pre ++ a :: post) w =
          some ((results, none), attachWorldAfter v (pre ++ a :: post) w) ∧
        results[pre.length]? = some ⟨some ⟨a.Volume, a.Machine, ⟨d.DeviceName⟩⟩, none⟩ ∧
        (attachWorldAfter v (pre ++ [a]) w).calls =
          (attachWorldAfter v pre w).calls ++ [Call.InstanceDisks zone a.InstanceId]) ∧
    (∀ (pre mid post : List VolumeAttachmentParams) (a1 a2 : VolumeAttachmentParams)
      (w : World σ),
      a1.VolumeId = a2.VolumeId → a1.InstanceId = a2.InstanceId →
      ∃ (results : List AttachVolumesResult) (r1 : AttachVolumesResult) (c1 c2 : List Call),
        AttachVolumes v (pre ++ a1 :: (mid ++ a2 :: post)) w =
          some ((results, none), attachWorldAfter v (pre ++ a1 :: (mid ++ a2 :: post)) w) ∧
        results[pre.length]? = some r1 ∧
        (attachWorldAfter v (pre ++ [a1]) w).calls =
          (attachWorldAfter v pre w).calls ++ c1 ∧
        (attachWorldAfter v (pre ++ a1 :: (mid ++ [a2])) w).calls =
          (attachWorldAfter v (pre ++ a1 :: mid) w).calls ++ c2 ∧
        attachDiskCount c1 ≤ 1 ∧
        attachDiskCount c2 ≤ 1 ∧
        ((∀ (zone vol inst mode : String) (s s' : σ) (d : AttachedDisk),
            v.gce.AttachDisk zone vol inst mode s = (.ok d, s') →
            reportsVolume v.gce zone inst vol s' = true) →
          (∀ zone : String,
            reportsVolume v.gce zone a1.InstanceId a1.VolumeId
              (attachWorldAfter v (pre ++ [a1]) w).st = true →
            reportsVolume v.gce zone a1.InstanceId a1.VolumeId
              (attachWorldAfter v (pre ++ a1 :: mid) w).st = true) →
          (∀ e, r1.Error ≠ some (GoError.annotate e "cannot attach volume" [])) →
          attachDiskCount (c1 ++ c2) ≤ 1) ∧
        (∀ e, r1.Error = some (GoError.annotate e "cannot attach volume" []) →
          attachDiskCount c1 = 1 ∧
          (attachDiskCount (c1 ++ c2) = 2 ↔
            ∃ zone suffix disks, parseVolumeId a2.VolumeId = (zone, suffix, none) ∧
              (v.gce.InstanceDisks zone a2.InstanceId
                (attachWorldAfter v (pre ++ a1 :: mid) w).st).1 = .ok disks ∧
              disks.find? (fun disk => disk.VolumeName == a2.VolumeId) = none))) := by
  refine ⟨?_, ?_, ?_, ?_⟩
  · intro ps w
    exact ⟨AttachVolumes_eq_runEach v ps w, runEach_length _ _ _⟩
  · intro ps1 ps2 w w1 w2 r1 r2 h1 h2
    rw [AttachVolumes_eq_runEach] at h1 h2
    simp only [Option.some.injEq, Prod.mk.injEq, and_true] at h1 h2
    obtain ⟨hr1, hw1⟩ := h1
    obtain ⟨hr2, hw2⟩ := h2
    rw [AttachVolumes_eq_runEach]
    unfold attachWorldAfter at hw1 hw2 ⊢
    rw [runEach_append]
    dsimp only
    rw [hw1, hr1, hr2, hw2]
  · intro pre post a w zone suffix hp hrep
    obtain ⟨disks, d, hd, hfind, hstep⟩ :=
      attachStep_found v a (attachWorldAfter v pre w) zone suffix hp hrep
    refine ⟨disks, d, _, hd, hfind, AttachVolumes_eq_runEach v _ w, ?_, ?_⟩
    · rw [runEach_getElem?_length]
      show some (attachStep v a (attachWorldAfter v pre w)).1 = _
      rw [hstep]
    · rw [attachWorldAfter_concat, hstep]
  · intro pre mid post a1 a2 w hvol hinst
    obtain ⟨c1, hc1, hle1, -, hfail1, hcase1⟩ :=
      attachStep_calls v a1 (attachWorldAfter v pre w)
    obtain ⟨c2, hc2, hle2, hiff2, -, -⟩ :=
      attachStep_calls v a2 (attachWorldAfter v (pre ++ a1 :: mid) w)
    have hW2 := attachWorldAfter_concat v pre a1 w
    have hW4 : attachWorldAfter v (pre ++ a1 :: (mid ++ [a2])) w =
        (attachStep v a2 (attachWorldAfter v (pre ++ a1 :: mid) w)).2 := by
      rw [← attachWorldAfter_concat, List.append_assoc, List.cons_append]
    refine ⟨_, (attachStep v a1 (attachWorldAfter v pre w)).1, c1, c2,
      AttachVolumes_eq_runEach v _ w, ?_, ?_, ?_, hle1, hle2, ?_, ?_⟩
    · rw [runEach_getElem?_length]
      rfl
    · rw [hW2, hc1]
    · rw [hW4, hc2]
    · intro H hkeep hfirst
      rw [attachDiskCount_append]
      rcases hcase1 with h0 | ⟨e, he⟩ | ⟨zone, suffix, d, s, hp, hatt⟩
      · omega
      · exact absurd he (hfirst e)
      · have hrep := H _ _ _ _ _ _ _ hatt
        rw [← hW2] at hrep
        have hrep3 := hkeep zone hrep
        rw [hvol, hinst] at hrep3
        rw [hvol] at hp
        obtain ⟨disks, d2, -, -, hstep⟩ :=
          attachStep_found v a2 (attachWorldAfter v (pre ++ a1 :: mid) w) zone suffix hp hrep3
        rw [hstep] at hc2
        have hc2e : c2 = [Call.InstanceDisks zone a2.InstanceId] :=
          (List.append_cancel_left hc2).symm
        rw [hc2e]
        have : attachDiskCount [Call.InstanceDisks zone a2.InstanceId] = 0 := by
          simp [attachDiskCount, Call.isAttachDisk]
        omega
    · intro e he
      have h1 := hfail1 e he
      refine ⟨h1, ?_⟩
      rw [attachDiskCount_append, ← hiff2]
      omega

/-- Instance of `AttachVolumes_idempotent` on the backend that records attachments, for the
batch of `sampleAttach`, `otherAttach` and `sampleAttach` again: the third item finds the
volume attached by the first, returns its device name and issues `InstanceDisks` only; the
first and the third item together issue one `AttachDisk`. -/
theorem AttachVolumes_idempotent_witness :
    (AttachVolumes tableSource [sampleAttach, otherAttach, sampleAttach] ⟨[], []⟩).map
        (fun t => (t.1.1, t.2.calls)) =
      some ([⟨some ⟨"volume-0", "machine-0", ⟨"sdb"⟩⟩, none⟩,
             ⟨some ⟨"volume-1", "machine-0", ⟨"sdb"⟩⟩, none⟩,
             ⟨some ⟨"volume-0", "machine-0", ⟨"sdb"⟩⟩, none⟩],
            [Call.InstanceDisks "us-east1-a" "i-1",
             Call.AttachDisk "us-east1-a" "us-east1-a--u1" "i-1" "READ_WRITE",
             Call.InstanceDisks "us-east1-a" "i-1",
             Call.AttachDisk "us-east1-a" "us-east1-a--u2" "i-1" "READ_ONLY",
             Call.InstanceDisks "us-east1-a" "i-1"]) ∧
    (∃ (disks : List AttachedDisk) (d : AttachedDisk) (results : List AttachVolumesResult),
      (tableSource.gce.InstanceDisks "us-east1-a" sampleAttach.InstanceId
        (attachWorldAfter tableSource [sampleAttach, otherAttach] ⟨[], []⟩).st).1 = .ok disks ∧
      disks.find? (fun disk => disk.VolumeName == sampleAttach.VolumeId) = some d ∧
      AttachVolumes tableSource ([sampleAttach, otherAttach] ++ sampleAttach :: [])
          ⟨[], []⟩ =
        some ((results, none),
          attachWorldAfter tableSource ([sampleAttach, otherAttach] ++ sampleAttach :: [])
            ⟨[], []⟩) ∧
      results[[sampleAttach, otherAttach].length]? =
        some ⟨some ⟨sampleAttach.Volume, sampleAttach.Machine, ⟨d.DeviceName⟩⟩, none⟩ ∧
      (attachWorldAfter tableSource ([sampleAttach, otherAttach] ++ [sampleAttach])
          ⟨[], []⟩).calls =
        (attachWorldAfter tableSource [sampleAttach, otherAttach] ⟨[], []⟩).calls ++
          [Call.InstanceDisks "us-east1-a" sampleAttach.InstanceId]) ∧
    (∃ c1 c2 : List Call,
      (attachWorldAfter tableSource ([] ++ [sampleAttach]) ⟨[], []⟩).calls =
        (attachWorldAfter tableSource [] ⟨[], []⟩).calls ++ c1 ∧
      (attachWorldAfter tableSource ([] ++ sampleAttach :: ([otherAttach] ++ [sampleAttach]))
          ⟨[], []⟩).calls =
        (attachWorldAfter tableSource ([] ++ sampleAttach :: [otherAttach]) ⟨[], []⟩).calls
          ++ c2 ∧
      attachDiskCount (c1 ++ c2) ≤ 1) := by
  refine ⟨rfl, ?_, ?_⟩
  · exact (AttachVolumes_idempotent tableSource).2.2.1 [sampleAttach, otherAttach] []
      sampleAttach ⟨[], []⟩ "us-east1-a" "u1" (by decide) rfl
  · obtain ⟨results, r1, c1, c2, hav, hr1, hc1, hc2, -, -, hones, -⟩ :=
      (AttachVolumes_idempotent tableSource).2.2.2 [] [otherAttach] [] sampleAttach
        sampleAttach ⟨[], []⟩ rfl rfl
    have hev : AttachVolumes tableSource
        ([] ++ sampleAttach :: ([otherAttach] ++ sampleAttach :: [])) ⟨[], []⟩ =
        some (([⟨some ⟨"volume-0", "machine-0", ⟨"sdb"⟩⟩, none⟩,
             ⟨some ⟨"volume-1", "machine-0", ⟨"sdb"⟩⟩, none⟩,
             ⟨some ⟨"volume-0", "machine-0", ⟨"sdb"⟩⟩, none⟩], none),
          attachWorldAfter tableSource
            ([] ++ sampleAttach :: ([otherAttach] ++ sampleAttach :: [])) ⟨[], []⟩) := rfl
    rw [hev] at hav
    simp only [Option.some.injEq, Prod.mk.injEq, and_true] at hav
    rw [← hav] at hr1
    simp only [List.length_nil, List.getElem?_cons_zero, Option.some.injEq] at hr1
    refine ⟨c1, c2, hc1, hc2, hones ?_ ?_ ?_⟩
    · intro zone vol inst mode s s' d h
      simp only [tableSource, tableConn, Prod.mk.injEq] at h
      rw [← h.2]
      simp [reportsVolume, tableSource, tableConn]
    · intro zone _
      rfl
    · intro e
      rw [← hr1]
      simp

/-! ## Theorems: annotation of backend failures -/

/-- Source `attachOneVolume` reports a failure of either of its backend calls annotated with
the step that failed. -/
theorem attachOneVolume_backend_errors (v : gceVolumeSource σ)
    (volumeName mode instanceId : String) (w : World σ) (zone suffix : String)
    (hp : parseVolumeId volumeName = (zone, suffix, none)) :
    (∀ e w1, v.gce.doInstanceDisks zone instanceId w = (.error e, w1) →
      attachOneVolume v volumeName mode instanceId w =
        ((none, some (GoError.annotate e
          "cannot verify if the disk is already in the instance" [])), w1)) ∧
    (∀ disks w1 e w2, v.gce.doInstanceDisks zone instanceId w = (.ok disks, w1) →
      disks.find? (fun disk => disk.VolumeName == volumeName) = none →
      v.gce.doAttachDisk zone volumeName instanceId mode w1 = (.error e, w2) →
      attachOneVolume v volumeName mode instanceId w =
        ((none, some (GoError.annotate e "cannot attach volume" [])), w2)) := by
  constructor
  · intro e w1 h
    simp [attachOneVolume, hp, h]
  · intro disks w1 e w2 h hfind hatt
    simp [attachOneVolume, hp, h, hfind, hatt]

/-- Source `instanceCache.update` reports a failure of the instance query annotated. -/
theorem update_backend_error (c : instanceCache) (g : gceConnection σ) (ids : List String)
    (w w1 : World σ) (e : GoError)
    (hq : g.doInstances "" [StatusRunning] w = (.error e, w1))
    (hids : ids.length ≠ 1) :
    c.update g ids w = (some (GoError.annotate e "querying instance details" []), c, w1) := by
  unfold instanceCache.update
  cases ids with
  | nil => simp [hq]
  | cons a rest =>
    cases rest with
    | nil => exact absurd rfl hids
    | cons b rest2 => simp [hq]

/-- C19, evaluated on a backend whose `DetachDisk` fails with "not attached": the error that
`DetachVolumes` reports for the item is that very error, without any annotation. -/
theorem DetachVolumes_backend_error_unannotated :
    (zonesSource.gce.DetachDisk "z1" "i-1" "z1--a" ()).1 = some (GoError.new "not attached") ∧
    (DetachVolumes zonesSource [⟨"machine-0", "i-1", false, "volume-0", "z1--a"⟩]
        stubWorld).1 = ([some (GoError.new "not attached")], none) := by
  decide

/-! ## Theorems: the instance cache -/

/-- The cache after the insertion loop of `instanceCache.update`: a requested key maps to the
last returned instance with that ID when there is one, and every other key is as before. -/
theorem foldl_insert_spec (ids : List String) :
    ∀ (instances : List Instance) (c : instanceCache) (k : String),
      (instances.foldl (fun c inst => if inst.ID ∈ ids then c.insert inst.ID inst else c) c) k =
        if k ∈ ids then
          (match (instances.filter (fun i => i.ID == k)).getLast? with
            | some i => some i
            | none => c k)
        else c k := by
  intro instances
  induction instances with
  | nil => intro c k; simp
  | cons x xs ih =>
    intro c k
    rw [List.foldl_cons, ih]
    by_cases hk : k ∈ ids
    · rw [if_pos hk, if_pos hk]
      by_cases hx : x.ID = k
      · have hxin : x.ID ∈ ids := hx ▸ hk
        have hf : (x :: xs).filter (fun i => i.ID == k) = x :: xs.filter (fun i => i.ID == k) := by
          simp [List.filter_cons, hx]
        rw [hf, if_pos hxin]
        cases hl : xs.filter (fun i => i.ID == k) with
        | nil => simp [instanceCache.insert, hx]
        | cons y ys =>
          rw [List.getLast?_cons_cons]
          cases hg : (y :: ys).getLast? with
          | none => simp at hg
          | some i => rfl
      · have hf : (x :: xs).filter (fun i => i.ID == k) = xs.filter (fun i => i.ID == k) := by
          simp [List.filter_cons, hx]
        rw [hf]
        have hc : (if x.ID ∈ ids then c.insert x.ID x else c) k = c k := by
          split
          · simp [instanceCache.insert, Ne.symm hx]
          · rfl
        rw [hc]
    · rw [if_neg hk, if_neg hk]
      split
      · have : k ≠ x.ID := fun h => hk (h ▸ ‹x.ID ∈ ids›)
        simp [instanceCache.insert, this]
      · rfl

/-- C21: `instanceCache.update` called with exactly one ID that is already in the cache
returns nil, leaves the cache as it is and leaves the world as it is: no backend query is
issued. -/
theorem update_cached_noop (c : instanceCache) (g : gceConnection σ) (id : String)
    (w : World σ) (h : (c id).isSome = true) :
    c.update g [id] w = (none, c, w) := by
  unfold instanceCache.update
  simp [h]

/-- Instance of `update_cached_noop`: the cache holds `i-1`; updating it for `i-1` changes
nothing and logs no call. -/
theorem update_cached_noop_witness :
    ((instanceCache.empty.insert "i-1" ⟨"i-1", "us-east1-a", "RUNNING"⟩).update
        (stubConn (.ok []) (.error (GoError.new ""))) ["i-1"] stubWorld).1 = none ∧
    ((instanceCache.empty.insert "i-1" ⟨"i-1", "us-east1-a", "RUNNING"⟩).update
        (stubConn (.ok []) (.error (GoError.new ""))) ["i-1"] stubWorld).2.1 =
      instanceCache.empty.insert "i-1" ⟨"i-1", "us-east1-a", "RUNNING"⟩ ∧
    ((instanceCache.empty.insert "i-1" ⟨"i-1", "us-east1-a", "RUNNING"⟩).update
        (stubConn (.ok []) (.error (GoError.new ""))) ["i-1"] stubWorld).2.2.calls = [] := by
  have h := update_cached_noop (instanceCache.empty.insert "i-1" ⟨"i-1", "us-east1-a", "RUNNING"⟩)
    (stubConn (.ok []) (.error (GoError.new ""))) "i-1" stubWorld (by decide)
  rw [h]
  exact ⟨rfl, rfl, rfl⟩

/-- Source `instanceCache.update` when it is not short-circuited: the result of the one
query decides the outcome. -/
theorem update_query (c : instanceCache) (g : gceConnection σ) (ids : List String)
    (w : World σ) (hns : ¬ ∃ id, ids = [id] ∧ (c id).isSome = true) :
    c.update g ids w =
      match g.doInstances "" [StatusRunning] w with
      | (.error err, w1) => (some (GoError.annotate err "querying instance details" []), c, w1)
      | (.ok instances, w1) =>
        (none,
         instances.foldl (fun c inst => if inst.ID ∈ ids then c.insert inst.ID inst else c) c,
         w1) := by
  unfold instanceCache.update
  cases ids with
  | nil => simp
  | cons a rest =>
    cases rest with
    | nil =>
      have hc : (c a).isSome = false := by
        cases h : (c a).isSome with
        | false => rfl
        | true => exact absurd ⟨a, rfl, h⟩ hns
      simp [hc]
    | cons b rest2 => simp

/-- C22: when `instanceCache.update` is not short-circuited (it is not the case that exactly
one ID is requested and cached), it issues exactly one backend call, the query for running
instances.  If the query fails with `e`, the update returns `e` annotated and the cache is
unchanged.  If it succeeds, the update returns nil and, in the cache afterwards: every
requested ID that appears among the returned instances maps to a returned instance with that
ID (to the instance itself when the returned IDs are pairwise distinct); a key that was not
requested is as before; and a key that is the ID of no returned instance is as before. -/
theorem update_refresh (c : instanceCache) (g : gceConnection σ) (ids : List String)
    (w : World σ) (hns : ¬ ∃ id, ids = [id] ∧ (c id).isSome = true) :
    (c.update g ids w).2.2.calls = w.calls ++ [Call.Instances "" [StatusRunning]] ∧
    (c.update g ids w).2.2.st = (g.Instances "" [StatusRunning] w.st).2 ∧
    (∀ e, (g.Instances "" [StatusRunning] w.st).1 = .error e →
      (c.update g ids w).1 = some (GoError.annotate e "querying instance details" []) ∧
      (c.update g ids w).2.1 = c) ∧
    (∀ instances, (g.Instances "" [StatusRunning] w.st).1 = .ok instances →
      (c.update g ids w).1 = none ∧
      (∀ id ∈ ids, (∃ inst ∈ instances, inst.ID = id) →
        ∃ inst ∈ instances, inst.ID = id ∧ (c.update g ids w).2.1 id = some inst) ∧
      (instances.Pairwise (fun a b => a.ID ≠ b.ID) →
        ∀ inst ∈ instances, inst.ID ∈ ids → (c.update g ids w).2.1 inst.ID = some inst) ∧
      (∀ k, k ∉ ids → (c.update g ids w).2.1 k = c k) ∧
      (∀ k, (∀ inst ∈ instances, inst.ID ≠ k) → (c.update g ids w).2.1 k = c k)) := by
  rw [update_query c g ids w hns]
  unfold gceConnection.doInstances
  dsimp only
  rcases hq : g.Instances "" [StatusRunning] w.st with ⟨r, s⟩
  cases r with
  | error e0 =>
    refine ⟨rfl, rfl, ?_, ?_⟩
    · intro e he
      simp only [Except.error.injEq] at he
      subst he
      exact ⟨rfl, rfl⟩
    · intro instances hi
      simp at hi
  | ok instances0 =>
    refine ⟨rfl, rfl, ?_, ?_⟩
    · intro e he
      simp at he
    · intro instances hi
      simp only [Except.ok.injEq] at hi
      subst hi
      dsimp only
      refine ⟨rfl, ?_, ?_, ?_, ?_⟩
      · intro id hid ⟨inst, hmem, hinst⟩
        rw [foldl_insert_spec, if_pos hid]
        cases hl : (instances0.filter (fun i => i.ID == id)).getLast? with
        | none =>
          rw [List.getLast?_eq_none_iff] at hl
          have : inst ∈ instances0.filter (fun i => i.ID == id) := by
            rw [List.mem_filter]
            exact ⟨hmem, by simp [hinst]⟩
          rw [hl] at this
          simp at this
        | some i =>
          have hi := List.mem_of_getLast?_eq_some hl
          rw [List.mem_filter] at hi
          exact ⟨i, hi.1, by simpa using hi.2, rfl⟩
      · intro hpw inst hmem hin
        rw [foldl_insert_spec, if_pos hin]
        have hfil : instances0.filter (fun i => i.ID == inst.ID) = [inst] := by
          clear hq
          induction instances0 with
          | nil => simp at hmem
          | cons x xs ih =>
            rw [List.pairwise_cons] at hpw
            rcases List.mem_cons.mp hmem with h | h
            · subst h
              have : xs.filter (fun i => i.ID == inst.ID) = [] := by
                rw [List.filter_eq_nil_iff]
                intro a ha
                simpa using (hpw.1 a ha).symm
              simp [List.filter_cons, this]
            · have hne : x.ID ≠ inst.ID := hpw.1 inst h
              simp only [List.filter_cons, beq_iff_eq, hne, if_false]
              exact ih hpw.2 h
        rw [hfil]
        rfl
      · intro k hk
        rw [foldl_insert_spec, if_neg hk]
      · intro k hk
        rw [foldl_insert_spec]
        have hfil : instances0.filter (fun i => i.ID == k) = [] := by
          rw [List.filter_eq_nil_iff]
          intro a ha
          simpa using hk a ha
        rw [hfil]
        simp

/-- Instance of `update_refresh`: the empty cache updated for `i-1` and `i-9` on the backend
on which only `i-1` runs; one query is issued, `i-1` is cached and `i-9` stays absent. -/
theorem update_refresh_witness :
    (instanceCache.empty.update (stubConn (.ok []) (.error (GoError.new ""))) ["i-1", "i-9"]
        stubWorld).2.2.calls = [] ++ [Call.Instances "" [StatusRunning]] ∧
    (instanceCache.empty.update (stubConn (.ok []) (.error (GoError.new ""))) ["i-1", "i-9"]
        stubWorld).2.1 "i-1" = some ⟨"i-1", "us-east1-a", "RUNNING"⟩ ∧
    (instanceCache.empty.update (stubConn (.ok []) (.error (GoError.new ""))) ["i-1", "i-9"]
        stubWorld).2.1 "i-9" = none :=
  ⟨(update_refresh instanceCache.empty (stubConn (.ok []) (.error (GoError.new "")))
      ["i-1", "i-9"] stubWorld (by simp)).1,
   by decide, by decide⟩

/-! ## Theorems: the creation request -/

/-- The backend calls of `attachOneVolume` are `InstanceDisks` and `AttachDisk` requests:
none of them is a `CreateDisks` or an `Instances` call. -/
theorem attachOneVolume_calls_kinds (v : gceVolumeSource σ)
    (volumeName mode instanceId : String) (w : World σ) :
    ∃ issued, (attachOneVolume v volumeName mode instanceId w).2.calls = w.calls ++ issued ∧
      ∀ x ∈ issued, x.isCreateDisks = false ∧ x.isInstances = false := by
  unfold attachOneVolume
  split
  · exact ⟨[], by simp, by simp⟩
  · rename_i zone _ _
    unfold gceConnection.doInstanceDisks
    cases v.gce.InstanceDisks zone instanceId w.st with
    | mk r s =>
      cases r with
      | error e =>
        exact ⟨[Call.InstanceDisks zone instanceId], rfl,
          by simp [Call.isCreateDisks, Call.isInstances]⟩
      | ok disks =>
        dsimp only
        split
        · exact ⟨[Call.InstanceDisks zone instanceId], rfl,
            by simp [Call.isCreateDisks, Call.isInstances]⟩
        · unfold gceConnection.doAttachDisk
          dsimp only
          cases v.gce.AttachDisk zone volumeName instanceId mode s with
          | mk r2 s2 =>
            refine ⟨[Call.InstanceDisks zone instanceId,
              Call.AttachDisk zone volumeName instanceId mode], ?_,
              by simp [Call.isCreateDisks, Call.isInstances]⟩
            cases r2 <;> simp

/-- A successful `nameVolume` returns the zone, the separator and the string that the UUID
generator produced. -/
theorem nameVolume_uuid (v : gceVolumeSource σ) (zone name : String) (w w2 : World σ)
    (h : nameVolume v zone w = ((name, none), w2)) :
    ∃ uuid, (v.NewUUID w.st).1 = .ok uuid ∧ name = zone ++ "--" ++ uuid := by
  unfold nameVolume at h
  split at h
  · simp at h
  · rename_i uuid s hs
    simp only [Prod.mk.injEq, and_true] at h
    exact ⟨uuid, by rw [hs], h.1.symm⟩

/-- The calls that follow the creation request within `createOneVolume`: the world reached
after an outcome `created` of `CreateDisks` extends the log by calls none of which is a
`CreateDisks` or an `Instances` call. -/
theorem createOneVolume_after_create (v : gceVolumeSource σ) (p : VolumeParams)
    (att : VolumeAttachmentParams) (instances c1 : instanceCache) (w w1 w2 w3 : World σ)
    (inst : Instance) (name : String) (created : Except GoError (List google.Disk))
    (hatt : p.Attachment = some att)
    (hupd : instances.update v.gce [att.InstanceId] w = (none, c1, w1))
    (hget : c1.get att.InstanceId = (inst, none))
    (hname : nameVolume v inst.ZoneName w1 = ((name, none), w2))
    (hcreate : v.gce.doCreateDisks inst.ZoneName
        [⟨mibToGib p.Size, name, persistentTypeOf p⟩] w2 = (created, w3)) :
    ∃ (r : Option Volume × Option VolumeAttachment × Option GoError) (w' : World σ)
      (post : List Call),
      createOneVolume v p instances w = some (r, c1, w') ∧
      w'.calls = w3.calls ++ post ∧
      ∀ x ∈ post, x.isCreateDisks = false ∧ x.isInstances = false := by
  obtain ⟨_, hne, _⟩ := nameVolume_ok v _ _ _ _ hname
  have hremove : ∀ e : GoError,
      createOneVolumeBody v p instances w =
        some (⟨none, none, some e, name, inst.ZoneName⟩, c1, w3) →
      ∃ (r : Option Volume × Option VolumeAttachment × Option GoError) (w' : World σ)
        (post : List Call),
        createOneVolume v p instances w = some (r, c1, w') ∧
        w'.calls = w3.calls ++ post ∧
        ∀ x ∈ post, x.isCreateDisks = false ∧ x.isInstances = false := by
    intro e hb
    refine ⟨(none, none, some e), (v.gce.doRemoveDisk inst.ZoneName name w3).2,
      [Call.RemoveDisk inst.ZoneName name], ?_, rfl, by simp [Call.isCreateDisks,
        Call.isInstances]⟩
    unfold createOneVolume
    rw [hb]
    simp [hne]
  cases created with
  | error e =>
    apply hremove (GoError.annotate e "cannot create disk" [])
    simp [createOneVolumeBody, hatt, hupd, hget, hname, hcreate]
  | ok gceDisks =>
    cases gceDisks with
    | nil =>
      apply hremove (GoError.new "unexpected number of disks created")
      simp [createOneVolumeBody, hatt, hupd, hget, hname, hcreate]
    | cons d ds =>
      cases ds with
      | cons d2 ds2 =>
        apply hremove (GoError.new "unexpected number of disks created")
        simp [createOneVolumeBody, hatt, hupd, hget, hname, hcreate]
      | nil =>
        obtain ⟨post, hpost, hkinds⟩ :=
          attachOneVolume_calls_kinds v d.Name "READ_WRITE" inst.ID w3
        rcases hattach : attachOneVolume v d.Name "READ_WRITE" inst.ID w3 with ⟨⟨x, aerr⟩, w4⟩
        rw [hattach] at hpost
        cases aerr with
        | some e =>
          refine ⟨(some ⟨p.Tag, ⟨d.Name, gibToMib (toUint64 d.SizeGb), true⟩⟩, none, none),
            w4, post, ?_, hpost, hkinds⟩
          simp [createOneVolume, createOneVolumeBody, hatt, hupd, hget, hname, hcreate,
            hattach]
        | none =>
          cases x with
          | none => exact absurd hattach (attachOneVolume_ne _ _ _ _ _ _)
          | some ad =>
            refine ⟨(some ⟨p.Tag, ⟨d.Name, gibToMib (toUint64 d.SizeGb), true⟩⟩,
              some ⟨p.Tag, att.Machine, ⟨ad.DeviceName⟩⟩, none), w4, post, ?_, hpost, hkinds⟩
            simp [createOneVolume, createOneVolumeBody, hatt, hupd, hget, hname, hcreate,
              hattach]

/-- C24 fails when the name cannot be generated: the instance `i-1` of the item resolves, but
the UUID generator fails, and `createOneVolume` fails the item after the instance query
without issuing any `CreateDisks` call. -/
theorem createOneVolume_disk_spec_counterexample :
    (instanceCache.empty.update noUuidSource.gce ["i-1"] stubWorld).1 = none ∧
    ((instanceCache.empty.update noUuidSource.gce ["i-1"] stubWorld).2.1.get "i-1") =
      (⟨"i-1", "us-east1-a", "RUNNING"⟩, none) ∧
    (createOneVolume noUuidSource sampleParams instanceCache.empty stubWorld).map
        (fun r => (r.1.2.2, r.2.2.calls)) =
      some (some (GoError.annotate (GoError.trace (GoError.new "no entropy"))
              "cannot create a new volume name" []),
            [Call.Instances "" [StatusRunning]]) := by
  decide

/-- C24 as amended: for an item whose target instance resolves and for which a name is
generated, `createOneVolume` returns and issues exactly one `CreateDisks` call: none before
it, none after it.  That call is made in the resolved instance's zone with exactly one disk
spec, whose size hint is `mibToGib` of the requested size, whose name is the zone followed by
`--` and the string produced by the UUID generator, and whose disk type is the `type`
attribute when it is a string and the standard persistent type otherwise. -/
theorem createOneVolume_disk_spec (v : gceVolumeSource σ) (p : VolumeParams)
    (att : VolumeAttachmentParams) (instances c1 : instanceCache) (w w1 w2 : World σ)
    (inst : Instance) (name : String)
    (hatt : p.Attachment = some att)
    (hupd : instances.update v.gce [att.InstanceId] w = (none, c1, w1))
    (hget : c1.get att.InstanceId = (inst, none))
    (hname : nameVolume v inst.ZoneName w1 = ((name, none), w2)) :
    ∃ (r : Option Volume × Option VolumeAttachment × Option GoError) (w' : World σ)
      (before after : List Call),
      createOneVolume v p instances w = some (r, c1, w') ∧
      w'.calls = w.calls ++ before ++
        [Call.CreateDisks inst.ZoneName [⟨mibToGib p.Size, name, persistentTypeOf p⟩]] ++
        after ∧
      (∀ x ∈ before, x.isCreateDisks = false) ∧
      (∀ x ∈ after, x.isCreateDisks = false) ∧
      (∃ uuid, (v.NewUUID w1.st).1 = .ok uuid ∧ name = inst.ZoneName ++ "--" ++ uuid) ∧
      (∀ s, p.Attributes "type" = some (AttrValue.str s) → persistentTypeOf p = s) ∧
      ((∀ s, p.Attributes "type" ≠ some (AttrValue.str s)) →
        persistentTypeOf p = DiskTypePersistentStandard) := by
  obtain ⟨before, hbefore, hbkind⟩ := update_calls instances v.gce [att.InstanceId] w
  rw [hupd] at hbefore
  dsimp only at hbefore
  obtain ⟨_, _, hw2⟩ := nameVolume_ok v _ _ _ _ hname
  rcases hcreate : v.gce.doCreateDisks inst.ZoneName
    [⟨mibToGib p.Size, name, persistentTypeOf p⟩] w2 with ⟨created, w3⟩
  have hw3 : w3.calls = w2.calls ++
      [Call.CreateDisks inst.ZoneName [⟨mibToGib p.Size, name, persistentTypeOf p⟩]] := by
    unfold gceConnection.doCreateDisks at hcreate
    simp only [Prod.mk.injEq] at hcreate
    rw [← hcreate.2]
  obtain ⟨r, w', post, hone, hpost, hpkind⟩ :=
    createOneVolume_after_create v p att instances c1 w w1 w2 w3 inst name created hatt hupd
      hget hname hcreate
  refine ⟨r, w', before, post, hone, ?_, ?_, fun x hx => (hpkind x hx).1,
    nameVolume_uuid v _ _ _ _ hname, ?_, ?_⟩
  · rw [hpost, hw3, hw2, hbefore]
  · intro x hx
    rw [hbkind x hx]
    rfl
  · intro s hs
    unfold persistentTypeOf
    rw [hs]
  · intro hs
    unfold persistentTypeOf
    split
    · rename_i s heq
      exact absurd heq (hs s)
    · rfl

/-- Instance of `createOneVolume_disk_spec`: a 2048 MiB request of type `pd-ssd` for instance
`i-1` in zone `us-east1-a`, with the UUID `u1`. -/
theorem createOneVolume_disk_spec_witness :
    ∃ (r : Option Volume × Option VolumeAttachment × Option GoError) (w' : World Unit)
      (before after : List Call),
      createOneVolume (stubSource (.ok [⟨7, "us-east1-a--u1", 2⟩]) (.error (GoError.new "")))
          ssdParams instanceCache.empty stubWorld =
        some (r, (instanceCache.empty.update
          (stubSource (.ok [⟨7, "us-east1-a--u1", 2⟩]) (.error (GoError.new ""))).gce
          ["i-1"] stubWorld).2.1, w') ∧
      w'.calls = stubWorld.calls ++ before ++
        [Call.CreateDisks "us-east1-a"
          [⟨mibToGib ssdParams.Size, "us-east1-a--u1", persistentTypeOf ssdParams⟩]] ++
        after ∧
      (∀ x ∈ before, x.isCreateDisks = false) ∧
      (∀ x ∈ after, x.isCreateDisks = false) ∧
      (∃ uuid,
        ((stubSource (.ok [⟨7, "us-east1-a--u1", 2⟩]) (.error (GoError.new ""))).NewUUID ()).1 =
          .ok uuid ∧
        "us-east1-a--u1" = "us-east1-a" ++ "--" ++ uuid) ∧
      (∀ s, ssdParams.Attributes "type" = some (AttrValue.str s) →
        persistentTypeOf ssdParams = s) ∧
      ((∀ s, ssdParams.Attributes "type" ≠ some (AttrValue.str s)) →
        persistentTypeOf ssdParams = DiskTypePersistentStandard) :=
  createOneVolume_disk_spec
    (stubSource (.ok [⟨7, "us-east1-a--u1", 2⟩]) (.error (GoError.new "")))
    ssdParams ⟨"machine-0", "i-1", false, "volume-2", ""⟩ instanceCache.empty _
    stubWorld ⟨(), [Call.Instances "" [StatusRunning]]⟩
    ⟨(), [Call.Instances "" [StatusRunning]]⟩ ⟨"i-1", "us-east1-a", "RUNNING"⟩
    "us-east1-a--u1" rfl rfl rfl rfl

/-! ## Theorems: instance queries of a batch -/

/-- Source `instanceCache.update` for a single cached ID is short-circuited. -/
theorem update_short_circuit (c : instanceCache) (g : gceConnection σ) (id : String)
    (w : World σ) (h : (c id).isSome = true) :
    c.update g [id] w = (none, c, w) := by
  unfold instanceCache.update
  simp [h]

/-- When it is not short-circuited and the query for running instances succeeds,
`instanceCache.update` logs exactly that query and caches every requested ID that is the ID
of a returned instance. -/
theorem update_stable (c : instanceCache) (g : gceConnection σ) (ids : List String)
    (w : World σ) (running : List Instance)
    (hq : (g.Instances "" [StatusRunning] w.st).1 = .ok running)
    (hns : ¬ ∃ id, ids = [id] ∧ (c id).isSome = true) :
    ∃ (c1 : instanceCache) (w1 : World σ),
      c.update g ids w = (none, c1, w1) ∧
      w1.calls = w.calls ++ [Call.Instances "" [StatusRunning]] ∧
      ∀ k ∈ ids, (∃ inst ∈ running, inst.ID = k) → (c1 k).isSome = true := by
  rw [update_query c g ids w hns]
  unfold gceConnection.doInstances
  dsimp only
  rcases hg : g.Instances "" [StatusRunning] w.st with ⟨r, s⟩
  rw [hg] at hq
  dsimp only at hq
  subst hq
  refine ⟨_, _, rfl, rfl, ?_⟩
  intro k hk ⟨inst, hmem, hinst⟩
  rw [foldl_insert_spec, if_pos hk]
  cases hl : (running.filter (fun i => i.ID == k)).getLast? with
  | none =>
    rw [List.getLast?_eq_none_iff] at hl
    have : inst ∈ running.filter (fun i => i.ID == k) := by
      rw [List.mem_filter]
      exact ⟨hmem, by simp [hinst]⟩
    rw [hl] at this
    simp at this
  | some i => rfl

/-- Source `nameVolume` issues no backend call. -/
theorem nameVolume_calls (v : gceVolumeSource σ) (zone : String) (w : World σ) :
    (nameVolume v zone w).2.calls = w.calls := by
  unfold nameVolume
  split <;> rfl

/-- Once the per-item cache update has succeeded and the cache holds the item's instance,
`createOneVolume` returns without touching the cache further, and none of the backend calls it
issues from then on is an `Instances` query. -/
theorem createOneVolume_resolved (v : gceVolumeSource σ) (p : VolumeParams)
    (att : VolumeAttachmentParams) (instances c1 : instanceCache) (w w1 : World σ)
    (hatt : p.Attachment = some att)
    (hupd : instances.update v.gce [att.InstanceId] w = (none, c1, w1))
    (hc : (c1 att.InstanceId).isSome = true) :
    ∃ (r : Option Volume × Option VolumeAttachment × Option GoError) (w' : World σ)
      (post : List Call),
      createOneVolume v p instances w = some (r, c1, w') ∧
      w'.calls = w1.calls ++ post ∧
      ∀ x ∈ post, x.isInstances = false := by
  obtain ⟨inst, hinst⟩ := Option.isSome_iff_exists.mp hc
  have hget : c1.get att.InstanceId = (inst, none) := by
    unfold instanceCache.get
    rw [hinst]
  rcases hname : nameVolume v inst.ZoneName w1 with ⟨⟨name, nerr⟩, w2⟩
  have hw2 : w2.calls = w1.calls := by
    have := nameVolume_calls v inst.ZoneName w1
    rw [hname] at this
    exact this
  cases nerr with
  | some e =>
    by_cases hn : name = ""
    · refine ⟨(none, none, some (GoError.annotate e "cannot create a new volume name" [])),
        w2, [], ?_, by rw [hw2, List.append_nil], by simp⟩
      simp [createOneVolume, createOneVolumeBody, hatt, hupd, hget, hname, hn]
    · refine ⟨(none, none, some (GoError.annotate e "cannot create a new volume name" [])),
        (v.gce.doRemoveDisk inst.ZoneName name w2).2, [Call.RemoveDisk inst.ZoneName name],
        ?_, ?_, by simp [Call.isInstances]⟩
      · simp [createOneVolume, createOneVolumeBody, hatt, hupd, hget, hname, hn]
      · unfold gceConnection.doRemoveDisk
        dsimp only
        rw [hw2]
  | none =>
    rcases hcreate : v.gce.doCreateDisks inst.ZoneName
      [⟨mibToGib p.Size, name, persistentTypeOf p⟩] w2 with ⟨created, w3⟩
    have hw3 : w3.calls = w2.calls ++
        [Call.CreateDisks inst.ZoneName [⟨mibToGib p.Size, name, persistentTypeOf p⟩]] := by
      unfold gceConnection.doCreateDisks at hcreate
      simp only [Prod.mk.injEq] at hcreate
      rw [← hcreate.2]
    obtain ⟨r, w', post, hone, hpost, hpkind⟩ :=
      createOneVolume_after_create v p att instances c1 w w1 w2 w3 inst name created hatt hupd
        hget hname hcreate
    refine ⟨r, w', Call.CreateDisks inst.ZoneName
      [⟨mibToGib p.Size, name, persistentTypeOf p⟩] :: post, hone, ?_, ?_⟩
    · rw [hpost, hw3, hw2]
      simp
    · intro x hx
      rcases List.mem_cons.mp hx with h | h
      · rw [h]; rfl
      · exact (hpkind x h).2

/-- With every item's instance in the cache, the second loop of `CreateVolumes` returns, leaves
the cache as it is and issues no `Instances` query. -/
theorem createLoop_cached (v : gceVolumeSource σ) :
    ∀ (ps : List VolumeParams) (i : Nat) (results : List CreateVolumesResult)
      (c : instanceCache) (w : World σ),
      (∀ p ∈ ps, ∃ att, p.Attachment = some att ∧ (c att.InstanceId).isSome = true) →
      ∃ (out : List CreateVolumesResult) (w' : World σ) (issued : List Call),
        createLoop v i ps results c w = some (out, c, w') ∧
        w'.calls = w.calls ++ issued ∧
        ∀ x ∈ issued, x.isInstances = false := by
  intro ps
  induction ps with
  | nil =>
    intro i results c w _
    exact ⟨results, w, [], rfl, by simp, by simp⟩
  | cons p ps ih =>
    intro i results c w hall
    obtain ⟨att, hatt, hc⟩ := hall p (List.mem_cons_self _ _)
    have hps : ∀ q ∈ ps, ∃ att, q.Attachment = some att ∧ (c att.InstanceId).isSome = true :=
      fun q hq => hall q (List.mem_cons_of_mem _ hq)
    rw [createLoop_cons]
    by_cases herr : ((results.getD i CreateVolumesResult.zero).Error).isSome = true
    · rw [if_pos herr]
      exact ih (i + 1) results c w hps
    · rw [if_neg herr]
      obtain ⟨r, w1, post, hone, hpost, hpkind⟩ :=
        createOneVolume_resolved v p att c c w w hatt
          (update_short_circuit c v.gce att.InstanceId w hc) hc
      rw [hone]
      obtain ⟨volume, attachment, err⟩ := r
      have key : ∀ results' : List CreateVolumesResult,
          ∃ (out : List CreateVolumesResult) (w' : World σ) (issued : List Call),
            createLoop v (i + 1) ps results' c w1 = some (out, c, w') ∧
            w'.calls = w.calls ++ issued ∧ ∀ x ∈ issued, x.isInstances = false := by
        intro results'
        obtain ⟨out, w', issued, hloop, hcalls, hkind⟩ := ih (i + 1) results' c w1 hps
        refine ⟨out, w', post ++ issued, hloop, by rw [hcalls, hpost, List.append_assoc], ?_⟩
        intro x hx
        rcases List.mem_append.mp hx with h | h
        · exact hpkind x h
        · exact hkind x h
      cases err with
      | some e => exact key _
      | none => exact key _

/-- Membership in a set of strings after `set.Strings.Add`. -/
theorem mem_setAdd (s : List String) (x y : String) : y ∈ setAdd s x ↔ y ∈ s ∨ y = x := by
  unfold setAdd
  split
  · constructor
    · exact Or.inl
    · rintro (h | h)
      · exact h
      · rw [h]; assumption
  · simp

/-- The instance IDs collected by the first loop of `CreateVolumes`: those given initially
and those referenced by the items. -/
theorem validateLoop_ids (v : gceVolumeSource σ) :
    ∀ (ps : List VolumeParams) (i : Nat) (results out : List CreateVolumesResult)
      (ids ids' : List String),
      validateLoop v i ps results ids = some (out, ids') →
      (∀ p ∈ ps, ∀ att, p.Attachment = some att → att.InstanceId ∈ ids') ∧
      (∀ x ∈ ids, x ∈ ids') := by
  intro ps
  induction ps with
  | nil =>
    intro i results out ids ids' h
    simp only [validateLoop, Option.some.injEq, Prod.mk.injEq] at h
    rw [← h.2]
    exact ⟨by simp, fun x hx => hx⟩
  | cons p ps ih =>
    intro i results out ids ids' h
    cases hatt : p.Attachment with
    | none => simp [validateLoop, ValidateVolumeParams, hatt] at h
    | some att =>
      simp only [validateLoop, ValidateVolumeParams, hatt] at h
      obtain ⟨h1, h2⟩ := ih (i + 1) results out _ ids' h
      constructor
      · intro q hq att' hatt'
        rcases List.mem_cons.mp hq with hqp | hqp
        · subst hqp
          rw [hatt] at hatt'
          simp only [Option.some.injEq] at hatt'
          subst hatt'
          exact h2 _ ((mem_setAdd _ _ _).mpr (Or.inr rfl))
        · exact h1 q hqp att' hatt'
      · intro x hx
        exact h2 x ((mem_setAdd _ _ _).mpr (Or.inl hx))

/-- C25: for a batch of at least one item, on a backend whose query for instances always
succeeds with the same list `running`, if every item references an instance of that list, then
`CreateVolumes` returns one slot per item and, among the backend calls it issues, exactly one is
an `Instances` query (the query for running instances), whatever the number of items and of
distinct instances referenced. -/
theorem CreateVolumes_single_query (v : gceVolumeSource σ) (params : List VolumeParams)
    (w : World σ) (running : List Instance)
    (hne : params ≠ [])
    (hstable : ∀ (pfx : String) (statuses : List String) (s : σ),
      (v.gce.Instances pfx statuses s).1 = .ok running)
    (hrun : ∀ p ∈ params, ∃ att, p.Attachment = some att ∧
      ∃ inst ∈ running, inst.ID = att.InstanceId) :
    ∃ (results : List CreateVolumesResult) (w' : World σ) (issued : List Call),
      CreateVolumes v params w = some ((results, none), w') ∧
      results.length = params.length ∧
      w'.calls = w.calls ++ issued ∧
      issued.filter Call.isInstances = [Call.Instances "" [StatusRunning]] := by
  have hall : ∀ q ∈ params, q.Attachment ≠ none := by
    intro q hq hn
    obtain ⟨att, hatt, -⟩ := hrun q hq
    rw [hn] at hatt
    exact absurd hatt (by simp)
  obtain ⟨hnone, hsome⟩ := validateLoop_spec v params 0
    (List.replicate params.length CreateVolumesResult.zero) []
  have hfilter : ∀ issued : List Call, (∀ x ∈ issued, x.isInstances = false) →
      issued.filter Call.isInstances = [] := by
    intro issued h
    rw [List.filter_eq_nil_iff]
    intro x hx
    rw [h x hx]
    simp
  -- it suffices to exhibit the log of a returning run
  suffices hrun' : ∃ (results : List CreateVolumesResult) (w' : World σ) (issued : List Call),
      CreateVolumes v params w = some ((results, none), w') ∧
      w'.calls = w.calls ++ issued ∧
      issued.filter Call.isInstances = [Call.Instances "" [StatusRunning]] by
    obtain ⟨results, w', issued, hcv, hcalls, hcount⟩ := hrun'
    obtain ⟨-, hlen, -⟩ := CreateVolumes_aligned v params w w' results none hcv
    exact ⟨results, w', issued, hcv, hlen, hcalls, hcount⟩
  cases hv : validateLoop v 0 params
      (List.replicate params.length CreateVolumesResult.zero) [] with
  | none =>
    obtain ⟨q, hq, hqn⟩ := hnone.mp hv
    exact absurd hqn (hall q hq)
  | some t =>
    obtain ⟨results0, ids⟩ := t
    have h0 := hsome results0 ids hv
    subst h0
    obtain ⟨hids, -⟩ := validateLoop_ids v params 0 _ _ [] ids hv
    by_cases hlen : ids.length > 1
    · -- several distinct instances: the cache is filled by the batched query
      have hns : ¬ ∃ id, ids = [id] ∧ (instanceCache.empty id).isSome = true := by
        rintro ⟨id, hid, -⟩
        rw [hid] at hlen
        simp at hlen
      obtain ⟨c1, w1, hupd, hw1, hcover⟩ :=
        update_stable instanceCache.empty v.gce ids w running (hstable _ _ _) hns
      have hcached : ∀ p ∈ params, ∃ att, p.Attachment = some att ∧
          (c1 att.InstanceId).isSome = true := by
        intro p hp
        obtain ⟨att, hatt, hinst⟩ := hrun p hp
        exact ⟨att, hatt, hcover _ (hids p hp att hatt) hinst⟩
      obtain ⟨out, w', issued, hloop, hcalls, hkind⟩ :=
        createLoop_cached v params 0 (List.replicate params.length CreateVolumesResult.zero)
          c1 w1 hcached
      refine ⟨out, w', Call.Instances "" [StatusRunning] :: issued, ?_, ?_, ?_⟩
      · unfold CreateVolumes
        dsimp only
        rw [hv]
        dsimp only
        rw [if_pos hlen, hupd]
        dsimp only
        rw [hloop]
      · rw [hcalls, hw1]
        simp
      · rw [List.filter_cons, hfilter issued hkind]
        rfl
    · -- a single instance: the first item fills the cache
      cases hparams : params with
      | nil => exact absurd hparams hne
      | cons p0 rest =>
        subst hparams
        obtain ⟨att0, hatt0, hinst0⟩ := hrun p0 (List.mem_cons_self _ _)
        have hid0 : att0.InstanceId ∈ ids := hids p0 (List.mem_cons_self _ _) att0 hatt0
        have hids1 : ids = [att0.InstanceId] := by
          cases ids with
          | nil => simp at hid0
          | cons a tl =>
            cases tl with
            | nil =>
              simp only [List.mem_singleton] at hid0
              rw [hid0]
            | cons b tl2 =>
              simp at hlen
        have hns : ¬ ∃ id, [att0.InstanceId] = [id] ∧
            (instanceCache.empty id).isSome = true := by
          rintro ⟨id, -, hc⟩
          simp [instanceCache.empty] at hc
        obtain ⟨c1, w1, hupd, hw1, hcover⟩ :=
          update_stable instanceCache.empty v.gce [att0.InstanceId] w running
            (hstable _ _ _) hns
        have hc0 : (c1 att0.InstanceId).isSome = true :=
          hcover _ (List.mem_singleton.mpr rfl) hinst0
        obtain ⟨r, w2, post, hone, hpost, hpkind⟩ :=
          createOneVolume_resolved v p0 att0 instanceCache.empty c1 w w1 hatt0 hupd hc0
        have hcached : ∀ p ∈ rest, ∃ att, p.Attachment = some att ∧
            (c1 att.InstanceId).isSome = true := by
          intro p hp
          obtain ⟨att, hatt, -⟩ := hrun p (List.mem_cons_of_mem _ hp)
          have hin := hids p (List.mem_cons_of_mem _ hp) att hatt
          rw [hids1, List.mem_singleton] at hin
          exact ⟨att, hatt, by rw [hin]; exact hc0⟩
        have key : ∀ results' : List CreateVolumesResult,
            ∃ (out : List CreateVolumesResult) (w' : World σ) (issued : List Call),
              createLoop v (0 + 1) rest results' c1 w2 = some (out, c1, w') ∧
              w'.calls = w.calls ++ issued ∧
              issued.filter Call.isInstances = [Call.Instances "" [StatusRunning]] := by
          intro results'
          obtain ⟨out, w', issued, hloop, hcalls, hkind⟩ :=
            createLoop_cached v rest (0 + 1) results' c1 w2 hcached
          refine ⟨out, w', Call.Instances "" [StatusRunning] :: (post ++ issued), hloop, ?_, ?_⟩
          · rw [hcalls, hpost, hw1]
            simp
          · rw [List.filter_cons, hfilter (post ++ issued)]
            · rfl
            · intro x hx
              rcases List.mem_append.mp hx with h | h
              · exact hpkind x h
              · exact hkind x h
        have hzero : ((List.replicate (p0 :: rest).length CreateVolumesResult.zero).getD 0
            CreateVolumesResult.zero).Error.isSome = false := by
          simp [CreateVolumesResult.zero]
        obtain ⟨volume, attachment, err⟩ := r
        unfold CreateVolumes
        dsimp only
        rw [hv]
        dsimp only
        rw [if_neg hlen]
        dsimp only
        rw [createLoop_cons, hzero]
        simp only [Bool.false_eq_true, if_false]
        rw [hone]
        cases err with
        | some e =>
          obtain ⟨out, w', issued, hloop, hcalls, hcount⟩ := key
            (modifyAt (fun r => { r with Error := some e }) 0
              (List.replicate (p0 :: rest).length CreateVolumesResult.zero))
          exact ⟨out, w', issued, by dsimp only; rw [hloop], hcalls, hcount⟩
        | none =>
          obtain ⟨out, w', issued, hloop, hcalls, hcount⟩ := key
            (modifyAt (fun r => { r with Volume := volume, VolumeAttachment := attachment }) 0
              (List.replicate (p0 :: rest).length CreateVolumesResult.zero))
          exact ⟨out, w', issued, by dsimp only; rw [hloop], hcalls, hcount⟩

/-- Instance of `CreateVolumes_single_query`: three items referencing the two running
instances `i-1` and `i-2`; the log holds exactly one `Instances` query. -/
theorem CreateVolumes_single_query_witness :
    (CreateVolumes pairSource [sampleParams, otherParams, sampleParams] stubWorld).map
        (fun t => t.2.calls.filter Call.isInstances) =
      some [Call.Instances "" [StatusRunning]] ∧
    ∃ (results : List CreateVolumesResult) (w' : World Unit) (issued : List Call),
      CreateVolumes pairSource [sampleParams, otherParams, sampleParams] stubWorld =
        some ((results, none), w') ∧
      results.length = [sampleParams, otherParams, sampleParams].length ∧
      w'.calls = stubWorld.calls ++ issued ∧
      issued.filter Call.isInstances = [Call.Instances "" [StatusRunning]] :=
  ⟨by decide,
   CreateVolumes_single_query pairSource [sampleParams, otherParams, sampleParams] stubWorld
    [⟨"i-1", "us-east1-a", "RUNNING"⟩, ⟨"i-2", "us-east1-b", "RUNNING"⟩]
    (by simp) (fun _ _ _ => rfl)
    (by
      intro p hp
      simp only [List.mem_cons, List.mem_singleton, List.not_mem_nil, or_false] at hp
      rcases hp with h | h | h
      · subst h
        exact ⟨_, rfl, ⟨"i-1", "us-east1-a", "RUNNING"⟩, by simp, rfl⟩
      · subst h
        exact ⟨_, rfl, ⟨"i-2", "us-east1-b", "RUNNING"⟩, by simp, rfl⟩
      · subst h
        exact ⟨_, rfl, ⟨"i-1", "us-east1-a", "RUNNING"⟩, by simp, rfl⟩)⟩

/-! ## Theorems: interleaved execution of `DestroyVolumes` -/

/-- An element read from a list after one position was overwritten. -/
theorem getElem?_set_some {α : Type} (l : List α) (g k : Nat) (x y : α)
    (h : (l.set g x)[k]? = some y) : (k = g ∧ y = x) ∨ (k ≠ g ∧ l[k]? = some y) := by
  rw [List.getElem?_set] at h
  by_cases hk : g = k
  · rw [if_pos hk] at h
    split at h
    · simp only [Option.some.injEq] at h
      exact Or.inl ⟨hk.symm, h.symm⟩
    · exact absurd h (by simp)
  · rw [if_neg hk] at h
    exact Or.inr ⟨fun e => hk e.symm, h⟩

/-- An element read from a list extended by one element. -/
theorem getElem?_concat_some {α : Type} (l : List α) (k : Nat) (x y : α)
    (h : (l ++ [x])[k]? = some y) : l[k]? = some y ∨ (k = l.length ∧ y = x) := by
  by_cases hk : k < l.length
  · rw [List.getElem?_append_left hk] at h
    exact Or.inl h
  · rw [List.getElem?_append_right (Nat.le_of_not_lt hk)] at h
    cases hd : k - l.length with
    | zero =>
      rw [hd] at h
      simp only [List.getElem?_cons_zero, Option.some.injEq] at h
      exact Or.inr ⟨by omega, h.symm⟩
    | succ d =>
      rw [hd] at h
      simp at h

/-- Counting after one position was overwritten. -/
theorem countP_set_eq {α : Type} (p : α → Bool) :
    ∀ (l : List α) (g : Nat) (x t : α), l[g]? = some t →
      (l.set g x).countP p + (if p t = true then 1 else 0) =
        l.countP p + (if p x = true then 1 else 0) := by
  intro l
  induction l with
  | nil => intro g x t h; simp at h
  | cons a l ih =>
    intro g x t h
    cases g with
    | zero =>
      simp only [List.getElem?_cons_zero, Option.some.injEq] at h
      subst h
      simp only [List.set_cons_zero, List.countP_cons]
      omega
    | succ g =>
      simp only [List.getElem?_cons_succ] at h
      have := ih g x t h
      simp only [List.set_cons_succ, List.countP_cons]
      omega

/-- Counting is unchanged by an overwrite that keeps the property. -/
theorem countP_set_same {α : Type} (p : α → Bool) (l : List α) (g : Nat) (x t : α)
    (h : l[g]? = some t) (hp : p x = p t) : (l.set g x).countP p = l.countP p := by
  have := countP_set_eq p l g x t h
  rw [hp] at this
  omega

/-- Counting goes up by one on an overwrite that establishes the property. -/
theorem countP_set_succ {α : Type} (p : α → Bool) (l : List α) (g : Nat) (x t : α)
    (h : l[g]? = some t) (hpt : p t = false) (hpx : p x = true) :
    (l.set g x).countP p = l.countP p + 1 := by
  have := countP_set_eq p l g x t h
  rw [hpt, hpx] at this
  simpa using this

/-- An element of a list is still there after the list is extended. -/
theorem getElem?_concat_of_some {α : Type} (l : List α) (k : Nat) (x y : α)
    (h : l[k]? = some y) : (l ++ [x])[k]? = some y := by
  rw [List.getElem?_append_left (List.getElem?_eq_some_iff.mp h).1]
  exact h

/-- The invariant holds on entering the loop of `DestroyVolumes`. -/
theorem destroyInv_init (v : gceVolumeSource σ) (volNames : List String) (w : World σ) :
    DestroyInv v volNames w (destroyInit volNames w) := by
  constructor
  · simp [destroyInit]
  · simp [destroyInit]
  · intro k h
    simp only [destroyInit, MainPc.loop.injEq] at h
    simp [destroyInit, h]
  · intro h
    simp [destroyInit] at h
  · intro g t h
    simp [destroyInit] at h
  · simp [destroyInit]
  · intro e he
    simp [destroyInit] at he
  · simp [destroyInit]
  · intro g t h
    simp [destroyInit] at h
  · simp [destroyInit]
  · intro g
    simp [destroyInit]
  · simp [destroyInit, destroyTasks]
  · intro g t err h
    simp [destroyInit] at h
  · intro g t h
    simp [destroyInit] at h

/-- Dispatching the next goroutine preserves the invariant. -/
theorem destroyInv_spawn (v : gceVolumeSource σ) (volNames : List String) (w : World σ)
    (s : DestroyState σ) (k : Nat) (volumeName : String)
    (hinv : DestroyInv v volNames w s) (hmain : s.main = .loop k)
    (hk : volNames[k]? = some volumeName) :
    DestroyInv v volNames w
      { s with main := .loop (k + 1), tasks := s.tasks ++ [⟨k, volumeName, .ready⟩] } := by
  have hlen : s.tasks.length = k := hinv.loop_count k hmain
  have hkn : k < volNames.length := (List.getElem?_eq_some_iff.mp hk).1
  constructor
  · exact hinv.results_length
  · show (s.tasks ++ [_]).length ≤ _
    rw [List.length_append, hlen, List.length_singleton]
    omega
  · intro j h
    show (s.tasks ++ [_]).length = j
    have hj : k + 1 = j := by
      simpa using h
    rw [List.length_append, hlen, List.length_singleton]
    exact hj
  · intro h
    exact absurd h (by simp)
  · intro g t h
    rcases getElem?_concat_some _ _ _ _ h with h1 | ⟨hg, ht⟩
    · exact hinv.args g t h1
    · subst ht
      rw [hg, hlen]
      exact ⟨rfl, hk⟩
  · show s.wg = _ - ((s.tasks ++ [_]).countP _ : Nat)
    rw [List.countP_append]
    simp only [List.countP_cons, List.countP_nil, TaskPc.isDone]
    simpa using hinv.counter
  · intro e he
    obtain ⟨h1, t, h2, h3⟩ := hinv.writes_own e he
    exact ⟨h1, t, getElem?_concat_of_some _ _ _ _ h2, h3⟩
  · exact hinv.writes_nodup
  · intro g t h hw
    rcases getElem?_concat_some _ _ _ _ h with h1 | ⟨hg, ht⟩
    · exact hinv.written_logged g t h1 hw
    · subst ht
      simp [TaskPc.hasWritten] at hw
  · exact hinv.order_nodup
  · intro g
    show g ∈ s.order ↔ _
    rw [hinv.order_mem g]
    constructor
    · rintro ⟨t, h1, h2⟩
      exact ⟨t, getElem?_concat_of_some _ _ _ _ h1, h2⟩
    · rintro ⟨t, h1, h2⟩
      rcases getElem?_concat_some _ _ _ _ h1 with h | ⟨hg, ht⟩
      · exact ⟨t, h, h2⟩
      · subst ht
        simp [TaskPc.isReady] at h2
  · exact hinv.world_eq
  · intro g t err h hpc
    rcases getElem?_concat_some _ _ _ _ h with h1 | ⟨hg, ht⟩
    · exact hinv.computed_eq g t err h1 hpc
    · subst ht
      simp at hpc
  · intro g t h hw
    rcases getElem?_concat_some _ _ _ _ h with h1 | ⟨hg, ht⟩
    · exact hinv.written_eq g t h1 hw
    · subst ht
      simp [TaskPc.hasWritten] at hw

/-- Passing `wg.Wait()` with the counter at zero preserves the invariant: by then every
goroutine has been dispatched and has finished. -/
theorem destroyInv_return (v : gceVolumeSource σ) (volNames : List String) (w : World σ)
    (s : DestroyState σ) (hinv : DestroyInv v volNames w s) (hwg : s.wg = 0) :
    DestroyInv v volNames w { s with main := .returned } := by
  have hcount : s.tasks.countP (fun t => t.pc.isDone) = volNames.length := by
    have h := hinv.counter
    rw [hwg] at h
    omega
  have hle := List.countP_le_length (fun t : Task => t.pc.isDone) (l := s.tasks)
  have hlen : s.tasks.length = volNames.length := by
    have := hinv.tasks_le
    omega
  have hall : ∀ t ∈ s.tasks, t.pc = .done := by
    have h : s.tasks.countP (fun t => t.pc.isDone) = s.tasks.length := by omega
    rw [List.countP_eq_length] at h
    intro t ht
    have := h t ht
    cases hp : t.pc <;> simp [hp, TaskPc.isDone] at this
    rfl
  exact
    { results_length := hinv.results_length
      tasks_le := hinv.tasks_le
      loop_count := fun j h => absurd h (by simp)
      returned_done := fun _ => ⟨hlen, hall⟩
      args := hinv.args
      counter := hinv.counter
      writes_own := hinv.writes_own
      writes_nodup := hinv.writes_nodup
      written_logged := hinv.written_logged
      order_nodup := hinv.order_nodup
      order_mem := hinv.order_mem
      world_eq := hinv.world_eq
      computed_eq := hinv.computed_eq
      written_eq := hinv.written_eq }

/-- The tasks run in the order `order` followed by task `g`. -/
theorem destroyTasks_concat (v : gceVolumeSource σ) (volNames : List String)
    (order : List Nat) (g : Nat) (volumeName : String) (results : List (Option GoError))
    (w : World σ) (hg : volNames[g]? = some volumeName) :
    destroyTasks v volNames (order ++ [g]) results w =
      ((destroyTasks v volNames order results w).1.set g
          (destroyOneVolume v volumeName (destroyTasks v volNames order results w).2).1,
        (destroyOneVolume v volumeName (destroyTasks v volNames order results w).2).2) := by
  rw [destroyTasks_append, destroyTasks, hg]
  dsimp only
  rw [destroyTasks]

/-- The call of `destroyOneVolume` by a goroutine preserves the invariant. -/
theorem destroyInv_call (v : gceVolumeSource σ) (volNames : List String) (w : World σ)
    (s : DestroyState σ) (g : Nat) (t : Task)
    (hinv : DestroyInv v volNames w s) (ht : s.tasks[g]? = some t) (hpc : t.pc = .ready) :
    DestroyInv v volNames w
      { s with
        tasks := s.tasks.set g
          { t with pc := .computed (destroyOneVolume v t.volumeName s.world).1 },
        order := s.order ++ [g],
        world := (destroyOneVolume v t.volumeName s.world).2 } := by
  have hg : g < s.tasks.length := (List.getElem?_eq_some_iff.mp ht).1
  have hgn : g < volNames.length := Nat.lt_of_lt_of_le hg hinv.tasks_le
  have hargs := hinv.args g t ht
  have hgo : g ∉ s.order := by
    intro h
    obtain ⟨t0, h1, h2⟩ := (hinv.order_mem g).mp h
    rw [ht] at h1
    simp only [Option.some.injEq] at h1
    subst h1
    rw [hpc] at h2
    simp [TaskPc.isReady] at h2
  have hdt := destroyTasks_concat v volNames s.order g t.volumeName
    (List.replicate volNames.length none) w hargs.2
  rw [← hinv.world_eq] at hdt
  have hdl : (destroyTasks v volNames s.order (List.replicate volNames.length none) w).1.length
      = volNames.length := by
    rw [destroyTasks_length, List.length_replicate]
  constructor
  · exact hinv.results_length
  · show (s.tasks.set g _).length ≤ _
    rw [List.length_set]
    exact hinv.tasks_le
  · intro j h
    show (s.tasks.set g _).length = j
    rw [List.length_set]
    exact hinv.loop_count j h
  · intro h
    have := (hinv.returned_done h).2 t (List.getElem?_mem ht)
    rw [hpc] at this
    exact absurd this (by simp)
  · intro j u h
    rcases getElem?_set_some _ _ _ _ _ h with ⟨hj, hu⟩ | ⟨-, hu⟩
    · subst hu
      rw [hj]
      exact hargs
    · exact hinv.args j u hu
  · show s.wg = _ - ((s.tasks.set g _).countP _ : Nat)
    rw [countP_set_same (fun u : Task => u.pc.isDone) s.tasks g _ t ht (by dsimp only; rw [hpc]; rfl)]
    exact hinv.counter
  · intro e he
    obtain ⟨h1, u, h2, h3⟩ := hinv.writes_own e he
    have hne : e.1 ≠ g := by
      intro heq
      rw [heq, ht] at h2
      simp only [Option.some.injEq] at h2
      subst h2
      rw [hpc] at h3
      simp [TaskPc.hasWritten] at h3
    refine ⟨h1, u, ?_, h3⟩
    show (s.tasks.set g _)[e.1]? = some u
    rw [List.getElem?_set, if_neg (Ne.symm hne)]
    exact h2
  · exact hinv.writes_nodup
  · intro j u h hw
    rcases getElem?_set_some _ _ _ _ _ h with ⟨-, hu⟩ | ⟨-, hu⟩
    · subst hu
      simp [TaskPc.hasWritten] at hw
    · exact hinv.written_logged j u hu hw
  · show (s.order ++ [g]).Nodup
    rw [List.nodup_append]
    refine ⟨hinv.order_nodup, List.nodup_singleton g, ?_⟩
    intro x hx hx2
    rw [List.mem_singleton] at hx2
    subst hx2
    exact hgo hx
  · intro j
    show j ∈ s.order ++ [g] ↔ ∃ u, (s.tasks.set g _)[j]? = some u ∧ _
    rw [List.mem_append, List.mem_singleton, hinv.order_mem j]
    constructor
    · rintro (⟨u, h1, h2⟩ | hj)
      · by_cases hjg : j = g
        · subst hjg
          exact ⟨{ t with pc := .computed (destroyOneVolume v t.volumeName s.world).1 },
            by rw [List.getElem?_set, if_pos rfl, if_pos hg], rfl⟩
        · exact ⟨u, by rw [List.getElem?_set, if_neg (Ne.symm hjg)]; exact h1, h2⟩
      · subst hj
        exact ⟨{ t with pc := .computed (destroyOneVolume v t.volumeName s.world).1 },
            by rw [List.getElem?_set, if_pos rfl, if_pos hg], rfl⟩
    · rintro ⟨u, h1, h2⟩
      rcases getElem?_set_some _ _ _ _ _ h1 with ⟨hj, -⟩ | ⟨-, hu⟩
      · exact Or.inr hj
      · exact Or.inl ⟨u, hu, h2⟩
  · show _ = (destroyTasks v volNames (s.order ++ [g]) _ w).2
    rw [hdt]
  · intro j u err h hp
    show (destroyTasks v volNames (s.order ++ [g]) _ w).1[j]? = some err
    rw [hdt]
    dsimp only
    rcases getElem?_set_some _ _ _ _ _ h with ⟨hj, hu⟩ | ⟨hj, hu⟩
    · subst hu
      simp only [TaskPc.computed.injEq] at hp
      rw [hj, List.getElem?_set, if_pos rfl, if_pos (by rw [hdl]; exact hgn), hp]
    · rw [List.getElem?_set, if_neg (Ne.symm hj)]
      exact hinv.computed_eq j u err hu hp
  · intro j u h hw
    show s.results[j]? = (destroyTasks v volNames (s.order ++ [g]) _ w).1[j]?
    rw [hdt]
    dsimp only
    rcases getElem?_set_some _ _ _ _ _ h with ⟨-, hu⟩ | ⟨hj, hu⟩
    · subst hu
      simp [TaskPc.hasWritten] at hw
    · rw [List.getElem?_set, if_neg (Ne.symm hj)]
      exact hinv.written_eq j u hu hw

/-- The assignment of `results[i]` by a goroutine preserves the invariant. -/
theorem destroyInv_write (v : gceVolumeSource σ) (volNames : List String) (w : World σ)
    (s : DestroyState σ) (g : Nat) (t : Task) (err : Option GoError)
    (hinv : DestroyInv v volNames w s) (ht : s.tasks[g]? = some t)
    (hpc : t.pc = .computed err) :
    DestroyInv v volNames w
      { s with
        results := s.results.set t.i err,
        writes := s.writes ++ [(g, t.i)],
        tasks := s.tasks.set g { t with pc := .written } } := by
  have hg : g < s.tasks.length := (List.getElem?_eq_some_iff.mp ht).1
  have hgn : g < volNames.length := Nat.lt_of_lt_of_le hg hinv.tasks_le
  have hargs := hinv.args g t ht
  have hi : t.i = g := hargs.1
  have hnew : (g, t.i) ∉ s.writes := by
    intro h
    obtain ⟨-, u, h2, h3⟩ := hinv.writes_own _ h
    rw [ht] at h2
    simp only [Option.some.injEq] at h2
    subst h2
    rw [hpc] at h3
    simp [TaskPc.hasWritten] at h3
  constructor
  · show (s.results.set t.i err).length = _
    rw [List.length_set]
    exact hinv.results_length
  · show (s.tasks.set g _).length ≤ _
    rw [List.length_set]
    exact hinv.tasks_le
  · intro j h
    show (s.tasks.set g _).length = j
    rw [List.length_set]
    exact hinv.loop_count j h
  · intro h
    have := (hinv.returned_done h).2 t (List.getElem?_mem ht)
    rw [hpc] at this
    exact absurd this (by simp)
  · intro j u h
    rcases getElem?_set_some _ _ _ _ _ h with ⟨hj, hu⟩ | ⟨-, hu⟩
    · subst hu
      rw [hj]
      exact hargs
    · exact hinv.args j u hu
  · show s.wg = _ - ((s.tasks.set g _).countP _ : Nat)
    rw [countP_set_same (fun u : Task => u.pc.isDone) s.tasks g _ t ht
      (by dsimp only; rw [hpc]; rfl)]
    exact hinv.counter
  · intro e he
    rcases List.mem_append.mp he with he | he
    · obtain ⟨h1, u, h2, h3⟩ := hinv.writes_own e he
      have hne : e.1 ≠ g := by
        intro heq
        rw [heq, ht] at h2
        simp only [Option.some.injEq] at h2
        subst h2
        rw [hpc] at h3
        simp [TaskPc.hasWritten] at h3
      refine ⟨h1, u, ?_, h3⟩
      show (s.tasks.set g _)[e.1]? = some u
      rw [List.getElem?_set, if_neg (Ne.symm hne)]
      exact h2
    · rw [List.mem_singleton] at he
      subst he
      refine ⟨hi, { t with pc := .written }, ?_, rfl⟩
      show (s.tasks.set g _)[g]? = some _
      rw [List.getElem?_set, if_pos rfl, if_pos hg]
  · show (s.writes ++ [(g, t.i)]).Nodup
    rw [List.nodup_append]
    refine ⟨hinv.writes_nodup, List.nodup_singleton _, ?_⟩
    intro x hx hx2
    rw [List.mem_singleton] at hx2
    subst hx2
    exact hnew hx
  · intro j u h hw
    show (j, j) ∈ s.writes ++ [(g, t.i)]
    rcases getElem?_set_some _ _ _ _ _ h with ⟨hj, -⟩ | ⟨-, hu⟩
    · rw [hj, hi]
      exact List.mem_append.mpr (Or.inr (List.mem_singleton.mpr rfl))
    · exact List.mem_append.mpr (Or.inl (hinv.written_logged j u hu hw))
  · exact hinv.order_nodup
  · intro j
    show j ∈ s.order ↔ ∃ u, (s.tasks.set g _)[j]? = some u ∧ _
    rw [hinv.order_mem j]
    constructor
    · rintro ⟨u, h1, h2⟩
      by_cases hjg : j = g
      · subst hjg
        exact ⟨{ t with pc := .written },
          by rw [List.getElem?_set, if_pos rfl, if_pos hg], rfl⟩
      · exact ⟨u, by rw [List.getElem?_set, if_neg (Ne.symm hjg)]; exact h1, h2⟩
    · rintro ⟨u, h1, h2⟩
      rcases getElem?_set_some _ _ _ _ _ h1 with ⟨hj, -⟩ | ⟨-, hu⟩
      · exact ⟨t, by rw [hj]; exact ht, by rw [hpc]; rfl⟩
      · exact ⟨u, hu, h2⟩
  · exact hinv.world_eq
  · intro j u e h hp
    rcases getElem?_set_some _ _ _ _ _ h with ⟨-, hu⟩ | ⟨-, hu⟩
    · subst hu
      simp at hp
    · exact hinv.computed_eq j u e hu hp
  · intro j u h hw
    show (s.results.set t.i err)[j]? = _
    rcases getElem?_set_some _ _ _ _ _ h with ⟨hj, -⟩ | ⟨hj, hu⟩
    · rw [hj, hi, List.getElem?_set, if_pos rfl,
        if_pos (by rw [hinv.results_length]; exact hgn)]
      exact (hinv.computed_eq g t err ht hpc).symm
    · rw [hi, List.getElem?_set, if_neg (Ne.symm hj)]
      exact hinv.written_eq j u hu hw

/-- The deferred `wg.Done()` of a goroutine preserves the invariant. -/
theorem destroyInv_done (v : gceVolumeSource σ) (volNames : List String) (w : World σ)
    (s : DestroyState σ) (g : Nat) (t : Task)
    (hinv : DestroyInv v volNames w s) (ht : s.tasks[g]? = some t) (hpc : t.pc = .written) :
    DestroyInv v volNames w
      { s with wg := s.wg - 1, tasks := s.tasks.set g { t with pc := .done } } := by
  have hg : g < s.tasks.length := (List.getElem?_eq_some_iff.mp ht).1
  have hargs := hinv.args g t ht
  constructor
  · exact hinv.results_length
  · show (s.tasks.set g _).length ≤ _
    rw [List.length_set]
    exact hinv.tasks_le
  · intro j h
    show (s.tasks.set g _).length = j
    rw [List.length_set]
    exact hinv.loop_count j h
  · intro h
    have := (hinv.returned_done h).2 t (List.getElem?_mem ht)
    rw [hpc] at this
    exact absurd this (by simp)
  · intro j u h
    rcases getElem?_set_some _ _ _ _ _ h with ⟨hj, hu⟩ | ⟨-, hu⟩
    · subst hu
      rw [hj]
      exact hargs
    · exact hinv.args j u hu
  · show s.wg - 1 = _ - ((s.tasks.set g _).countP _ : Nat)
    rw [countP_set_succ (fun u : Task => u.pc.isDone) s.tasks g { t with pc := .done } t ht
      (by dsimp only; rw [hpc]; rfl) rfl, hinv.counter]
    push_cast
    ring
  · intro e he
    obtain ⟨h1, u, h2, h3⟩ := hinv.writes_own e he
    by_cases heq : e.1 = g
    · refine ⟨h1, { t with pc := .done }, ?_, rfl⟩
      show (s.tasks.set g _)[e.1]? = some _
      rw [heq, List.getElem?_set, if_pos rfl, if_pos hg]
    · refine ⟨h1, u, ?_, h3⟩
      show (s.tasks.set g _)[e.1]? = some u
      rw [List.getElem?_set, if_neg (Ne.symm heq)]
      exact h2
  · exact hinv.writes_nodup
  · intro j u h hw
    rcases getElem?_set_some _ _ _ _ _ h with ⟨hj, -⟩ | ⟨-, hu⟩
    · rw [hj]
      exact hinv.written_logged g t ht (by rw [hpc]; rfl)
    · exact hinv.written_logged j u hu hw
  · exact hinv.order_nodup
  · intro j
    show j ∈ s.order ↔ ∃ u, (s.tasks.set g _)[j]? = some u ∧ _
    rw [hinv.order_mem j]
    constructor
    · rintro ⟨u, h1, h2⟩
      by_cases hjg : j = g
      · subst hjg
        exact ⟨{ t with pc := .done },
          by rw [List.getElem?_set, if_pos rfl, if_pos hg], rfl⟩
      · exact ⟨u, by rw [List.getElem?_set, if_neg (Ne.symm hjg)]; exact h1, h2⟩
    · rintro ⟨u, h1, h2⟩
      rcases getElem?_set_some _ _ _ _ _ h1 with ⟨hj, -⟩ | ⟨-, hu⟩
      · exact ⟨t, by rw [hj]; exact ht, by rw [hpc]; rfl⟩
      · exact ⟨u, hu, h2⟩
  · exact hinv.world_eq
  · intro j u e h hp
    rcases getElem?_set_some _ _ _ _ _ h with ⟨-, hu⟩ | ⟨-, hu⟩
    · subst hu
      simp at hp
    · exact hinv.computed_eq j u e hu hp
  · intro j u h hw
    rcases getElem?_set_some _ _ _ _ _ h with ⟨hj, -⟩ | ⟨-, hu⟩
    · rw [hj]
      exact hinv.written_eq g t ht (by rw [hpc]; rfl)
    · exact hinv.written_eq j u hu hw

/-- Every step of an execution of `DestroyVolumes` preserves the invariant. -/
theorem destroyStep_inv (v : gceVolumeSource σ) (volNames : List String) (w : World σ)
    (s s1 : DestroyState σ) (a : DestroyAction)
    (hinv : DestroyInv v volNames w s) (h : destroyStep v volNames s a = some s1) :
    DestroyInv v volNames w s1 := by
  cases a with
  | main =>
    cases hm : s.main with
    | returned => simp [destroyStep, hm] at h
    | loop k =>
      cases hk : volNames[k]? with
      | some volumeName =>
        simp only [destroyStep, hm, hk, Option.some.injEq] at h
        rw [← h]
        exact destroyInv_spawn v volNames w s k volumeName hinv hm hk
      | none =>
        by_cases hwg : s.wg = 0
        · simp only [destroyStep, hm, hk] at h
          rw [if_pos hwg] at h
          simp only [Option.some.injEq] at h
          rw [← h]
          exact destroyInv_return v volNames w s hinv hwg
        · simp [destroyStep, hm, hk, hwg] at h
  | task g =>
    cases ht : s.tasks[g]? with
    | none => simp [destroyStep, ht] at h
    | some t =>
      cases hpc : t.pc with
      | ready =>
        simp only [destroyStep, ht, hpc, Option.some.injEq] at h
        rw [← h]
        exact destroyInv_call v volNames w s g t hinv ht hpc
      | computed err =>
        by_cases hi : t.i < s.results.length
        · simp only [destroyStep, ht, hpc, hi, if_true, Option.some.injEq] at h
          rw [← h]
          exact destroyInv_write v volNames w s g t err hinv ht hpc
        · simp [destroyStep, ht, hpc, hi] at h
      | written =>
        simp only [destroyStep, ht, hpc, Option.some.injEq] at h
        rw [← h]
        exact destroyInv_done v volNames w s g t hinv ht hpc
      | done => simp [destroyStep, ht, hpc] at h

/-- Every state of an execution of `DestroyVolumes` satisfies the invariant. -/
theorem destroyRun_inv (v : gceVolumeSource σ) (volNames : List String) (w : World σ) :
    ∀ (acts : List DestroyAction) (s s1 : DestroyState σ),
      DestroyInv v volNames w s → destroyRun v volNames acts s = some s1 →
      DestroyInv v volNames w s1 := by
  intro acts
  induction acts with
  | nil =>
    intro s s1 hinv h
    simp only [destroyRun, Option.some.injEq] at h
    rw [← h]
    exact hinv
  | cons a acts ih =>
    intro s s1 hinv h
    cases hs : destroyStep v volNames s a with
    | none => simp [destroyRun, hs] at h
    | some s2 =>
      simp only [destroyRun, hs] at h
      exact ih s2 s1 (destroyStep_inv v volNames w s s2 a hinv hs) h

/-- Summing after one position was overwritten. -/
theorem sum_map_set_eq {α : Type} (f : α → Nat) :
    ∀ (l : List α) (g : Nat) (x t : α), l[g]? = some t →
      ((l.set g x).map f).sum + f t = (l.map f).sum + f x := by
  intro l
  induction l with
  | nil => intro g x t h; simp at h
  | cons a l ih =>
    intro g x t h
    cases g with
    | zero =>
      simp only [List.getElem?_cons_zero, Option.some.injEq] at h
      subst h
      simp only [List.set_cons_zero, List.map_cons, List.sum_cons]
      omega
    | succ g =>
      simp only [List.getElem?_cons_succ] at h
      have := ih g x t h
      simp only [List.set_cons_succ, List.map_cons, List.sum_cons]
      omega

/-- Summing after an overwrite that lowers the summand by one. -/
theorem sum_map_set_pred {α : Type} (f : α → Nat) (l : List α) (g : Nat) (x t : α)
    (h : l[g]? = some t) (hf : f x + 1 = f t) :
    ((l.set g x).map f).sum + 1 = (l.map f).sum := by
  have := sum_map_set_eq f l g x t h
  omega

/-- Every step of an execution of `DestroyVolumes` uses up one unit of the measure. -/
theorem destroyStep_measure (v : gceVolumeSource σ) (volNames : List String) (w : World σ)
    (s s1 : DestroyState σ) (a : DestroyAction)
    (hinv : DestroyInv v volNames w s) (h : destroyStep v volNames s a = some s1) :
    destroyMeasure volNames s1 + 1 = destroyMeasure volNames s := by
  cases a with
  | main =>
    cases hm : s.main with
    | returned => simp [destroyStep, hm] at h
    | loop k =>
      have hlen := hinv.loop_count k hm
      cases hk : volNames[k]? with
      | some volumeName =>
        have hkn : k < volNames.length := (List.getElem?_eq_some_iff.mp hk).1
        simp only [destroyStep, hm, hk, Option.some.injEq] at h
        rw [← h]
        simp only [destroyMeasure, hm, List.map_append, List.sum_append, List.map_cons,
          List.map_nil, List.sum_cons, List.sum_nil, TaskPc.remaining]
        omega
      | none =>
        have hkn : volNames.length ≤ k := by
          by_contra hc
          have := List.getElem?_eq_getElem (Nat.lt_of_not_le hc)
          rw [hk] at this
          exact absurd this (by simp)
        by_cases hwg : s.wg = 0
        · simp only [destroyStep, hm, hk] at h
          rw [if_pos hwg] at h
          simp only [Option.some.injEq] at h
          rw [← h]
          simp only [destroyMeasure, hm]
          omega
        · simp [destroyStep, hm, hk, hwg] at h
  | task g =>
    cases ht : s.tasks[g]? with
    | none => simp [destroyStep, ht] at h
    | some t =>
      cases hpc : t.pc with
      | ready =>
        simp only [destroyStep, ht, hpc, Option.some.injEq] at h
        rw [← h]
        have hsum := sum_map_set_pred (fun u : Task => u.pc.remaining) s.tasks g
          { t with pc := .computed (destroyOneVolume v t.volumeName s.world).1 } t ht (by dsimp only; rw [hpc]; rfl)
        simp only [destroyMeasure]
        omega
      | computed err =>
        by_cases hi : t.i < s.results.length
        · simp only [destroyStep, ht, hpc] at h
          rw [if_pos hi] at h
          simp only [Option.some.injEq] at h
          rw [← h]
          have hsum := sum_map_set_pred (fun u : Task => u.pc.remaining) s.tasks g
            { t with pc := .written } t ht (by dsimp only; rw [hpc]; rfl)
          simp only [destroyMeasure]
          omega
        · simp [destroyStep, ht, hpc, hi] at h
      | written =>
        simp only [destroyStep, ht, hpc, Option.some.injEq] at h
        rw [← h]
        have hsum := sum_map_set_pred (fun u : Task => u.pc.remaining) s.tasks g
          { t with pc := .done } t ht (by dsimp only; rw [hpc]; rfl)
        simp only [destroyMeasure]
        omega
      | done => simp [destroyStep, ht, hpc] at h

/-- An execution of `DestroyVolumes` uses up as many units of the measure as it has steps. -/
theorem destroyRun_measure (v : gceVolumeSource σ) (volNames : List String) (w : World σ) :
    ∀ (acts : List DestroyAction) (s s1 : DestroyState σ),
      DestroyInv v volNames w s → destroyRun v volNames acts s = some s1 →
      destroyMeasure volNames s1 + acts.length = destroyMeasure volNames s := by
  intro acts
  induction acts with
  | nil =>
    intro s s1 _ h
    simp only [destroyRun, Option.some.injEq] at h
    rw [← h]
    rfl
  | cons a acts ih =>
    intro s s1 hinv h
    cases hs : destroyStep v volNames s a with
    | none => simp [destroyRun, hs] at h
    | some s2 =>
      simp only [destroyRun, hs] at h
      have h1 := ih s2 s1 (destroyStep_inv v volNames w s s2 a hinv hs) h
      have h2 := destroyStep_measure v volNames w s s2 a hinv hs
      rw [List.length_cons]
      omega

/-- No deadlock: in a state of an execution of `DestroyVolumes` that has not returned, the
body or some goroutine can take a step. -/
theorem destroyStep_progress (v : gceVolumeSource σ) (volNames : List String) (w : World σ)
    (s : DestroyState σ) (hinv : DestroyInv v volNames w s) (hmain : s.main ≠ .returned) :
    ∃ (a : DestroyAction) (s1 : DestroyState σ), destroyStep v volNames s a = some s1 := by
  cases hm : s.main with
  | returned => exact absurd hm hmain
  | loop k =>
    have hlen := hinv.loop_count k hm
    cases hk : volNames[k]? with
    | some volumeName =>
      exact ⟨.main, _, by simp only [destroyStep, hm, hk]; rfl⟩
    | none =>
      by_cases hall : ∀ t ∈ s.tasks, t.pc.isDone = true
      · have hkn : volNames.length ≤ k := by
          by_contra hc
          have := List.getElem?_eq_getElem (Nat.lt_of_not_le hc)
          rw [hk] at this
          exact absurd this (by simp)
        have hcount : s.tasks.countP (fun t => t.pc.isDone) = s.tasks.length :=
          List.countP_eq_length.mpr hall
        have hwg : s.wg = 0 := by
          have h1 := hinv.counter
          have h2 := hinv.tasks_le
          rw [hcount] at h1
          omega
        refine ⟨.main, { s with main := .returned }, ?_⟩
        simp only [destroyStep, hm, hk]
        rw [if_pos hwg]
      · push_neg at hall
        obtain ⟨t, htm, htd⟩ := hall
        obtain ⟨g, hg⟩ := List.getElem?_of_mem htm
        have hargs := hinv.args g t hg
        have hgn : g < volNames.length :=
          Nat.lt_of_lt_of_le (List.getElem?_eq_some_iff.mp hg).1 hinv.tasks_le
        cases hpc : t.pc with
        | ready => exact ⟨.task g, _, by simp only [destroyStep, hg, hpc]; rfl⟩
        | computed err =>
          have hi : t.i < s.results.length := by
            rw [hargs.1, hinv.results_length]
            exact hgn
          refine ⟨.task g, { s with
            results := s.results.set t.i err,
            writes := s.writes ++ [(g, t.i)],
            tasks := s.tasks.set g { t with pc := .written } }, ?_⟩
          simp only [destroyStep, hg, hpc]
          rw [if_pos hi]
        | written => exact ⟨.task g, _, by simp only [destroyStep, hg, hpc]; rfl⟩
        | done =>
          rw [hpc] at htd
          exact absurd rfl htd

/-- Every execution of `DestroyVolumes` can be continued until the call returns. -/
theorem destroyRun_completion (v : gceVolumeSource σ) (volNames : List String) (w : World σ) :
    ∀ (m : Nat) (s : DestroyState σ), DestroyInv v volNames w s →
      destroyMeasure volNames s = m →
      ∃ (acts : List DestroyAction) (s1 : DestroyState σ),
        destroyRun v volNames acts s = some s1 ∧ s1.main = .returned := by
  intro m
  induction m with
  | zero =>
    intro s _ hm
    cases hmain : s.main with
    | returned => exact ⟨[], s, rfl, hmain⟩
    | loop k =>
      simp only [destroyMeasure, hmain] at hm
      omega
  | succ m ih =>
    intro s hinv hm
    by_cases hmain : s.main = .returned
    · exact ⟨[], s, rfl, hmain⟩
    · obtain ⟨a, s1, hstep⟩ := destroyStep_progress v volNames w s hinv hmain
      have h1 := destroyStep_measure v volNames w s s1 a hinv hstep
      obtain ⟨acts, s2, hrun, hret⟩ := ih s1 (destroyStep_inv v volNames w s s1 a hinv hstep)
        (by omega)
      exact ⟨a :: acts, s2, by simp only [destroyRun, hstep]; exact hrun, hret⟩

/-- C23: in every execution of `DestroyVolumes`, under every schedule of its body and its
goroutines, the goroutine dispatched `g`-th holds the index `g` and the volume name
`volNames[g]` bound at dispatch; every assignment to `results` made by goroutine `g` is to
slot `g`, and no slot is assigned twice, so no two goroutines write the same slot.  When the
body has returned, every goroutine has been dispatched and has finished, every slot has been
assigned exactly once, no thread can take a further step, and results and world are those
of the tasks run one after the other in the order of their calls of `destroyOneVolume`.  The
execution can always be continued until the body returns, and it has at most
`4 * len(volNames) + 1` steps. -/
theorem DestroyVolumes_disjoint_slots (v : gceVolumeSource σ) (volNames : List String)
    (w : World σ) (acts : List DestroyAction) (s : DestroyState σ)
    (h : destroyRun v volNames acts (destroyInit volNames w) = some s) :
    (∀ (g : Nat) (t : Task), s.tasks[g]? = some t →
      t.i = g ∧ volNames[g]? = some t.volumeName) ∧
    (∀ e ∈ s.writes, e.2 = e.1 ∧ e.1 < volNames.length) ∧
    (s.writes.map Prod.snd).Nodup ∧
    (s.main = .returned →
      s.tasks.length = volNames.length ∧
      (∀ t ∈ s.tasks, t.pc = .done) ∧
      (s.writes.map Prod.snd).Perm (List.range volNames.length) ∧
      (∀ a, destroyStep v volNames s a = none) ∧
      s.order.Perm (List.range volNames.length) ∧
      s.results = (DestroyVolumes v volNames s.order w).1.1 ∧
      s.world = (DestroyVolumes v volNames s.order w).2) ∧
    (∃ (acts1 : List DestroyAction) (s1 : DestroyState σ),
      destroyRun v volNames acts1 s = some s1 ∧ s1.main = .returned) ∧
    acts.length ≤ 4 * volNames.length + 1 := by
  have hinit := destroyInv_init v volNames w
  have hinv := destroyRun_inv v volNames w acts _ s hinit h
  have hown : ∀ e ∈ s.writes, e.2 = e.1 ∧ e.1 < volNames.length := by
    intro e he
    obtain ⟨h1, t, h2, -⟩ := hinv.writes_own e he
    exact ⟨h1, Nat.lt_of_lt_of_le (List.getElem?_eq_some_iff.mp h2).1 hinv.tasks_le⟩
  have hnodup : (s.writes.map Prod.snd).Nodup := by
    refine List.Nodup.map_on ?_ hinv.writes_nodup
    intro x hx y hy hxy
    have h1 := (hown x hx).1
    have h2 := (hown y hy).1
    exact Prod.ext (by rw [← h1, ← h2, hxy]) hxy
  refine ⟨hinv.args, hown, hnodup, ?_, ?_, ?_⟩
  · intro hret
    obtain ⟨hlen, hall⟩ := hinv.returned_done hret
    have htask : ∀ g, g < volNames.length →
        ∃ t, s.tasks[g]? = some t ∧ t.pc = .done := by
      intro g hg
      have hg2 : g < s.tasks.length := by rw [hlen]; exact hg
      exact ⟨s.tasks[g], List.getElem?_eq_getElem hg2, hall _ (List.getElem_mem hg2)⟩
    refine ⟨hlen, hall, ?_, ?_, ?_, ?_, ?_⟩
    · refine (List.perm_ext_iff_of_nodup hnodup (List.nodup_range _)).mpr ?_
      intro j
      rw [List.mem_range, List.mem_map]
      constructor
      · rintro ⟨e, he, rfl⟩
        have := hown e he
        rw [this.1]
        exact this.2
      · intro hj
        obtain ⟨t, ht, hpc⟩ := htask j hj
        exact ⟨(j, j), hinv.written_logged j t ht (by rw [hpc]; rfl), rfl⟩
    · intro a
      cases a with
      | main => simp [destroyStep, hret]
      | task g =>
        cases ht : s.tasks[g]? with
        | none => simp [destroyStep, ht]
        | some t =>
          have := hall t (List.getElem?_mem ht)
          simp [destroyStep, ht, this]
    · refine (List.perm_ext_iff_of_nodup hinv.order_nodup (List.nodup_range _)).mpr ?_
      intro j
      rw [List.mem_range, hinv.order_mem j]
      constructor
      · rintro ⟨t, ht, -⟩
        exact Nat.lt_of_lt_of_le (List.getElem?_eq_some_iff.mp ht).1 hinv.tasks_le
      · intro hj
        obtain ⟨t, ht, hpc⟩ := htask j hj
        exact ⟨t, ht, by rw [hpc]; rfl⟩
    · show s.results =
        (destroyTasks v volNames s.order (List.replicate volNames.length none) w).1
      apply List.ext_getElem?
      intro j
      by_cases hj : j < volNames.length
      · obtain ⟨t, ht, hpc⟩ := htask j hj
        exact hinv.written_eq j t ht (by rw [hpc]; rfl)
      · rw [List.getElem?_eq_none (by rw [hinv.results_length]; omega),
          List.getElem?_eq_none
            (by rw [destroyTasks_length, List.length_replicate]; omega)]
    · exact hinv.world_eq
  · exact destroyRun_completion v volNames w _ s hinv rfl
  · have := destroyRun_measure v volNames w acts _ s hinit h
    have h0 : destroyMeasure volNames (destroyInit volNames w) = 4 * volNames.length + 1 := by
      simp [destroyMeasure, destroyInit]
    omega

/-- Instance of `DestroyVolumes_disjoint_slots`: two volumes under `interleavedSchedule`.
The second goroutine assigns slot 1 before the first assigns slot 0; the body returns once
both have finished, with the results in the order of the input. -/
theorem DestroyVolumes_disjoint_slots_witness :
    (destroyRun (stubSource (.ok []) (.error (GoError.new "")))
        ["us-east1-a--u1", "not-a-valid-id"] interleavedSchedule
        (destroyInit ["us-east1-a--u1", "not-a-valid-id"] stubWorld)).map
      (fun s => (s.main, s.writes, s.order, s.results, s.world.calls)) =
      some (.returned, [(1, 1), (0, 0)], [1, 0],
        [none, some (GoError.annotate (malformedVolumeId "not-a-valid-id")
          "invalid volume id %q" ["not-a-valid-id"])],
        [Call.RemoveDisk "us-east1-a" "us-east1-a--u1"]) ∧
    ∃ s : DestroyState Unit,
      destroyRun (stubSource (.ok []) (.error (GoError.new "")))
        ["us-east1-a--u1", "not-a-valid-id"] interleavedSchedule
        (destroyInit ["us-east1-a--u1", "not-a-valid-id"] stubWorld) = some s ∧
      (s.writes.map Prod.snd).Nodup ∧
      (s.main = .returned → ∀ t ∈ s.tasks, t.pc = .done) :=
  ⟨rfl,
   _, rfl,
   (DestroyVolumes_disjoint_slots (stubSource (.ok []) (.error (GoError.new "")))
      ["us-east1-a--u1", "not-a-valid-id"] stubWorld interleavedSchedule _ rfl).2.2.1,
   fun hret => ((DestroyVolumes_disjoint_slots (stubSource (.ok []) (.error (GoError.new "")))
      ["us-east1-a--u1", "not-a-valid-id"] stubWorld interleavedSchedule _ rfl).2.2.2.1
        hret).2.1⟩

end Gce
